import Mathlib

/-!
# VidCrunch: the signed-upload flow and the history store

A shallow embedding of `api/sign-upload.js` and `api/history.js`.

Modelling conventions.
* JavaScript strings are lists of characters (`Str`).
* JavaScript numbers that occur here are integers; they are modelled as `Int`.  `NaN` is
  `none`, and `-0` is identified with `0` (both are falsy and render as `0`).  An integer
  that the code holds as a Number is the nearest binary64 value (`toNumber`), and the
  operators on Numbers round in the same way (section "Number arithmetic").
* The external collaborators (identity provider, record store, SHA-1, clock, environment
  variables) are inputs of the handlers; every call made to them is recorded in a call log.
-/

namespace VidCrunch

/-- JavaScript strings, as sequences of characters. -/
abbrev Str := List Char

/-! ## ECMAScript primitives used by the handlers -/

/-- Values that a field of a parsed JSON body can hold.  `undefined` stands for an absent
field.  Numbers are restricted to integers whose `Number::toString` rendering is the plain
decimal expansion (magnitude below `10^21`); arrays and nested objects are not modelled. -/
inductive JSVal where
  | undefined : JSVal
  | null : JSVal
  | bool (b : Bool) : JSVal
  | num (n : Int) : JSVal
  | str (s : Str) : JSVal
deriving DecidableEq, Repr

/-- ECMAScript `WhiteSpace` and `LineTerminator` code points (the set skipped by
`parseInt`, `String.prototype.trim` and `StringToNumber`). -/
def isWhiteSpace (c : Char) : Bool :=
  let n := c.toNat
  n == 0x09 || n == 0x0A || n == 0x0B || n == 0x0C || n == 0x0D || n == 0x20 || n == 0xA0
    || n == 0x1680 || (0x2000 ≤ n && n ≤ 0x200A) || n == 0x2028 || n == 0x2029
    || n == 0x202F || n == 0x205F || n == 0x3000 || n == 0xFEFF

/-- Leading white space removed. -/
def trimStart (s : Str) : Str := s.dropWhile isWhiteSpace

/-- Trailing white space removed. -/
def trimEnd (s : Str) : Str := (s.reverse.dropWhile isWhiteSpace).reverse

/-- The method `String.prototype.trim`. -/
def trim (s : Str) : Str := trimEnd (trimStart s)

/-- A decimal digit `0`..`9`. -/
def isDecimalDigit (c : Char) : Bool := 48 ≤ c.toNat && c.toNat ≤ 57

/-- Value of a character as a digit of radix up to 36 (`0-9`, `a-z`, `A-Z`). -/
def digitVal (c : Char) : Option Nat :=
  let n := c.toNat
  if 48 ≤ n && n ≤ 57 then some (n - 48)
  else if 97 ≤ n && n ≤ 122 then some (n - 87)
  else if 65 ≤ n && n ≤ 90 then some (n - 55)
  else none

/-- Whether `c` is a digit of radix `R`. -/
def isRadixDigit (R : Nat) (c : Char) : Bool :=
  match digitVal c with
  | some d => decide (d < R)
  | none => false

/-- The mathematical value of a digit string in radix `R`. -/
def radixValue (R : Nat) (Z : Str) : Nat :=
  Z.foldl (fun acc c => acc * R + (digitVal c).getD 0) 0

/-- Step 3-4 of `parseInt`: an optional sign is read and removed. -/
def stripSign : Str → Int × Str
  | [] => (1, [])
  | c :: r => if c = '-' then (-1, r) else if c = '+' then (1, r) else (1, c :: r)

/-- Step 8-9 of `parseInt` with radix argument absent: a `0x`/`0X` prefix selects radix 16,
otherwise the radix is 10. -/
def stripRadixPrefix : Str → Nat × Str
  | [] => (10, [])
  | [c] => (10, [c])
  | c :: d :: r => if c = '0' ∧ (d = 'x' ∨ d = 'X') then (16, r) else (10, c :: d :: r)

/-- The mathematical integer that `parseInt(string)` reads from a string, radix argument
absent (the steps of the algorithm before the final conversion to a Number); `none` is
`NaN`.  The Number returned is `toNumber` of this integer (`parseIntStrNumber`). -/
def parseIntStr (inputString : Str) : Option Int :=
  let S := trimStart inputString
  let (sign, S) := stripSign S
  let (R, S) := stripRadixPrefix S
  let Z := S.takeWhile (isRadixDigit R)
  if Z.isEmpty then none else some (sign * (radixValue R Z : Int))

/-- The character of a decimal digit. -/
def digitChar (d : Nat) : Char := Char.ofNat (48 + d)

/-- Decimal digits of `n`, most significant first (`fuel` bounds the number of digits). -/
def natDigits : Nat → Nat → Str
  | 0, _ => []
  | fuel + 1, n =>
    if n < 10 then [digitChar n] else natDigits fuel (n / 10) ++ [digitChar (n % 10)]

/-- Decimal rendering of a natural number. -/
def natToString (n : Nat) : Str := natDigits (n + 1) n

/-- The operation `Number::toString` on an integer (plain decimal expansion). -/
def numberToString (n : Int) : Str :=
  if n < 0 then '-' :: natToString n.natAbs else natToString n.natAbs

/-- The abstract operation `ToString` on the modelled values. -/
def toStr : JSVal → Str
  | .undefined => "undefined".toList
  | .null => "null".toList
  | .bool true => "true".toList
  | .bool false => "false".toList
  | .num n => numberToString n
  | .str s => s

/-- The abstract operation `ToBoolean` on the modelled values. -/
def truthy : JSVal → Bool
  | .undefined => false
  | .null => false
  | .bool b => b
  | .num n => decide (n ≠ 0)
  | .str s => !s.isEmpty

/-- The mathematical integer that the call `parseInt(v)` reads: the argument is first
converted with `ToString`.  The Number returned is `toNumber` of it (`parseIntNumber`). -/
def parseInt (v : JSVal) : Option Int := parseIntStr (toStr v)

/-- The expression `x || d` for a numeric result `x` (`NaN` and `0` are falsy). -/
def orDefault (x : Option Int) (d : Int) : Int :=
  match x with
  | some n => if n = 0 then d else n
  | none => d

/-- The call `s.split(sep)` for a one-character separator. -/
def split (sep : Char) : Str → List Str
  | [] => [[]]
  | c :: cs =>
    if c = sep then [] :: split sep cs
    else
      match split sep cs with
      | [] => [[c]]
      | p :: ps => (c :: p) :: ps

/-- Nonempty run of decimal digits. -/
def isDecimalDigits (s : Str) : Bool := !s.isEmpty && s.all isDecimalDigit

/-- The grammar `SignedInteger`: decimal digits with an optional sign. -/
def isSignedInteger : Str → Bool
  | [] => false
  | c :: r => if c = '+' ∨ c = '-' then isDecimalDigits r else isDecimalDigits (c :: r)

/-- The grammar `ExponentPart`, optional: empty, or `e`/`E` followed by a signed integer. -/
def isExponentPartOpt : Str → Bool
  | [] => true
  | c :: r => (c = 'e' ∨ c = 'E') && isSignedInteger r

/-- The grammar `StrUnsignedDecimalLiteral`. -/
def isStrUnsignedDecimalLiteral (s : Str) : Bool :=
  if s = "Infinity".toList then true
  else
    let ip := s.takeWhile isDecimalDigit
    match s.dropWhile isDecimalDigit with
    | [] => !ip.isEmpty
    | c :: rest =>
      if c = '.' then
        let fp := rest.takeWhile isDecimalDigit
        (!ip.isEmpty || !fp.isEmpty) && isExponentPartOpt (rest.dropWhile isDecimalDigit)
      else !ip.isEmpty && isExponentPartOpt (c :: rest)

/-- The grammar `StrDecimalLiteral`: an unsigned literal with an optional sign. -/
def isStrDecimalLiteral : Str → Bool
  | [] => false
  | c :: r =>
    if c = '+' ∨ c = '-' then isStrUnsignedDecimalLiteral r
    else isStrUnsignedDecimalLiteral (c :: r)

/-- The grammar `NonDecimalIntegerLiteral`: `0b`, `0o` or `0x` (either case) followed by at
least one digit of that radix. -/
def isNonDecimalIntegerLiteral : Str → Bool
  | c :: d :: r =>
    c = '0' && !r.isEmpty &&
      (((d = 'b' ∨ d = 'B') && r.all (isRadixDigit 2))
        || ((d = 'o' ∨ d = 'O') && r.all (isRadixDigit 8))
        || ((d = 'x' ∨ d = 'X') && r.all (isRadixDigit 16)))
  | _ => false

/-- Whether `StringToNumber(s)` is a number, that is, `!isNaN(s)` for a string `s`: after
trimming, `s` is empty or matches `StrNumericLiteral`. -/
def isNumericString (s : Str) : Bool :=
  let t := trim s
  t.isEmpty || isStrDecimalLiteral t || isNonDecimalIntegerLiteral t

/-- The call `s.startsWith(p)`. -/
def startsWith (p s : Str) : Bool := p.isPrefixOf s

/-- The call `s.replace(pat, rep)` for a string pattern: the first occurrence of `pat` is replaced
(the replacement strings used here contain no `$`). -/
def replaceFirst (pat rep : Str) : Str → Str
  | [] => if pat.isEmpty then rep else []
  | c :: cs =>
    if pat.isPrefixOf (c :: cs) then rep ++ (c :: cs).drop pat.length
    else c :: replaceFirst pat rep cs

/-- Code-unit order on strings, the default order of `Array.prototype.sort`. -/
def strLe : Str → Str → Bool
  | [], _ => true
  | _ :: _, [] => false
  | a :: as, b :: bs => decide (a.toNat < b.toNat) || (a == b && strLe as bs)

/-- The call `keys.sort()` on an array of strings. -/
def sortKeys (keys : List Str) : List Str :=
  List.insertionSort (fun a b => strLe a b = true) keys

/-- The call `parts.join(sep)`. -/
def join (sep : Str) (parts : List Str) : Str := sep.intercalate parts

/-! ## HTTP plumbing shared by the two endpoints -/

/-- Outcome of `createClient(...)` followed by `supabase.auth.getUser(token)`. -/
inductive AuthResult where
  | user (id : Str) : AuthResult
  | failed : AuthResult
  | threw (message : Str) : AuthResult
deriving DecidableEq, Repr

/-- Whether the identity provider returned a user. -/
def AuthResult.isUser : AuthResult → Bool
  | .user _ => true
  | _ => false

/-- A response under construction: the headers set so far. -/
structure Res where
  headers : List (String × String)
deriving DecidableEq, Repr

/-- The call `res.setHeader(k, v)`: an existing header of that name is replaced. -/
def Res.setHeader (res : Res) (k v : String) : Res :=
  if res.headers.any (fun kv => kv.1 = k) then
    ⟨res.headers.map (fun kv => if kv.1 = k then (k, v) else kv)⟩
  else ⟨res.headers ++ [(k, v)]⟩

/-- A response without headers. -/
def Res.fresh : Res := ⟨[]⟩

/-- A response that was sent: status, headers, payload. -/
structure Sent (β : Type) where
  status : Nat
  headers : List (String × String)
  body : β
deriving DecidableEq, Repr

/-- The calls `res.status(code).json(body)` and `res.status(code).end()`. -/
def Res.send {β : Type} (res : Res) (status : Nat) (body : β) : Sent β :=
  ⟨status, res.headers, body⟩

/-- The string `'Bearer '`. -/
def bearerPrefix : Str := "Bearer ".toList

/-- The bearer token: `authHeader.replace('Bearer ', '').trim()`. -/
def token (authHeader : Str) : Str := trim (replaceFirst bearerPrefix [] authHeader)

/-! ## `api/sign-upload.js` -/

namespace SignUpload

/-- The constant `CORS_HEADERS` of `sign-upload.js`. -/
def CORS_HEADERS : List (String × String) :=
  [("Access-Control-Allow-Origin", "*"),
   ("Access-Control-Allow-Methods", "POST, OPTIONS"),
   ("Access-Control-Allow-Headers", "Content-Type, Authorization")]

/-- The fields of `req.body` that the handler reads. -/
structure ReqBody where
  quality : JSVal
  resolution : JSVal
deriving DecidableEq, Repr

/-- A request: method, the `authorization` header, and the parsed body (`none` when
`req.body` is falsy). -/
structure Req where
  method : String
  authorization : Option Str
  body : Option ReqBody
deriving DecidableEq, Repr

/-- What the handler is given besides the request: the identity provider, the SHA-1 hex
digest of `crypto`, the clock `Date.now()` (milliseconds) and the environment variables
(which the file header lists as required; they are taken to be set). -/
structure Env where
  getUser : Str → AuthResult
  sha1Hex : Str → Str
  now : Nat
  CLOUDINARY_API_SECRET : Str
  CLOUDINARY_API_KEY : Str
  CLOUDINARY_CLOUD_NAME : Str

/-- Calls made to the external collaborators. -/
inductive Call where
  | getUser (token : Str) : Call
  | sha1 (input : Str) : Call
deriving DecidableEq, Repr

/-- Payload of a response. -/
inductive Body where
  | empty : Body
  | error (message : Str) : Body
  | signed (signature : Str) (timestamp : Nat) (eager : Str) (apiKey cloudName : Str) : Body
deriving DecidableEq, Repr

/-- The expression `Math.min(100, Math.max(1, parseInt(quality) || 65))`.  The clamp to
`[1, 100]` gives the same result on the integer read by `parseInt` and on its Number. -/
def qualNum (quality : JSVal) : Int :=
  min 100 (max 1 (orDefault (parseInt quality) 65))

/-- The resize clause appended for a string `resolution` other than `'original'`:
`const [w, h] = resolution.split('x')`, then the guard `w && h && !isNaN(w) && !isNaN(h)`. -/
def resizeClause (resolution : Str) : Str :=
  let parts := split 'x' resolution
  let w := parts.headD []
  match parts.tail.head? with
  | none => []
  | some h =>
    if !w.isEmpty && !h.isEmpty && isNumericString w && isNumericString h then
      ",w_".toList ++ w ++ ",h_".toList ++ h ++ ",c_scale".toList
    else []

/-- The transformation string `eager`; `Except.error` carries the message of the
`TypeError` raised when a truthy `resolution` is not a string (it has no `split`). -/
def eager (quality resolution : JSVal) : Except Str Str :=
  let base := "q_".toList ++ numberToString (qualNum quality)
  if truthy resolution && decide (resolution ≠ .str "original".toList) then
    match resolution with
    | .str s => .ok (base ++ resizeClause s)
    | _ => .error
      "resolution.split is not a function or its return value is not iterable".toList
  else .ok base

/-- The expression `Math.round(Date.now() / 1000)`: `Math.round` rounds halves up, so on
a clock value of `now` milliseconds the result is `(now + 500) / 1000`. -/
def timestamp (now : Nat) : Nat := (now + 500) / 1000

/-- The object `paramsToSign`, as its key/value pairs in insertion order. -/
def paramsToSign (eager : Str) (timestamp : Nat) : List (Str × Str) :=
  [("eager".toList, eager),
   ("eager_async".toList, "false".toList),
   ("timestamp".toList, natToString timestamp)]

/-- The expression `Object.keys(paramsToSign).sort().map(k => k + '=' + paramsToSign[k]).join('&')`. -/
def signString (params : List (Str × Str)) : Str :=
  join "&".toList
    ((sortKeys (params.map Prod.fst)).map
      (fun k => k ++ "=".toList ++ ((params.lookup k).getD [])))

/-- The field `quality` of `const { quality = 65, resolution = 'original' } = req.body || {}`. -/
def quality (req : Req) : JSVal :=
  let q := (req.body.getD ⟨.undefined, .undefined⟩).quality
  if q = .undefined then .num 65 else q

/-- The field `resolution` of the same destructuring. -/
def resolution (req : Req) : JSVal :=
  let r := (req.body.getD ⟨.undefined, .undefined⟩).resolution
  if r = .undefined then .str "original".toList else r

/-- The exported `handler`: the response sent and the log of external calls. -/
def handler (env : Env) (req : Req) : Sent Body × List Call :=
  if req.method = "OPTIONS" then
    ((((Res.fresh.setHeader "Access-Control-Allow-Origin" "*").setHeader
        "Access-Control-Allow-Methods" "POST, OPTIONS").setHeader
        "Access-Control-Allow-Headers" "Content-Type, Authorization").send 200 Body.empty, [])
  else
    let res := CORS_HEADERS.foldl (fun r kv => r.setHeader kv.1 kv.2) Res.fresh
    if req.method ≠ "POST" then
      (res.send 405 (Body.error "Method not allowed".toList), [])
    else
      match req.authorization with
      | none =>
        (res.send 401 (Body.error "Missing or invalid Authorization header".toList), [])
      | some authHeader =>
        if authHeader.isEmpty || !startsWith bearerPrefix authHeader then
          (res.send 401 (Body.error "Missing or invalid Authorization header".toList), [])
        else
          let tok := token authHeader
          match env.getUser tok with
          | .threw message =>
            (res.send 500 (Body.error ("Internal server error: ".toList ++ message)),
              [Call.getUser tok])
          | .failed =>
            (res.send 401 (Body.error "Token tidak valid atau sudah expired".toList),
              [Call.getUser tok])
          | .user _ =>
            match eager (quality req) (resolution req) with
            | .error message =>
              (res.send 500 (Body.error ("Internal server error: ".toList ++ message)),
                [Call.getUser tok])
            | .ok e =>
              let ts := timestamp env.now
              let signed := signString (paramsToSign e ts) ++ env.CLOUDINARY_API_SECRET
              let signature := env.sha1Hex signed
              (res.send 200
                  (Body.signed signature ts e env.CLOUDINARY_API_KEY env.CLOUDINARY_CLOUD_NAME),
                [Call.getUser tok, Call.sha1 signed])

/-- The token that `handler` extracts from the request. -/
def bearer (req : Req) : Str := token (req.authorization.getD [])

/-- The request passes the gateway of `handler`: it is a `POST` whose `authorization`
header starts with `Bearer ` and whose token the identity provider verifies. -/
def Accepted (env : Env) (req : Req) : Prop :=
  req.method = "POST" ∧ startsWith bearerPrefix (req.authorization.getD []) = true ∧
    (env.getUser (bearer req)).isUser = true

instance (env : Env) (req : Req) : Decidable (Accepted env req) := by
  unfold Accepted; infer_instance

/-- The `eager` field of a success payload. -/
def Body.eager? : Body → Option Str
  | .signed _ _ e _ _ => some e
  | _ => none

/-- The `signature` field of a success payload. -/
def Body.signature? : Body → Option Str
  | .signed s _ _ _ _ => some s
  | _ => none

/-- The `timestamp` field of a success payload. -/
def Body.timestamp? : Body → Option Nat
  | .signed _ t _ _ _ => some t
  | _ => none

/-- The strings handed to SHA-1 in a call log. -/
def hashed (log : List Call) : List Str :=
  log.filterMap (fun c => match c with | .sha1 input => some input | _ => none)

/-- The string hashed for an accepted request with a string `resolution`. -/
def signedInput (env : Env) (req : Req) (s : Str) : Str :=
  signString (paramsToSign
      ("q_".toList ++ numberToString (qualNum (quality req)) ++ resizeClause s)
      (timestamp env.now))
    ++ env.CLOUDINARY_API_SECRET

/-- A concrete environment for worked examples: the identity provider verifies the token
`tok` only, the digest is kept symbolic as `sha1(` input `)`, and the clock reads
`1700000000499` ms. -/
def demoEnv : Env :=
  { getUser := fun t => if t = "tok".toList then .user "u1".toList else .failed
    sha1Hex := fun input => "sha1(".toList ++ input ++ ")".toList
    now := 1700000000499
    CLOUDINARY_API_SECRET := "SECRET".toList
    CLOUDINARY_API_KEY := "KEY".toList
    CLOUDINARY_CLOUD_NAME := "cloud".toList }

/-- A `POST` carrying the token `tok` and the given body fields. -/
def demoReq (quality resolution : JSVal) : Req :=
  { method := "POST", authorization := some "Bearer tok".toList,
    body := some ⟨quality, resolution⟩ }

/-- A second environment for worked examples: another identity provider (token `other`,
user `u2`) and other public keys, with the secret, digest and clock second of `demoEnv`. -/
def demoEnv2 : Env :=
  { getUser := fun t => if t = "other".toList then .user "u2".toList else .failed
    sha1Hex := demoEnv.sha1Hex
    now := 1700000000000
    CLOUDINARY_API_SECRET := "SECRET".toList
    CLOUDINARY_API_KEY := "KEY2".toList
    CLOUDINARY_CLOUD_NAME := "cloud2".toList }

end SignUpload

/-! ## Number arithmetic

The operators `+`, `-`, `*`, `/`, `<=` and `Math.round` on Numbers, where their rounding
matters (the savings of a record, `calcSavingsPct`, the index range of a list query, the
sizes written by `handlePost`).  A finite Number is `mant * 2 ^ exp`; the result of an
operator is the exact result rounded to the nearest Number with 53 significant bits, ties
to even.  The exponent is not bounded: `Infinity` (a magnitude above `MAX_VALUE`) and the
reduced precision below `2 ^ (-1022)` are not modelled, and the statements that depend on
them carry the bound as a hypothesis. -/

/-- A finite Number value (IEEE 754 binary64) `mant * 2 ^ exp`. -/
structure Double where
  mant : Int
  exp : Int
deriving DecidableEq, Repr

/-- Scales `N / D` by powers of two until the quotient lies in `[2^52, 2^53)`; the third
component is the power of two taken out.  `fuel` bounds the number of doublings. -/
def normalize : Nat → Nat → Nat → Int → Nat × Nat × Int
  | 0, N, D, e => (N, D, e)
  | fuel + 1, N, D, e =>
    if 2 ^ 53 * D ≤ N then normalize fuel N (2 * D) (e + 1)
    else if N < 2 ^ 52 * D then normalize fuel (2 * N) D (e - 1)
    else (N, D, e)

/-- The Number nearest to the rational `num / den` (round to nearest, ties to even, 53
significant bits).  The 2200 doublings allowed cover every quotient between `2 ^ (-2100)`
and `2 ^ 2100`. -/
def roundToDouble (num : Int) (den : Nat) : Double :=
  if num = 0 ∨ den = 0 then ⟨0, 0⟩
  else
    let (N, D, e) := normalize 2200 num.natAbs den 0
    let q := N / D
    let r := N % D
    let m := if D < 2 * r ∨ (2 * r = D ∧ q % 2 = 1) then q + 1 else q
    ⟨if num < 0 then -(m : Int) else (m : Int), e⟩

/-- The exact value of a Number as a fraction: numerator and positive denominator. -/
def Double.toFrac (x : Double) : Int × Nat :=
  if 0 ≤ x.exp then (x.mant * 2 ^ x.exp.toNat, 1) else (x.mant, 2 ^ (-x.exp).toNat)

/-- The Number of an integer. -/
def Double.ofInt (n : Int) : Double := roundToDouble n 1

/-- The operator `x - y` on Numbers. -/
def Double.sub (x y : Double) : Double :=
  roundToDouble (x.toFrac.1 * y.toFrac.2 - y.toFrac.1 * x.toFrac.2) (x.toFrac.2 * y.toFrac.2)

/-- The operator `x * y` on Numbers. -/
def Double.mul (x y : Double) : Double :=
  roundToDouble (x.toFrac.1 * y.toFrac.1) (x.toFrac.2 * y.toFrac.2)

/-- The operator `x / y` on Numbers, for `y` other than zero. -/
def Double.div (x y : Double) : Double :=
  roundToDouble (x.toFrac.1 * y.toFrac.2 * Int.sign y.toFrac.1)
    (x.toFrac.2 * y.toFrac.1.natAbs)

/-- The function `Math.round`: the nearest integer, a half rounding up. -/
def Double.round (x : Double) : Int :=
  (2 * x.toFrac.1 + x.toFrac.2) / (2 * (x.toFrac.2 : Int))

/-- The comparison `x <= y` of two Numbers. -/
def Double.le (x y : Double) : Prop :=
  x.toFrac.1 * (y.toFrac.2 : Int) ≤ y.toFrac.1 * (x.toFrac.2 : Int)

instance (x y : Double) : Decidable (Double.le x y) := by
  unfold Double.le; infer_instance

/-- The value of a Number that is an integer. -/
def Double.toInt (x : Double) : Int :=
  if 0 ≤ x.exp then x.mant * 2 ^ x.exp.toNat else x.mant / 2 ^ (-x.exp).toNat

/-- The constant `Number.MAX_VALUE`, the largest finite Number. -/
def MAX_VALUE : Nat := 2 ^ 1024 - 2 ^ 971

/-- The Number of a mathematical integer `n`: `n` itself when its magnitude is at most
`2 ^ 53`, and the nearest binary64 value (ties to even), again an integer, beyond.  For a
magnitude above `MAX_VALUE` the code may hold `Infinity`, which is not modelled. -/
def toNumber (n : Int) : Int :=
  if n.natAbs ≤ 2 ^ 53 then n else (Double.ofInt n).toInt

/-- The Number returned by `parseInt(string)`; `none` is `NaN`. -/
def parseIntStrNumber (inputString : Str) : Option Int :=
  (parseIntStr inputString).map toNumber

/-- The Number returned by the call `parseInt(v)`; `none` is `NaN`. -/
def parseIntNumber (v : JSVal) : Option Int := (parseInt v).map toNumber

/-- The number of UTF-16 code units of a character: two for a character outside the Basic
Multilingual Plane. -/
def utf16Size (c : Char) : Nat := if c.toNat < 0x10000 then 1 else 2

/-- The UTF-16 code units of a character. -/
def utf16Units (c : Char) : List Nat :=
  if c.toNat < 0x10000 then [c.toNat]
  else [0xD800 + (c.toNat - 0x10000) / 0x400, 0xDC00 + (c.toNat - 0x10000) % 0x400]

/-- The UTF-16 code units of a string: what JavaScript indexes and counts. -/
def utf16 : Str → List Nat
  | [] => []
  | c :: cs => utf16Units c ++ utf16 cs

/-- The call `s.substring(0, indexEnd)`, which counts UTF-16 code units: the characters that
lie within the first `indexEnd` units.  When the last of these units is the first half of a
surrogate pair (`cutsPair`), JavaScript keeps that half as well; a `Str` cannot hold it. -/
def substring : Str → Nat → Str
  | [], _ => []
  | c :: cs, indexEnd =>
    if utf16Size c ≤ indexEnd then c :: substring cs (indexEnd - utf16Size c) else []

/-- Whether the unit at position `indexEnd - 1` of the string is the first half of a
surrogate pair, so that `s.substring(0, indexEnd)` ends with an unpaired surrogate. -/
def cutsPair : Str → Nat → Bool
  | [], _ => false
  | c :: cs, indexEnd =>
    if utf16Size c ≤ indexEnd then cutsPair cs (indexEnd - utf16Size c)
    else decide (0 < indexEnd)

/-! ## `api/history.js` -/

namespace History

/-- The constant `CORS_HEADERS` of `history.js`. -/
def CORS_HEADERS : List (String × String) :=
  [("Access-Control-Allow-Origin", "*"),
   ("Access-Control-Allow-Methods", "GET, POST, DELETE, OPTIONS"),
   ("Access-Control-Allow-Headers", "Content-Type, Authorization")]

/-- The constant `TABLE`. -/
def TABLE : String := "compress_history"

/-- The object `record` that `handlePost` hands to the store.  `created_at` is the clock
instant in milliseconds (its ISO-8601 rendering is not modelled). -/
structure NewRecord where
  user_id : Str
  filename : Str
  original_size : Int
  compressed_size : Int
  cloudinary_url : Str
  resolution : Str
  quality : Int
  public_id : Option Str
  created_at : Nat
deriving DecidableEq, Repr

/-- A row of the table: a record together with the `id` assigned by the store. -/
structure Record extends NewRecord where
  id : Str
deriving DecidableEq, Repr

/-- The fields of `req.query` that the handlers read; each parameter occurs at most once,
so its value is a string (`none` when absent). -/
structure Query where
  limit : Option Str
  offset : Option Str
  search : Option Str
  sort : Option Str
  id : Option Str
deriving DecidableEq, Repr

/-- The fields of `req.body` that `handlePost` reads. -/
structure PostBody where
  filename : JSVal
  original_size : JSVal
  compressed_size : JSVal
  cloudinary_url : JSVal
  resolution : JSVal
  quality : JSVal
  public_id : JSVal
deriving DecidableEq, Repr

/-- A request: method, the `authorization` header, the query and the parsed body (`none`
when `req.body` is falsy). -/
structure Req where
  method : String
  authorization : Option Str
  query : Query
  body : Option PostBody
deriving DecidableEq, Repr

/-- The columns the list query orders by. -/
inductive Column where
  | created_at : Column
  | original_size : Column
deriving DecidableEq, Repr

/-- The list query built by `handleGet`: `.eq('user_id', userId)`, the optional
`.ilike('filename', pattern)`, `.order(column, { ascending })` and
`.range(rangeFrom, rangeTo)`. -/
structure Select where
  user_id : Str
  pattern : Option Str
  column : Column
  ascending : Bool
  rangeFrom : Int
  rangeTo : Int
deriving DecidableEq, Repr

/-- What the handler is given besides the request and the table: the identity provider, the
clock, and the behaviour of the store that is not fixed by the table content (the `ILIKE`
match of PostgreSQL, the error each kind of operation reports if it fails, and the `id`
given to an inserted row). -/
structure Env where
  getUser : Str → AuthResult
  now : Nat
  ilike : Str → Str → Bool
  selectError : Option Str
  fetchError : Option Str
  insertError : Option Str
  deleteError : Option Str
  newId : Str

/-- Calls made to the external collaborators. -/
inductive Call where
  | getUser (token : Str) : Call
  | select (q : Select) : Call
  | fetch (id : Str) : Call
  | insert (record : NewRecord) : Call
  | delete (id : Str) : Call
deriving DecidableEq, Repr

/-- Payload of a response: nothing, `{ error }`, `{ data, total }`, `{ data }`, or
`{ success: true, deletedId }`. -/
inductive Body where
  | empty : Body
  | error (message : Str) : Body
  | list (data : List Record) (total : Nat) : Body
  | created (data : Record) : Body
  | deleted (deletedId : Str) : Body
deriving DecidableEq, Repr

/-- The outcome of a handler: the response, the calls made, and the table afterwards. -/
structure Outcome where
  sent : Sent Body
  calls : List Call
  rows : List Record
deriving DecidableEq, Repr

/-- The store's `.order(column, { ascending })`: a stable sort of the rows on the column
(rows with equal keys stay in table order). -/
def order (column : Column) (ascending : Bool) (rows : List Record) : List Record :=
  match column, ascending with
  | .created_at, true => rows.insertionSort (fun a b => a.created_at ≤ b.created_at)
  | .created_at, false => rows.insertionSort (fun a b => b.created_at ≤ a.created_at)
  | .original_size, true => rows.insertionSort (fun a b => a.original_size ≤ b.original_size)
  | .original_size, false => rows.insertionSort (fun a b => b.original_size ≤ a.original_size)

/-- The rows a list query matches, before ordering and paging. -/
def matching (env : Env) (rows : List Record) (q : Select) : List Record :=
  rows.filter (fun r =>
    decide (r.user_id = q.user_id) &&
      (match q.pattern with
       | none => true
       | some pat => env.ilike pat r.filename))

/-- The store's answer to a list query with `count: 'exact'`: the page of the ordered
matching rows at indices `rangeFrom`..`rangeTo`, and the number of matching rows; or an
error. -/
def runSelect (env : Env) (rows : List Record) (q : Select) : Except Str (List Record × Nat) :=
  match env.selectError with
  | some message => .error message
  | none =>
    let found := matching env rows q
    .ok (((order q.column q.ascending found).drop q.rangeFrom.toNat).take
          (q.rangeTo + 1 - q.rangeFrom).toNat,
        found.length)

/-- The savings of a record as a ratio of exact arithmetic: `1 - compressed / original`
when `original_size > 0`, else 0.  The comparator of `handleGet` computes this ratio in
binary64 (`savNumber`). -/
def sav (x : Record) : ℚ :=
  if x.original_size > 0 then 1 - (x.compressed_size : ℚ) / (x.original_size : ℚ) else 0

/-- The Number `savA` of the `biggest-saving` comparator:
`a.original_size > 0 ? (1 - a.compressed_size / a.original_size) : 0`, each operator being
the binary64 operation. -/
def savNumber (x : Record) : Double :=
  if x.original_size > 0 then
    Double.sub (Double.ofInt 1)
      (Double.div (Double.ofInt x.compressed_size) (Double.ofInt x.original_size))
  else Double.ofInt 0

/-- The call `result.sort((a, b) => savB - savA)`: a stable sort that keeps `a` before `b`
when `savB - savA` is not positive, that is when `savB <= savA` (the difference of two
Numbers has the sign of their comparison). -/
def sortBySaving (result : List Record) : List Record :=
  result.insertionSort (fun a b => Double.le (savNumber b) (savNumber a))

/-- The expression `Math.min(100, Math.max(1, parseInt(limit) || 12))` with the default `limit = '12'`. -/
def lim (limit : Option Str) : Int :=
  min 100 (max 1 (orDefault (parseIntStrNumber (limit.getD "12".toList)) 12))

/-- The expression `Math.max(0, parseInt(offset) || 0)` with the default `offset = '0'`. -/
def off (offset : Option Str) : Int :=
  max 0 (orDefault (parseIntStrNumber (offset.getD "0".toList)) 0)

/-- The query that `handleGet` builds.  The end of the range is `off + lim - 1` on Numbers:
the sum and the difference are each rounded to binary64. -/
def buildSelect (query : Query) (userId : Str) : Select :=
  let search := query.search.getD []
  let sort := query.sort.getD "newest".toList
  let pattern :=
    if !search.isEmpty && !(trim search).isEmpty then
      some ("%".toList ++ trim search ++ "%".toList)
    else none
  let (column, ascending) :=
    if sort = "oldest".toList then (Column.created_at, true)
    else if sort = "biggest-saving".toList then (Column.created_at, false)
    else if sort = "biggest-file".toList then (Column.original_size, false)
    else (Column.created_at, false)
  { user_id := userId, pattern := pattern, column := column, ascending := ascending,
    rangeFrom := off query.offset,
    rangeTo := toNumber (toNumber (off query.offset + lim query.limit) - 1) }

/-- The function `handleGet`. -/
def handleGet (env : Env) (rows : List Record) (req : Req) (res : Res) (userId : Str) :
    Sent Body × List Call :=
  let q := buildSelect req.query userId
  match runSelect env rows q with
  | .error message =>
    (res.send 500 (Body.error ("Query gagal: ".toList ++ message)), [Call.select q])
  | .ok (data, count) =>
    let result :=
      if req.query.sort.getD "newest".toList = "biggest-saving".toList then sortBySaving data
      else data
    (res.send 200 (Body.list result count), [Call.select q])

/-- The object `record` built by `handlePost`.  `substring(0, 255)` keeps the first 255
UTF-16 code units of the string; the sizes and the quality are the Numbers that `parseInt`
returns. -/
def record (env : Env) (body : PostBody) (userId : Str) : NewRecord :=
  { user_id := userId
    filename := substring (toStr body.filename) 255
    original_size := orDefault (parseIntNumber body.original_size) 0
    compressed_size := orDefault (parseIntNumber body.compressed_size) 0
    cloudinary_url := toStr body.cloudinary_url
    resolution := toStr (if truthy body.resolution then body.resolution
      else .str "original".toList)
    quality := orDefault (parseIntNumber body.quality) 65
    public_id := if truthy body.public_id then some (toStr body.public_id) else none
    created_at := env.now }

/-- The function `handlePost`; the third component is the table afterwards. -/
def handlePost (env : Env) (rows : List Record) (req : Req) (res : Res) (userId : Str) :
    Sent Body × List Call × List Record :=
  let body := req.body.getD
    ⟨.undefined, .undefined, .undefined, .undefined, .undefined, .undefined, .undefined⟩
  if !truthy body.filename || !truthy body.cloudinary_url then
    (res.send 400 (Body.error "filename dan cloudinary_url wajib diisi".toList), [], rows)
  else
    let rec_ := record env body userId
    match env.insertError with
    | some message =>
      (res.send 500 (Body.error ("Gagal simpan ke database: ".toList ++ message)),
        [Call.insert rec_], rows)
    | none =>
      let data : Record := { toNewRecord := rec_, id := env.newId }
      (res.send 201 (Body.created data), [Call.insert rec_], rows ++ [data])

/-- The store's `.select('id, user_id').eq('id', id).single()`: the one row with that `id`;
an error is reported when the operation fails and when the number of rows is not one. -/
def fetchSingle (env : Env) (rows : List Record) (id : Str) : Option Record :=
  match env.fetchError, rows.filter (fun r => decide (r.id = id)) with
  | none, [existing] => some existing
  | _, _ => none

/-- The function `handleDelete`; the third component is the table afterwards. -/
def handleDelete (env : Env) (rows : List Record) (req : Req) (res : Res) (userId : Str) :
    Sent Body × List Call × List Record :=
  match req.query.id with
  | none => (res.send 400 (Body.error "Parameter id diperlukan".toList), [], rows)
  | some id =>
    if id.isEmpty then
      (res.send 400 (Body.error "Parameter id diperlukan".toList), [], rows)
    else
      match fetchSingle env rows id with
      | none =>
        (res.send 404 (Body.error "Record tidak ditemukan".toList), [Call.fetch id], rows)
      | some existing =>
        if existing.user_id ≠ userId then
          (res.send 403 (Body.error "Lo gak berhak hapus record orang lain".toList),
            [Call.fetch id], rows)
        else
          match env.deleteError with
          | some message =>
            (res.send 500 (Body.error ("Gagal hapus: ".toList ++ message)),
              [Call.fetch id, Call.delete id], rows)
          | none =>
            (res.send 200 (Body.deleted id), [Call.fetch id, Call.delete id],
              rows.filter (fun r => decide (r.id ≠ id)))

/-- The exported `handler`. -/
def handler (env : Env) (rows : List Record) (req : Req) : Outcome :=
  if req.method = "OPTIONS" then
    ⟨(((Res.fresh.setHeader "Access-Control-Allow-Origin" "*").setHeader
        "Access-Control-Allow-Methods" "GET, POST, DELETE, OPTIONS").setHeader
        "Access-Control-Allow-Headers" "Content-Type, Authorization").send 200 Body.empty,
      [], rows⟩
  else
    let res := CORS_HEADERS.foldl (fun r kv => r.setHeader kv.1 kv.2) Res.fresh
    match req.authorization with
    | none => ⟨res.send 401 (Body.error "Authorization header diperlukan".toList), [], rows⟩
    | some authHeader =>
      if authHeader.isEmpty || !startsWith bearerPrefix authHeader then
        ⟨res.send 401 (Body.error "Authorization header diperlukan".toList), [], rows⟩
      else
        let tok := token authHeader
        match env.getUser tok with
        | .threw message =>
          ⟨res.send 500 (Body.error ("Auth check gagal: ".toList ++ message)),
            [Call.getUser tok], rows⟩
        | .failed =>
          ⟨res.send 401 (Body.error "Token tidak valid".toList), [Call.getUser tok], rows⟩
        | .user userId =>
          if req.method = "GET" then
            let r := handleGet env rows req res userId
            ⟨r.1, Call.getUser tok :: r.2, rows⟩
          else if req.method = "POST" then
            let r := handlePost env rows req res userId
            ⟨r.1, Call.getUser tok :: r.2.1, r.2.2⟩
          else if req.method = "DELETE" then
            let r := handleDelete env rows req res userId
            ⟨r.1, Call.getUser tok :: r.2.1, r.2.2⟩
          else
            ⟨res.send 405 (Body.error "Method not allowed".toList), [Call.getUser tok], rows⟩

/-- The token that `handler` extracts from the request. -/
def bearer (req : Req) : Str := token (req.authorization.getD [])

/-- The request carries a bearer credential that the identity provider verifies as the
principal `userId`. -/
def Authed (env : Env) (req : Req) (userId : Str) : Prop :=
  startsWith bearerPrefix (req.authorization.getD []) = true ∧
    env.getUser (bearer req) = .user userId

instance (env : Env) (req : Req) (userId : Str) : Decidable (Authed env req userId) := by
  unfold Authed; infer_instance

/-- The `data` of a list payload. -/
def Body.data? : Body → Option (List Record)
  | .list data _ => some data
  | _ => none

/-- The `total` of a list payload. -/
def Body.total? : Body → Option Nat
  | .list _ total => some total
  | _ => none

/-- The list queries in a call log. -/
def selects (log : List Call) : List Select :=
  log.filterMap (fun c => match c with | .select q => some q | _ => none)

/-- A concrete environment for worked examples: the identity provider verifies the token
`tok` as the principal `u1`, `ILIKE` accepts every row, no store operation fails. -/
def demoEnv : Env :=
  { getUser := fun t => if t = "tok".toList then .user "u1".toList else .failed
    now := 5000
    ilike := fun _ _ => true
    selectError := none
    fetchError := none
    insertError := none
    deleteError := none
    newId := "new".toList }

/-- A row for worked examples. -/
def demoRow (id user : String) (original compressed : Int) (created : Nat) : Record :=
  { id := id.toList, user_id := user.toList, filename := "f.mp4".toList,
    original_size := original, compressed_size := compressed,
    cloudinary_url := "https://x".toList, resolution := "original".toList, quality := 65,
    public_id := none, created_at := created }

/-- A table for worked examples: three rows of `u1` and one of `u2`. -/
def demoRows : List Record :=
  [demoRow "a" "u1" 100 50 1, demoRow "b" "u2" 100 10 2, demoRow "c" "u1" 200 20 3,
    demoRow "d" "u1" 0 0 4]

/-- A query without parameters. -/
def noQuery : Query := ⟨none, none, none, none, none⟩

/-- The fields read from a request without a body: each one is `undefined`. -/
def noBody : PostBody :=
  ⟨.undefined, .undefined, .undefined, .undefined, .undefined, .undefined, .undefined⟩

/-- The fields that `handlePost` reads: the destructuring of `req.body || {}`. -/
def fields (req : Req) : PostBody := req.body.getD noBody

/-- The field `key` of a JSON object given by its key/value pairs; an absent key reads as
`undefined`. -/
def getField (obj : List (Str × JSVal)) (key : String) : JSVal :=
  (obj.lookup key.toList).getD .undefined

/-- The destructuring `const { filename, original_size, compressed_size, cloudinary_url,
resolution, quality, public_id } = body` of a JSON object: the seven named fields are read,
every other key of the object is ignored. -/
def PostBody.ofObject (obj : List (Str × JSVal)) : PostBody :=
  { filename := getField obj "filename"
    original_size := getField obj "original_size"
    compressed_size := getField obj "compressed_size"
    cloudinary_url := getField obj "cloudinary_url"
    resolution := getField obj "resolution"
    quality := getField obj "quality"
    public_id := getField obj "public_id" }

/-- The names of the fields that `handlePost` reads. -/
def postKeys : List String :=
  ["filename", "original_size", "compressed_size", "cloudinary_url", "resolution", "quality",
    "public_id"]

/-- The records handed to the store's insert in a call log. -/
def inserts (log : List Call) : List NewRecord :=
  log.filterMap (fun c => match c with | .insert r => some r | _ => none)

/-- The ids handed to the store's delete in a call log. -/
def deletes (log : List Call) : List Str :=
  log.filterMap (fun c => match c with | .delete id => some id | _ => none)

/-- A verified `POST` with the given body, for worked examples. -/
def demoPost (body : PostBody) : Req :=
  { method := "POST", authorization := some "Bearer tok".toList, query := noQuery,
    body := some body }

/-- A verified `DELETE` of the given id, for worked examples. -/
def demoDelete (id : String) : Req :=
  { method := "DELETE", authorization := some "Bearer tok".toList,
    query := { noQuery with id := some id.toList }, body := none }

end History

/-! ## `assets/js/history.js` and `calcSavingsPct` of `assets/js/api.js`

The history view: the script's variables and the parts of the page it writes, as one state
record; each listener is a function on that state.  The items are the records returned by
the server.  `String.prototype.toLowerCase` is a parameter (`lower`).  `loadHistory` is
modelled as one step that is given the outcome of the call to the server.  The confirm
listener of the delete overlay is modelled in two steps, the part before its `await` and the
part that runs when the request has settled, because that part reads `pendingDeleteId`
again and other listeners can run during the request.  The header statistics, button labels
and alerts are not part of the state. -/

namespace HistoryView

open History (Record)

/-- The constant `PAGE_SIZE`. -/
def PAGE_SIZE : Nat := 12

/-- The variables of `history.js` (`allItems`, `filteredItems`, `displayedCount`,
`pendingDeleteId`) and the page state the script reads and writes: the values of the search
box and the sort select, the cards in `historyGrid` (by item, in order), and whether the
load-more control, the empty state, the loading state and the delete overlay are shown. -/
structure State where
  allItems : List Record
  filteredItems : List Record
  displayedCount : Nat
  pendingDeleteId : Option Str
  searchValue : Str
  sortValue : Str
  grid : List Record
  loadMoreShown : Bool
  emptyShown : Bool
  loadingShown : Bool
  deleteOverlayShown : Bool
deriving DecidableEq, Repr

/-- The function `calcSavingsPct(original, compressed)` on integer arguments:
`if (!original || !compressed) return 0;` then
`Math.max(0, Math.round((1 - compressed / original) * 100))`, each operator being the
binary64 operation. -/
def calcSavingsPct (original compressed : Int) : Int :=
  if original = 0 ∨ compressed = 0 then 0
  else max 0 (Double.round (Double.mul
    (Double.sub (Double.ofInt 1)
      (Double.div (Double.ofInt compressed) (Double.ofInt original)))
    (Double.ofInt 100)))

/-- The savings percentage as a formula of exact arithmetic:
`max(0, round(100 * (1 - compressed / original)))`, a half rounding up. -/
def exactSavingsPct (original compressed : Int) : Int :=
  max 0 (Int.floor ((100 : ℚ) * (1 - (compressed : ℚ) / (original : ℚ)) + 1 / 2))

/-- The call `s.includes(sub)`: `sub` occurs in `s` as a contiguous run. -/
def includes (s sub : Str) : Bool := s.tails.any (fun t => sub.isPrefixOf t)

/-- The comparator handed to `filteredItems.sort` in `applyFilterAndRender`: the number it
returns for the items `a` and `b` under the sort key `sort`. -/
def compareItems (sort : Str) (a b : Record) : Int :=
  if sort = "oldest".toList then (a.created_at : Int) - (b.created_at : Int)
  else if sort = "biggest-saving".toList then
    calcSavingsPct b.original_size b.compressed_size
      - calcSavingsPct a.original_size a.compressed_size
  else if sort = "biggest-file".toList then b.original_size - a.original_size
  else (b.created_at : Int) - (a.created_at : Int)

/-- The call `items.sort(cmp)` for a consistent comparator: a stable sort that puts `a`
before `b` when `cmp(a, b)` is negative and keeps the order of items that compare equal. -/
def jsSort (cmp : Record → Record → Int) (items : List Record) : List Record :=
  items.insertionSort (fun a b => cmp a b ≤ 0)

/-- The function `clearGrid`. -/
def clearGrid (st : State) : State :=
  { st with grid := [], emptyShown := false, loadMoreShown := false }

/-- The function `renderNextPage`. -/
def renderNextPage (st : State) : State :=
  let st := { st with loadingShown := false }
  if st.filteredItems.length = 0 then { st with emptyShown := true }
  else
    let toRender := (st.filteredItems.drop st.displayedCount).take PAGE_SIZE
    let st := { st with
      emptyShown := false
      grid := st.grid ++ toRender
      displayedCount := st.displayedCount + toRender.length }
    { st with loadMoreShown := decide (st.displayedCount < st.filteredItems.length) }

/-- The list that `applyFilterAndRender` stores in `filteredItems`: the items whose lowered
filename includes the lowered search text (all items when it is empty), sorted under the sort
key (`newest` when the select has no value). -/
def filterAndSort (lower : Str → Str) (searchValue sortValue : Str)
    (allItems : List Record) : List Record :=
  let search := lower searchValue
  let sort := if sortValue.isEmpty then "newest".toList else sortValue
  jsSort (compareItems sort)
    (allItems.filter (fun item => search.isEmpty || includes (lower item.filename) search))

/-- The function `applyFilterAndRender`. -/
def applyFilterAndRender (lower : Str → Str) (st : State) : State :=
  renderNextPage (clearGrid
    { st with filteredItems := filterAndSort lower st.searchValue st.sortValue st.allItems })

/-- The `input` listener of the search box, when its debounce timer fires: the state already
holds the new search text. -/
def onSearchInput (lower : Str → Str) (st : State) : State :=
  applyFilterAndRender lower { st with displayedCount := 0 }

/-- The `change` listener of the sort select: the state already holds the new sort key. -/
def onSortChange (lower : Str → Str) (st : State) : State :=
  applyFilterAndRender lower { st with displayedCount := 0 }

/-- The `click` listener of the load-more button. -/
def onLoadMore (st : State) : State := renderNextPage st

/-- The function `openDeleteModal`. -/
def openDeleteModal (id : Str) (st : State) : State :=
  { st with pendingDeleteId := some id, deleteOverlayShown := true }

/-- The `click` listener of the cancel button of the delete overlay. -/
def onDeleteCancel (st : State) : State :=
  { st with deleteOverlayShown := false, pendingDeleteId := none }

/-- The `click` listener of the confirm button of the delete overlay, up to its `await`: the
state, which it leaves as it is (the label and the disabled flag of the button are not part
of it), and the id handed to `apiDeleteHistory`; `none` when the listener returns at once
because `pendingDeleteId` is falsy. -/
def onDeleteConfirm (st : State) : State × Option Str :=
  match st.pendingDeleteId with
  | none => (st, none)
  | some id => if id.isEmpty then (st, none) else (st, some id)

/-- The rest of the confirm listener, run when the request has settled, on the state of that
moment; `resolved` tells whether `apiDeleteHistory` resolved (the server confirmed the
delete) or threw.  The filter `i => i.id !== pendingDeleteId` reads the variable again: when
it is `null` by then, every item passes. -/
def onDeleteSettled (lower : Str → Str) (resolved : Bool) (st : State) : State :=
  let st :=
    if resolved then
      applyFilterAndRender lower
        { st with
          allItems := st.allItems.filter (fun i => decide (some i.id ≠ st.pendingDeleteId))
          displayedCount := 0 }
    else st
  { st with deleteOverlayShown := false, pendingDeleteId := none }

/-- The `params` object handed to `apiGetHistory`; a field that is absent is `none`. -/
structure GetParams where
  limit : Option Int
  offset : Option Int
  search : Option Str
  sort : Option Str
deriving DecidableEq, Repr

/-- The `Authorization` header that `apiFetch` sends: `Bearer <token>` when
`getAccessToken` yields a token that is truthy, and none otherwise. -/
def authorizationHeader (accessToken : Option Str) : Option Str :=
  match accessToken with
  | some t => if t.isEmpty then none else some ("Bearer ".toList ++ t)
  | none => none

/-- The function `apiFetch` of `api.js` for a request to `/api/history` that is answered by
the handler over the table `rows`: the payload of a response whose status is 2xx is
returned, and for any other status an error is thrown with the message
`data.error || "HTTP <status>"`. -/
def apiFetch (env : History.Env) (rows : List Record) (accessToken : Option Str)
    (method : String) (query : History.Query) (body : Option History.PostBody) :
    Except Str History.Body :=
  let res := (History.handler env rows
    { method := method, authorization := authorizationHeader accessToken, query := query,
      body := body }).sent
  if 200 ≤ res.status ∧ res.status ≤ 299 then .ok res.body
  else
    match res.body with
    | .error message =>
      .error (if message.isEmpty then "HTTP ".toList ++ natToString res.status else message)
    | _ => .error ("HTTP ".toList ++ natToString res.status)

/-- The function `apiGetHistory`: the four parameters, with the defaults `12`, `0`, the empty
string and `newest` for a falsy value, travel in the query string (the server reads back the
strings that were encoded) of a `GET` sent by `apiFetch`. -/
def apiGetHistory (env : History.Env) (rows : List Record) (accessToken : Option Str)
    (params : GetParams) : Except Str History.Body :=
  apiFetch env rows accessToken "GET"
    { limit := some (numberToString (orDefault params.limit 12))
      offset := some (numberToString (orDefault params.offset 0))
      search := some (params.search.getD [])
      sort := some
        (if (params.sort.getD []).isEmpty then "newest".toList else params.sort.getD [])
      id := none }
    none

/-- The function `loadHistory`, as one step; `getHistory` is the call `apiGetHistory` (it
yields the payload of the response, or the error thrown).  On a payload the cache is
`data || []`, where `data` is the list of a list payload. -/
def loadHistory (lower : Str → Str) (getHistory : GetParams → Except Str History.Body)
    (st : State) : State :=
  let st := clearGrid { st with loadingShown := true }
  match getHistory { limit := some 999, offset := some 0, search := none, sort := none } with
  | .ok body =>
    applyFilterAndRender lower
      { st with allItems := body.data?.getD [], displayedCount := 0 }
  | .error _ => { st with loadingShown := false, emptyShown := true }

/-- The lowering of the ASCII letters, for worked examples. -/
def asciiLower (s : Str) : Str := s.map Char.toLower

/-- A state for worked examples: `n` items loaded, `d` of them displayed. -/
def demoState (items : List Record) (d : Nat) (pending : Option Str) : State :=
  { allItems := items, filteredItems := items, displayedCount := d,
    pendingDeleteId := pending, searchValue := [], sortValue := "oldest".toList,
    grid := items.take d, loadMoreShown := decide (d < items.length), emptyShown := false,
    loadingShown := false, deleteOverlayShown := pending.isSome }

/-- The cards in the grid are the items of `filteredItems` at consecutive positions ending
at the cursor, one card for each position. -/
def gridIsRun (st : State) : Prop :=
  st.grid = (st.filteredItems.take st.displayedCount).drop
    (st.displayedCount - st.grid.length)

instance (st : State) : Decidable (gridIsRun st) := by
  unfold gridIsRun; infer_instance

/-- The states that one operation of the page leads to from `st`: load-more, a change of the
search text, a change of the sort key, the confirmation of a delete (the click, and the step
run when the request has settled; `resolved` tells whether the server confirmed it), a load
(`getHistory` is the call to the server), the opening of the delete overlay and its
cancellation. -/
def operations (lower : Str → Str) (getHistory : GetParams → Except Str History.Body)
    (resolved : Bool) (id : Str) (st : State) : List State :=
  [onLoadMore st, onSearchInput lower st, onSortChange lower st,
    (onDeleteConfirm st).1, onDeleteSettled lower resolved st,
    loadHistory lower getHistory st, openDeleteModal id st, onDeleteCancel st]

/-- A table for worked examples: `n` rows of `u1`, the row `i` created at the instant `i`. -/
def demoTable (n : Nat) : List Record :=
  (List.range n).map (fun i =>
    { History.demoRow "r" "u1" 1000 400 i with id := 'r' :: natToString i })

end HistoryView

/-! ## Facts about the primitives -/

theorem digitChar_toNat : ∀ d, d < 10 → (digitChar d).toNat = 48 + d := by decide

theorem isDecimalDigit_digitChar : ∀ d, d < 10 → isDecimalDigit (digitChar d) = true := by
  decide

theorem digitVal_digitChar : ∀ d, d < 10 → digitVal (digitChar d) = some d := by decide

theorem isDecimalDigit_iff (c : Char) : isDecimalDigit c = true ↔ 48 ≤ c.toNat ∧ c.toNat ≤ 57 := by
  simp [isDecimalDigit]

theorem not_isWhiteSpace_of_digit {c : Char} (h : isDecimalDigit c = true) :
    isWhiteSpace c = false := by
  rw [isDecimalDigit_iff] at h
  simp only [isWhiteSpace, Bool.or_eq_false_iff, beq_eq_false_iff_ne, Bool.and_eq_false_iff,
    decide_eq_false_iff_not]
  omega

theorem isRadixDigit_ten_of_digit {c : Char} (h : isDecimalDigit c = true) :
    isRadixDigit 10 c = true := by
  rw [isDecimalDigit_iff] at h
  have h1 : (decide (48 ≤ c.toNat) && decide (c.toNat ≤ 57)) = true := by simp [h]
  simp only [isRadixDigit, digitVal, h1, if_true, decide_eq_true_eq]
  omega

theorem startsWith_ne_nil {p s : Str} (hp : p ≠ []) (h : startsWith p s = true) :
    s.isEmpty = false := by
  cases s with
  | nil =>
    cases p with
    | nil => exact absurd rfl hp
    | cons a as => simp [startsWith, List.isPrefixOf] at h
  | cons c cs => rfl

theorem toNat_ne_of_ne_char {c : Char} {k : Char} (h : c.toNat ≠ k.toNat) : c ≠ k := by
  intro e; exact h (by rw [e])


theorem natDigits_all_digit : ∀ fuel n, ∀ c ∈ natDigits fuel n, isDecimalDigit c = true := by
  intro fuel
  induction fuel with
  | zero => intro n c hc; simp [natDigits] at hc
  | succ k ih =>
    intro n c hc
    unfold natDigits at hc
    split at hc
    · rename_i hn
      simp only [List.mem_singleton] at hc
      subst hc
      exact isDecimalDigit_digitChar n hn
    · rw [List.mem_append] at hc
      rcases hc with hc | hc
      · exact ih _ c hc
      · simp only [List.mem_singleton] at hc
        subst hc
        exact isDecimalDigit_digitChar _ (Nat.mod_lt _ (by decide))

theorem natDigits_ne_nil : ∀ fuel n, natDigits (fuel + 1) n ≠ [] := by
  intro fuel n
  unfold natDigits
  split <;> simp

theorem radixValue_append (R : Nat) (l : Str) (c : Char) :
    radixValue R (l ++ [c]) = radixValue R l * R + (digitVal c).getD 0 := by
  simp [radixValue, List.foldl_append]

theorem radixValue_natDigits : ∀ fuel n, n < fuel → radixValue 10 (natDigits fuel n) = n := by
  intro fuel
  induction fuel with
  | zero => intro n h; omega
  | succ k ih =>
    intro n h
    unfold natDigits
    split
    · rename_i hn
      simp [radixValue, digitVal_digitChar n hn]
    · rename_i hn
      rw [radixValue_append, ih (n / 10) (by omega),
        digitVal_digitChar _ (Nat.mod_lt _ (by decide))]
      simp only [Option.getD_some]
      omega

theorem natToString_all_digit (n : Nat) : ∀ c ∈ natToString n, isDecimalDigit c = true :=
  natDigits_all_digit _ _

theorem natToString_ne_nil (n : Nat) : natToString n ≠ [] := natDigits_ne_nil _ _

theorem radixValue_natToString (n : Nat) : radixValue 10 (natToString n) = n :=
  radixValue_natDigits _ _ (Nat.lt_succ_self n)

theorem natToString_injective : Function.Injective natToString := by
  intro a b h
  have := congrArg (radixValue 10) h
  rwa [radixValue_natToString, radixValue_natToString] at this

/-- On a nonempty run of decimal digits `parseInt` yields its decimal value. -/
theorem parseIntStr_digits (l : Str) (hne : l ≠ []) (hall : ∀ c ∈ l, isDecimalDigit c = true) :
    parseIntStr l = some (radixValue 10 l : Int) := by
  obtain ⟨c, r, rfl⟩ := List.exists_cons_of_ne_nil hne
  have hc := hall c (List.mem_cons_self _ _)
  have hcn := (isDecimalDigit_iff c).1 hc
  have htrim : trimStart (c :: r) = c :: r := by
    simp [trimStart, List.dropWhile, not_isWhiteSpace_of_digit hc]
  have h1 : c ≠ '-' := toNat_ne_of_ne_char (by simp; omega)
  have h2 : c ≠ '+' := toNat_ne_of_ne_char (by simp; omega)
  have hsign : stripSign (c :: r) = (1, c :: r) := by simp [stripSign, h1, h2]
  have hpre : stripRadixPrefix (c :: r) = (10, c :: r) := by
    cases r with
    | nil => rfl
    | cons d r' =>
      have hd := (isDecimalDigit_iff d).1 (hall d (by simp))
      have h3 : d ≠ 'x' := toNat_ne_of_ne_char (by simp; omega)
      have h4 : d ≠ 'X' := toNat_ne_of_ne_char (by simp; omega)
      simp [stripRadixPrefix, h3, h4]
  have htake : (c :: r).takeWhile (isRadixDigit 10) = c :: r := by
    rw [List.takeWhile_eq_self_iff]
    intro x hx
    exact isRadixDigit_ten_of_digit (hall x hx)
  simp only [parseIntStr, htrim, hsign, hpre, htake]
  simp


theorem parseIntStr_neg_digits (l : Str) (hne : l ≠ [])
    (hall : ∀ c ∈ l, isDecimalDigit c = true) :
    parseIntStr ('-' :: l) = some (-(radixValue 10 l : Int)) := by
  obtain ⟨c, r, rfl⟩ := List.exists_cons_of_ne_nil hne
  have htrim : trimStart ('-' :: c :: r) = '-' :: c :: r := by
    have : isWhiteSpace '-' = false := by decide
    simp [trimStart, List.dropWhile, this]
  have hsign : stripSign ('-' :: c :: r) = (-1, c :: r) := by simp [stripSign]
  have hpre : stripRadixPrefix (c :: r) = (10, c :: r) := by
    cases r with
    | nil => rfl
    | cons d r' =>
      have hd := (isDecimalDigit_iff d).1 (hall d (by simp))
      have h3 : d ≠ 'x' := toNat_ne_of_ne_char (by simp; omega)
      have h4 : d ≠ 'X' := toNat_ne_of_ne_char (by simp; omega)
      simp [stripRadixPrefix, h3, h4]
  have htake : (c :: r).takeWhile (isRadixDigit 10) = c :: r := by
    rw [List.takeWhile_eq_self_iff]
    intro x hx
    exact isRadixDigit_ten_of_digit (hall x hx)
  simp only [parseIntStr, htrim, hsign, hpre, htake]
  simp

/-- The function `parseInt` inverts the decimal rendering of an integer. -/
theorem parseInt_num (n : Int) : parseInt (.num n) = some n := by
  simp only [parseInt, toStr, numberToString]
  split
  · rename_i h
    rw [parseIntStr_neg_digits _ (natToString_ne_nil _) (natToString_all_digit _),
      radixValue_natToString]
    congr 1; omega
  · rename_i h
    rw [parseIntStr_digits _ (natToString_ne_nil _) (natToString_all_digit _),
      radixValue_natToString]
    congr 1; omega

theorem trim_digits (l : Str) (hall : ∀ c ∈ l, isDecimalDigit c = true) : trim l = l := by
  have h1 : trimStart l = l := by
    cases l with
    | nil => rfl
    | cons c r =>
      simp [trimStart, List.dropWhile, not_isWhiteSpace_of_digit (hall c (by simp))]
  have h2 : l.reverse.dropWhile isWhiteSpace = l.reverse := by
    cases hr : l.reverse with
    | nil => rfl
    | cons c r =>
      have hc : c ∈ l := by
        have : c ∈ l.reverse := by rw [hr]; simp
        simpa using this
      simp [List.dropWhile, not_isWhiteSpace_of_digit (hall c hc)]
  simp [trim, trimEnd, h1, h2]

/-- A nonempty run of decimal digits is accepted by `StringToNumber`. -/
theorem isNumericString_digits (l : Str) (hne : l ≠ [])
    (hall : ∀ c ∈ l, isDecimalDigit c = true) : isNumericString l = true := by
  have htake : l.takeWhile isDecimalDigit = l := by
    rw [List.takeWhile_eq_self_iff]; exact hall
  have hdrop : l.dropWhile isDecimalDigit = [] := by
    rw [List.dropWhile_eq_nil_iff]; exact hall
  obtain ⟨c, r, rfl⟩ := List.exists_cons_of_ne_nil hne
  have hcn := (isDecimalDigit_iff c).1 (hall c (by simp))
  have h1 : c ≠ '-' := toNat_ne_of_ne_char (by simp; omega)
  have h2 : c ≠ '+' := toNat_ne_of_ne_char (by simp; omega)
  have hI : c ≠ 'I' := toNat_ne_of_ne_char (by simp; omega)
  have hinf : (c :: r) ≠ "Infinity".toList := by
    intro e
    have : c = 'I' := by simpa using (List.cons.inj e).1
    exact hI this
  have hu : isStrUnsignedDecimalLiteral (c :: r) = true := by
    unfold isStrUnsignedDecimalLiteral
    rw [if_neg hinf, hdrop]
    simp [htake]
  have hd : isStrDecimalLiteral (c :: r) = true := by
    simp [isStrDecimalLiteral, h1, h2, hu]
  simp [isNumericString, trim_digits _ hall, hd]

theorem split_no_sep (sep : Char) (l : Str) (h : sep ∉ l) : split sep l = [l] := by
  induction l with
  | nil => rfl
  | cons c cs ih =>
    have hc : c ≠ sep := fun e => h (by simp [e])
    have hcs : sep ∉ cs := fun e => h (by simp [e])
    simp [split, hc, ih hcs]

theorem split_append_sep (sep : Char) (l r : Str) (h : sep ∉ l) :
    split sep (l ++ sep :: r) = l :: split sep r := by
  induction l with
  | nil => simp [split]
  | cons c cs ih =>
    have hc : c ≠ sep := fun e => h (by simp [e])
    have hcs : sep ∉ cs := fun e => h (by simp [e])
    simp [split, hc, ih hcs]

theorem not_mem_of_all_digit (l : Str) (hall : ∀ c ∈ l, isDecimalDigit c = true)
    (k : Char) (hk : isDecimalDigit k = false) : k ∉ l := by
  intro hmem
  rw [hall k hmem] at hk
  exact Bool.noConfusion hk

/-! ## Facts about Numbers -/

theorem double_toFrac_pos (x : Double) : 0 < x.toFrac.2 := by
  unfold Double.toFrac
  split
  · exact Nat.one_pos
  · exact Nat.pos_pow_of_pos _ (by decide)

theorem double_le_total (x y : Double) : Double.le x y ∨ Double.le y x := by
  unfold Double.le
  exact Int.le_total _ _

theorem double_le_trans {x y z : Double} (h1 : Double.le x y) (h2 : Double.le y z) :
    Double.le x z := by
  unfold Double.le at *
  have hx : (0 : Int) < x.toFrac.2 := by exact_mod_cast double_toFrac_pos x
  have hy : (0 : Int) < y.toFrac.2 := by exact_mod_cast double_toFrac_pos y
  have hz : (0 : Int) < z.toFrac.2 := by exact_mod_cast double_toFrac_pos z
  have a1 := mul_le_mul_of_nonneg_right h1 (le_of_lt hz)
  have a2 := mul_le_mul_of_nonneg_right h2 (le_of_lt hx)
  have key : x.toFrac.1 * (z.toFrac.2 : Int) * y.toFrac.2
      ≤ z.toFrac.1 * (x.toFrac.2 : Int) * y.toFrac.2 := by nlinarith
  exact le_of_mul_le_mul_right key hy

/-- When the quotient is at least `2 ^ 52`, `normalize` only doubles the denominator, and the
quotient stays at least `2 ^ 52`. -/
theorem normalize_big : ∀ (fuel N D : Nat) (e : Int), 2 ^ 52 * D ≤ N →
    ∃ j : Nat, normalize fuel N D e = (N, D * 2 ^ j, e + j) ∧ 2 ^ 52 * (D * 2 ^ j) ≤ N := by
  intro fuel
  induction fuel with
  | zero =>
    intro N D e h
    exact ⟨0, by simp [normalize], by simpa using h⟩
  | succ k ih =>
    intro N D e h
    unfold normalize
    by_cases h1 : 2 ^ 53 * D ≤ N
    · rw [if_pos h1]
      obtain ⟨j, hj, hb⟩ := ih N (2 * D) (e + 1) (by omega)
      refine ⟨j + 1, ?_, ?_⟩
      · rw [hj]
        have e1 : 2 * D * 2 ^ j = D * 2 ^ (j + 1) := by ring
        have e2 : e + 1 + (j : Int) = e + ((j + 1 : Nat) : Int) := by push_cast; ring
        rw [e1, e2]
      · have e1 : 2 * D * 2 ^ j = D * 2 ^ (j + 1) := by ring
        rw [← e1]; exact hb
    · rw [if_neg h1, if_neg (by omega)]
      exact ⟨0, by simp, by simpa using h⟩

/-- The Number of an integer above `2 ^ 53` in magnitude: a significand of at least
`2 ^ 52` with the sign of the integer, and an exponent that is not negative. -/
theorem double_ofInt_big (n : Int) (h : 2 ^ 53 < n.natAbs) :
    ∃ m j : Nat, 2 ^ 52 ≤ m ∧
      Double.ofInt n = ⟨if n < 0 then -(m : Int) else (m : Int), (j : Int)⟩ := by
  have hn : n ≠ 0 := by
    intro h0; rw [h0] at h; simp at h
  obtain ⟨j, hj, hb⟩ := normalize_big 2200 n.natAbs 1 0 (by omega)
  unfold Double.ofInt roundToDouble
  rw [if_neg (by simp [hn]), hj]
  simp only [one_mul, zero_add]
  have hq : 2 ^ 52 ≤ n.natAbs / 2 ^ j := by
    rw [Nat.le_div_iff_mul_le (Nat.pos_pow_of_pos _ (by decide))]
    simpa using hb
  by_cases hc : 2 ^ j < 2 * (n.natAbs % 2 ^ j) ∨
      (2 * (n.natAbs % 2 ^ j) = 2 ^ j ∧ n.natAbs / 2 ^ j % 2 = 1)
  · exact ⟨n.natAbs / 2 ^ j + 1, j, by omega, by rw [if_pos hc]⟩
  · exact ⟨n.natAbs / 2 ^ j, j, hq, by rw [if_neg hc]⟩

theorem toNumber_of_le {n : Int} (h : n.natAbs ≤ 2 ^ 53) : toNumber n = n := by
  unfold toNumber
  rw [if_pos h]

/-- Beyond `2 ^ 53` the Number of an integer keeps its sign and is at least `2 ^ 52` in
magnitude. -/
theorem toNumber_big {n : Int} (h : 2 ^ 53 < n.natAbs) :
    (0 < n → 2 ^ 52 ≤ toNumber n) ∧ (n < 0 → toNumber n ≤ -(2 ^ 52)) := by
  obtain ⟨m, j, hm, hd⟩ := double_ofInt_big n h
  have hp : (1 : Int) ≤ 2 ^ j := by exact_mod_cast Nat.one_le_two_pow
  have hm2 : ((2 : Int) ^ 52) ≤ (m : Int) := by exact_mod_cast hm
  unfold toNumber
  rw [if_neg (by omega), hd]
  unfold Double.toInt
  simp only [Int.natCast_nonneg, if_true, Int.toNat_ofNat]
  constructor
  · intro hpos
    rw [if_neg (by omega)]
    nlinarith
  · intro hneg
    rw [if_pos hneg]
    nlinarith

theorem toNumber_nonneg_iff (n : Int) : 0 ≤ toNumber n ↔ 0 ≤ n := by
  by_cases h : n.natAbs ≤ 2 ^ 53
  · rw [toNumber_of_le h]
  · have hb := @toNumber_big n (by omega)
    constructor
    · intro h0
      by_contra hneg
      have := hb.2 (by omega)
      omega
    · intro h0
      have hn : n ≠ 0 := by
        intro h1; rw [h1] at h; simp at h
      have := hb.1 (by omega)
      omega

theorem toNumber_eq_zero_iff (n : Int) : toNumber n = 0 ↔ n = 0 := by
  by_cases h : n.natAbs ≤ 2 ^ 53
  · rw [toNumber_of_le h]
  · have hb := @toNumber_big n (by omega)
    constructor
    · intro h0
      by_contra hn
      rcases lt_or_gt_of_ne hn with h1 | h1
      · have := hb.2 h1; omega
      · have := hb.1 h1; omega
    · intro h0
      rw [h0] at h; simp at h

/-- The clamp to `[1, 100]` does not see the rounding of the parsed integer. -/
theorem clamp_toNumber (n : Int) : min 100 (max 1 (toNumber n)) = min 100 (max 1 n) := by
  by_cases h : n.natAbs ≤ 2 ^ 53
  · rw [toNumber_of_le h]
  · have hb := @toNumber_big n (by omega)
    rcases lt_trichotomy n 0 with h1 | h1 | h1
    · have := hb.2 h1
      omega
    · rw [h1] at h; simp at h
    · have := hb.1 h1
      omega

theorem two_pow_53_le_MAX_VALUE : 2 ^ 53 ≤ MAX_VALUE := by
  unfold MAX_VALUE
  have h1 : (2 : Nat) ^ 1024 = 2 ^ 971 * 2 ^ 53 := by rw [← pow_add]
  have h2 : (2 : Nat) ^ 53 ≤ 2 ^ 971 := Nat.pow_le_pow_right (by decide) (by decide)
  rw [h1]
  generalize (2 : Nat) ^ 971 = x at *
  have h3 : x * 1 ≤ x * (2 ^ 53 - 1) := Nat.mul_le_mul_left x (by decide)
  have h4 : x * 2 ^ 53 - x = x * (2 ^ 53 - 1) := by
    rw [Nat.mul_sub, Nat.mul_one]
  omega

/-- The units of `s.substring(0, n)` are the first `n` units of `s`, unless the cut falls
inside a surrogate pair. -/
theorem utf16_substring : ∀ (s : Str) (n : Nat), cutsPair s n = false →
    utf16 (substring s n) = (utf16 s).take n := by
  intro s
  induction s with
  | nil => intro n _; simp [substring, utf16]
  | cons c cs ih =>
    intro n h
    unfold cutsPair at h
    unfold substring
    have hlen : (utf16Units c).length = utf16Size c := by
      unfold utf16Units utf16Size
      split <;> rfl
    by_cases hc : utf16Size c ≤ n
    · rw [if_pos hc] at h
      rw [if_pos hc]
      show utf16Units c ++ utf16 (substring cs (n - utf16Size c))
        = (utf16Units c ++ utf16 cs).take n
      have e1 : (utf16Units c).take n = utf16Units c :=
        List.take_of_length_le (by rw [hlen]; exact hc)
      rw [ih _ h, List.take_append_eq_append_take, e1, hlen]
    · rw [if_neg hc] at h
      rw [if_neg hc]
      have hn : n = 0 := by simpa using h
      subst hn
      simp [utf16]

namespace SignUpload

theorem cors_fold : (CORS_HEADERS.foldl (fun r kv => r.setHeader kv.1 kv.2) Res.fresh) = ⟨CORS_HEADERS⟩ := by
  decide

/-- What `handler` does with a request that passes the gateway. -/
theorem handler_accepted {env : Env} {req : Req} (h : Accepted env req) :
    handler env req =
      match eager (quality req) (resolution req) with
      | .error message =>
        (⟨500, CORS_HEADERS, Body.error ("Internal server error: ".toList ++ message)⟩,
          [Call.getUser (bearer req)])
      | .ok e =>
        (⟨200, CORS_HEADERS,
            Body.signed
              (env.sha1Hex (signString (paramsToSign e (timestamp env.now))
                ++ env.CLOUDINARY_API_SECRET))
              (timestamp env.now) e env.CLOUDINARY_API_KEY env.CLOUDINARY_CLOUD_NAME⟩,
          [Call.getUser (bearer req),
            Call.sha1 (signString (paramsToSign e (timestamp env.now))
              ++ env.CLOUDINARY_API_SECRET)]) := by
  obtain ⟨hm, hstart, huser⟩ := h
  have h1 : ¬ (req.method = "OPTIONS") := by rw [hm]; decide
  unfold handler
  rw [if_neg h1, cors_fold]
  cases hauth : req.authorization with
  | none => rw [hauth] at hstart; exact absurd hstart (by decide)
  | some authHeader =>
    rw [hauth] at hstart
    simp only [Option.getD_some] at hstart
    have hne := startsWith_ne_nil (p := bearerPrefix) (by decide) hstart
    have hb : bearer req = token authHeader := by simp [bearer, hauth]
    rw [hb] at huser ⊢
    cases hu : env.getUser (token authHeader) with
    | threw m => rw [hu] at huser; exact absurd huser (by simp [AuthResult.isUser])
    | failed => rw [hu] at huser; exact absurd huser (by decide)
    | user id =>
      simp only [hm, hne, hstart, hu, Res.send]
      cases eager (quality req) (resolution req) <;> simp


theorem qualNum_bounds (q : JSVal) : 1 ≤ qualNum q ∧ qualNum q ≤ 100 := by
  unfold qualNum
  omega

theorem qualNum_of_nan {q : JSVal} (h : parseInt q = none) : qualNum q = 65 := by
  simp [qualNum, h, orDefault]

theorem qualNum_num {n : Int} (h1 : 1 ≤ n) (h2 : n ≤ 100) : qualNum (.num n) = n := by
  have hn : n ≠ 0 := by omega
  simp only [qualNum, parseInt_num, orDefault, if_neg hn]
  omega

theorem qualNum_quality_absent {req : Req}
    (h : (req.body.getD ⟨.undefined, .undefined⟩).quality = .undefined) :
    qualNum (quality req) = 65 := by
  simp only [quality, h, if_true]
  exact qualNum_num (by decide) (by decide)

theorem qualNum_quality_nan {req : Req}
    (h : parseInt (req.body.getD ⟨.undefined, .undefined⟩).quality = none) :
    qualNum (quality req) = 65 := by
  by_cases hu : (req.body.getD ⟨.undefined, .undefined⟩).quality = .undefined
  · exact qualNum_quality_absent hu
  · simp only [quality, hu, if_false]
    exact qualNum_of_nan h

theorem resizeClause_empty : resizeClause [] = [] := by decide

theorem resizeClause_original : resizeClause "original".toList = [] := by decide

/-- On a string `resolution` the transformation is the quality clause followed by the
resize clause (which is empty for `''` and `'original'`). -/
theorem eager_str (q : JSVal) (s : Str) :
    eager q (.str s) = .ok ("q_".toList ++ numberToString (qualNum q) ++ resizeClause s) := by
  unfold eager
  by_cases h1 : s = []
  · subst h1
    simp [truthy, resizeClause_empty]
  · by_cases h2 : s = "original".toList
    · subst h2
      simp only [truthy, resizeClause_original, List.append_nil]
      rfl
    · have h3 : JSVal.str s ≠ JSVal.str "original".toList := by
        intro e; exact h2 (JSVal.str.inj e)
      have h4 : s.isEmpty = false := by
        cases s with
        | nil => exact absurd rfl h1
        | cons a as => rfl
      simp only [truthy, h4, Bool.not_false, Bool.true_and, decide_eq_true_eq, if_pos h3]

theorem resizeClause_head (s : Str) : resizeClause s = [] ∨ (resizeClause s).head? = some ',' := by
  unfold resizeClause
  simp only
  split
  · left; rfl
  · split
    · right; rfl
    · left; rfl


theorem demo_accepted (q r : JSVal) : Accepted demoEnv (demoReq q r) :=
  ⟨rfl, rfl, rfl⟩

/-- The response to an accepted request whose `resolution` is a string. -/
theorem handler_accepted_str {env : Env} {req : Req} {s : Str} (h : Accepted env req)
    (hres : resolution req = .str s) :
    (handler env req).1.status = 200 ∧
    (handler env req).1.body.eager? =
      some ("q_".toList ++ numberToString (qualNum (quality req)) ++ resizeClause s) := by
  have ht := handler_accepted h
  rw [hres, eager_str] at ht
  rw [ht]
  exact ⟨rfl, rfl⟩

theorem resizeClause_of_bad {s : Str}
    (hbad : ∀ w h rest, split 'x' s = w :: h :: rest →
      w = [] ∨ h = [] ∨ isNumericString w = false ∨ isNumericString h = false) :
    resizeClause s = [] := by
  unfold resizeClause
  simp only
  cases hs : split 'x' s with
  | nil => rfl
  | cons w t =>
    cases t with
    | nil => rfl
    | cons h rest =>
      simp only [List.headD_cons, List.tail_cons, List.head?_cons]
      rcases hbad w h rest hs with h1 | h1 | h1 | h1 <;> simp [h1]

/-- C1, counterexample: `"1920x1080x5"` has three `x`-separated components, so it is not of
the form `WIDTHxHEIGHT` with exactly two components, yet the handler appends the resize clause
`w_1920,h_1080,c_scale`, while `"original"` yields `q_80` alone. -/
theorem C1_extra_component_resized :
    (split 'x' "1920x1080x5".toList).length = 3 ∧
    (handler demoEnv (demoReq (.num 80) (.str "1920x1080x5".toList))).1.body.eager?
      = some "q_80,w_1920,h_1080,c_scale".toList ∧
    (handler demoEnv (demoReq (.num 80) (.str "original".toList))).1.body.eager?
      = some "q_80".toList := by
  decide

/-- C1, amended: for an accepted request whose `resolution` is a string whose first two
`x`-separated components are not both nonempty and numeric (there is no second component,
or one of the two is empty or is rejected by `isNaN`), whatever the quality, the
transformation string is exactly `q_<quality>` with the effective quality, and the whole
response and call log equal those for the same request with `resolution` `"original"`. -/
theorem C1_malformed_resolution_no_resize (env : Env) (req : Req) (s : Str)
    (hacc : Accepted env req) (hres : resolution req = .str s)
    (hbad : ∀ w h rest, split 'x' s = w :: h :: rest →
      w = [] ∨ h = [] ∨ isNumericString w = false ∨ isNumericString h = false) :
    (handler env req).1.status = 200 ∧
    (handler env req).1.body.eager?
      = some ("q_".toList ++ numberToString (qualNum (quality req))) ∧
    handler env req
      = handler env { req with body := some ⟨quality req, .str "original".toList⟩ } := by
  have h1 := handler_accepted_str hacc hres
  rw [resizeClause_of_bad hbad, List.append_nil] at h1
  refine ⟨h1.1, h1.2, ?_⟩
  have hacc2 : Accepted env { req with body := some ⟨quality req, .str "original".toList⟩ } :=
    hacc
  have hq : quality { req with body := some ⟨quality req, .str "original".toList⟩ }
      = quality req := by
    simp only [quality, Option.getD_some]
    split <;> simp_all
  have hr : resolution { req with body := some ⟨quality req, .str "original".toList⟩ }
      = .str "original".toList := by
    simp [resolution]
  rw [handler_accepted hacc, handler_accepted hacc2, hq, hr, hres, eager_str, eager_str,
    resizeClause_of_bad hbad, resizeClause_original]
  rfl


theorem eager_starts_with_quality {q r : JSVal} {e : Str} (h : eager q r = .ok e) :
    ("q_".toList ++ numberToString (qualNum q)) <+: e := by
  unfold eager at h
  split at h
  · split at h
    · injection h with h
      rw [← h]
      exact List.prefix_append _ _
    · exact absurd h (by simp)
  · injection h with h
    rw [← h]

/-- A request that does not pass the gateway gets no success payload. -/
theorem handler_not_accepted {env : Env} {req : Req} (hacc : ¬ Accepted env req) :
    (handler env req).1.body.eager? = none := by
  unfold handler
  by_cases h1 : req.method = "OPTIONS"
  · simp [h1, Res.send, Body.eager?]
  · by_cases h2 : req.method = "POST"
    · cases hauth : req.authorization with
      | none => simp [h2, Res.send, Body.eager?]
      | some authHeader =>
        by_cases hst : startsWith bearerPrefix authHeader = true
        · have hne := startsWith_ne_nil (p := bearerPrefix) (by decide) hst
          cases hu : env.getUser (token authHeader) with
          | threw m => simp [h2, hst, hne, hu, Res.send, Body.eager?]
          | failed => simp [h2, hst, hne, hu, Res.send, Body.eager?]
          | user id =>
            exfalso
            apply hacc
            refine ⟨h2, ?_, ?_⟩
            · rw [hauth]; exact hst
            · simp only [bearer, hauth, Option.getD_some, hu]; rfl
        · simp [h2, hst, Res.send, Body.eager?]
    · simp [h1, h2, Res.send, Body.eager?]

/-- A success payload is only sent on the signing path. -/
theorem handler_signed {env : Env} {req : Req} {e : Str}
    (h : (handler env req).1.body.eager? = some e) :
    Accepted env req ∧ eager (quality req) (resolution req) = .ok e := by
  by_cases hacc : Accepted env req
  · refine ⟨hacc, ?_⟩
    rw [handler_accepted hacc] at h
    cases he : eager (quality req) (resolution req) with
    | error m => rw [he] at h; simp [Body.eager?] at h
    | ok e2 =>
      rw [he] at h
      simp only [Body.eager?, Option.some.injEq] at h
      rw [h]
  · rw [handler_not_accepted hacc] at h
    exact absurd h (by simp)


/-- C1, witness: the resolution `"abcxdef"`, whose components are not numeric. -/
theorem C1_malformed_resolution_no_resize_witness :
    Accepted demoEnv (demoReq (.num 80) (.str "abcxdef".toList)) ∧
    (handler demoEnv (demoReq (.num 80) (.str "abcxdef".toList))).1.status = 200 ∧
    (handler demoEnv (demoReq (.num 80) (.str "abcxdef".toList))).1.body.eager?
      = some ("q_".toList ++ numberToString
          (qualNum (quality (demoReq (.num 80) (.str "abcxdef".toList))))) ∧
    handler demoEnv (demoReq (.num 80) (.str "abcxdef".toList))
      = handler demoEnv { demoReq (.num 80) (.str "abcxdef".toList) with
          body := some ⟨quality (demoReq (.num 80) (.str "abcxdef".toList)),
            .str "original".toList⟩ } :=
  ⟨by decide,
    C1_malformed_resolution_no_resize demoEnv (demoReq (.num 80) (.str "abcxdef".toList))
      "abcxdef".toList (by decide) rfl (by
        intro w h rest e
        have hs : split 'x' "abcxdef".toList = ["abc".toList, "def".toList] := by decide
        rw [hs] at e
        injection e with e1 e2
        subst e1
        right; right; left
        decide)⟩

/-- C2: for every quality input, and every resolution that is a string or falsy, an accepted
request is answered 200 with a transformation string `q_<n>` followed by the resize clause
(empty or starting with a comma), where `n` is an integer with `1 ≤ n ≤ 100`; `n` is 65 when
quality is absent and when `parseInt` of it is `NaN`, and `n` is the input itself when the
input is an integer in `[1,100]`. -/
theorem C2_quality_in_range (env : Env) (req : Req)
    (hacc : Accepted env req)
    (hres : truthy (resolution req) = true → ∃ s, resolution req = .str s) :
    ∃ n : Int, ∃ clause : Str,
      (handler env req).1.status = 200 ∧
      (handler env req).1.body.eager? = some ("q_".toList ++ numberToString n ++ clause) ∧
      (clause = [] ∨ clause.head? = some ',') ∧
      1 ≤ n ∧ n ≤ 100 ∧
      ((req.body.getD ⟨.undefined, .undefined⟩).quality = .undefined → n = 65) ∧
      (parseInt (req.body.getD ⟨.undefined, .undefined⟩).quality = none → n = 65) ∧
      (∀ m : Int, 1 ≤ m → m ≤ 100 →
        (req.body.getD ⟨.undefined, .undefined⟩).quality = .num m → n = m) := by
  have hlast : ∀ m : Int, 1 ≤ m → m ≤ 100 →
      (req.body.getD ⟨.undefined, .undefined⟩).quality = .num m →
      qualNum (quality req) = m := by
    intro m hm1 hm2 hq
    have : quality req = .num m := by simp [quality, hq]
    rw [this]
    exact qualNum_num hm1 hm2
  by_cases ht : truthy (resolution req) = true
  · obtain ⟨s, hs⟩ := hres ht
    have h1 := handler_accepted_str hacc hs
    exact ⟨qualNum (quality req), resizeClause s, h1.1, h1.2, resizeClause_head s,
      (qualNum_bounds _).1, (qualNum_bounds _).2, qualNum_quality_absent,
      qualNum_quality_nan, hlast⟩
  · have he : eager (quality req) (resolution req)
        = .ok ("q_".toList ++ numberToString (qualNum (quality req))) := by
      unfold eager
      simp [ht]
    have h1 := handler_accepted hacc
    rw [he] at h1
    refine ⟨qualNum (quality req), [], ?_, ?_, Or.inl rfl,
      (qualNum_bounds _).1, (qualNum_bounds _).2, qualNum_quality_absent,
      qualNum_quality_nan, hlast⟩
    · rw [h1]
    · rw [h1, List.append_nil]; rfl

/-- C2, witness: the non-numeric quality `"abc"` with resolution `"original"`. -/
theorem C2_quality_in_range_witness :
    Accepted demoEnv (demoReq (.str "abc".toList) (.str "original".toList)) ∧
    ∃ n : Int, ∃ clause : Str,
      (handler demoEnv (demoReq (.str "abc".toList) (.str "original".toList))).1.status = 200 ∧
      (handler demoEnv (demoReq (.str "abc".toList) (.str "original".toList))).1.body.eager?
        = some ("q_".toList ++ numberToString n ++ clause) ∧
      (clause = [] ∨ clause.head? = some ',') ∧
      1 ≤ n ∧ n ≤ 100 ∧
      (((demoReq (.str "abc".toList) (.str "original".toList)).body.getD
        ⟨.undefined, .undefined⟩).quality = .undefined → n = 65) ∧
      (parseInt ((demoReq (.str "abc".toList) (.str "original".toList)).body.getD
        ⟨.undefined, .undefined⟩).quality = none → n = 65) ∧
      (∀ m : Int, 1 ≤ m → m ≤ 100 →
        ((demoReq (.str "abc".toList) (.str "original".toList)).body.getD
          ⟨.undefined, .undefined⟩).quality = .num m → n = m) :=
  ⟨by decide,
    C2_quality_in_range demoEnv (demoReq (.str "abc".toList) (.str "original".toList))
      (by decide) (fun _ => ⟨"original".toList, rfl⟩)⟩

/-- C3: for every integer quality `q` in `[1,100]` and every resolution `W x H` with `W`, `H`
nonempty runs of decimal digits, an accepted request is answered 200 with the transformation
string `q_<q>,w_<W>,h_<H>,c_scale`; and in every response that carries a transformation
string, that string begins with the quality clause `q_<effective quality>`. -/
theorem C3_transformation_exact (env : Env) (req : Req) (q : Int) (W H : Str)
    (hacc : Accepted env req) (hq1 : 1 ≤ q) (hq2 : q ≤ 100)
    (hW : W ≠ []) (hWd : ∀ c ∈ W, isDecimalDigit c = true)
    (hH : H ≠ []) (hHd : ∀ c ∈ H, isDecimalDigit c = true)
    (hbody : req.body = some ⟨.num q, .str (W ++ 'x' :: H)⟩) :
    (handler env req).1.status = 200 ∧
    (handler env req).1.body.eager?
      = some ("q_".toList ++ numberToString q ++ ",w_".toList ++ W ++ ",h_".toList ++ H
          ++ ",c_scale".toList) ∧
    (∀ (env2 : Env) (req2 : Req) (e : Str), (handler env2 req2).1.body.eager? = some e →
      ("q_".toList ++ numberToString (qualNum (quality req2))) <+: e) := by
  have hres : resolution req = .str (W ++ 'x' :: H) := by simp [resolution, hbody]
  have hqual : quality req = .num q := by simp [quality, hbody]
  have h1 := handler_accepted_str hacc hres
  have hx : isDecimalDigit 'x' = false := by decide
  have hsplit : split 'x' (W ++ 'x' :: H) = [W, H] := by
    rw [split_append_sep _ _ _ (not_mem_of_all_digit W hWd 'x' hx),
      split_no_sep _ _ (not_mem_of_all_digit H hHd 'x' hx)]
  have hWe : W.isEmpty = false := by
    cases W with
    | nil => exact absurd rfl hW
    | cons a as => rfl
  have hHe : H.isEmpty = false := by
    cases H with
    | nil => exact absurd rfl hH
    | cons a as => rfl
  have hclause : resizeClause (W ++ 'x' :: H)
      = ",w_".toList ++ W ++ ",h_".toList ++ H ++ ",c_scale".toList := by
    unfold resizeClause
    simp only [hsplit, List.headD_cons, List.tail_cons, List.head?_cons, hWe, hHe,
      isNumericString_digits W hW hWd, isNumericString_digits H hH hHd]
    rfl
  rw [hclause, hqual, qualNum_num hq1 hq2] at h1
  refine ⟨h1.1, ?_, ?_⟩
  · rw [h1.2]; simp only [List.append_assoc]
  · intro env2 req2 e he
    exact eager_starts_with_quality (handler_signed he).2

/-- C3, witness: quality 80 and resolution `"1280x720"` give
`q_80,w_1280,h_720,c_scale`. -/
theorem C3_transformation_exact_witness :
    (handler demoEnv (demoReq (.num 80) (.str "1280x720".toList))).1.status = 200 ∧
    (handler demoEnv (demoReq (.num 80) (.str "1280x720".toList))).1.body.eager?
      = some "q_80,w_1280,h_720,c_scale".toList :=
  ⟨(C3_transformation_exact demoEnv (demoReq (.num 80) (.str "1280x720".toList)) 80
      "1280".toList "720".toList (by decide) (by decide) (by decide) (by decide) (by decide)
      (by decide) (by decide) rfl).1,
    by decide⟩


theorem sortKeys_paramsToSign (e : Str) (t : Nat) :
    sortKeys ((paramsToSign e t).map Prod.fst)
      = ["eager".toList, "eager_async".toList, "timestamp".toList] := by
  have h : sortKeys ["eager".toList, "eager_async".toList, "timestamp".toList]
      = ["eager".toList, "eager_async".toList, "timestamp".toList] := by decide
  exact h

/-- The canonical string of the signed parameters. -/
theorem signString_paramsToSign (e : Str) (t : Nat) :
    signString (paramsToSign e t)
      = "eager=".toList ++ e ++ "&eager_async=false&timestamp=".toList ++ natToString t := by
  unfold signString
  rw [sortKeys_paramsToSign]
  have h1 : (paramsToSign e t).lookup "eager".toList = some e := by
    simp [paramsToSign, List.lookup]
  have h2 : (paramsToSign e t).lookup "eager_async".toList = some "false".toList := by
    simp [paramsToSign, List.lookup]
  have h3 : (paramsToSign e t).lookup "timestamp".toList = some (natToString t) := by
    simp [paramsToSign, List.lookup]
  simp only [List.map, h1, h2, h3, Option.getD_some, join]
  simp [List.intercalate, List.intersperse]

end SignUpload

theorem takeWhile_append_stop (P : Char → Bool) (a b : Str) (ha : ∀ x ∈ a, P x = true)
    (hb : ∀ x, b.head? = some x → P x = false) : (a ++ b).takeWhile P = a := by
  induction a with
  | nil =>
    cases b with
    | nil => rfl
    | cons y ys => simp [List.takeWhile, hb y rfl]
  | cons x xs ih =>
    have hx := ha x (by simp)
    rw [List.cons_append, List.takeWhile_cons, hx]
    simp only [if_true]
    rw [ih (fun y hy => ha y (by simp [hy]))]

/-- A run of `P`-characters followed by a rest that does not start with one determines both
parts. -/
theorem append_inj_of_stop (P : Char → Bool) {a a2 b b2 : Str}
    (ha : ∀ x ∈ a, P x = true) (ha2 : ∀ x ∈ a2, P x = true)
    (hb : ∀ x, b.head? = some x → P x = false) (hb2 : ∀ x, b2.head? = some x → P x = false)
    (h : a ++ b = a2 ++ b2) : a = a2 ∧ b = b2 := by
  have e : a = a2 := by
    rw [← takeWhile_append_stop P a b ha hb, ← takeWhile_append_stop P a2 b2 ha2 hb2, h]
  subst e
  exact ⟨rfl, List.append_cancel_left h⟩

namespace SignUpload

/-- The canonical string followed by the secret determines the transformation string and
the timestamp. -/
theorem signed_inj {e1 e2 secret : Str} {t1 t2 : Nat}
    (h : signString (paramsToSign e1 t1) ++ secret = signString (paramsToSign e2 t2) ++ secret) :
    e1 = e2 ∧ t1 = t2 := by
  have h0 := List.append_cancel_right h
  rw [signString_paramsToSign, signString_paramsToSign] at h0
  have h1 := congrArg List.reverse h0
  simp only [List.reverse_append] at h1
  have hd : ∀ t : Nat, ∀ x ∈ (natToString t).reverse, isDecimalDigit x = true := by
    intro t x hx
    exact natToString_all_digit t x (List.mem_reverse.1 hx)
  have hstop : ∀ e : Str, ∀ x,
      ("&eager_async=false&timestamp=".toList.reverse ++ (e.reverse ++ "eager=".toList.reverse)).head?
        = some x → isDecimalDigit x = false := by
    intro e x hx
    have : x = '=' := by
      have h2 : ("&eager_async=false&timestamp=".toList.reverse
          ++ (e.reverse ++ "eager=".toList.reverse)).head? = some '=' := rfl
      rw [h2] at hx
      exact (Option.some.inj hx).symm
    subst this
    decide
  obtain ⟨hA, hB⟩ := append_inj_of_stop isDecimalDigit (hd t1) (hd t2) (hstop e1) (hstop e2) h1
  have ht : t1 = t2 := natToString_injective (List.reverse_injective hA)
  have he := List.append_cancel_right (List.append_cancel_left hB)
  exact ⟨List.reverse_injective he, ht⟩

theorem numberToString_of_nonneg {n : Int} (h : 0 ≤ n) :
    numberToString n = natToString n.natAbs := by
  unfold numberToString
  rw [if_neg (by omega)]

/-- The transformation string determines the effective quality and the resize clause. -/
theorem eager_parts_inj {n1 n2 : Int} {c1 c2 : Str} (h1 : 1 ≤ n1) (h2 : 1 ≤ n2)
    (hc1 : c1 = [] ∨ c1.head? = some ',') (hc2 : c2 = [] ∨ c2.head? = some ',')
    (h : "q_".toList ++ numberToString n1 ++ c1 = "q_".toList ++ numberToString n2 ++ c2) :
    n1 = n2 ∧ c1 = c2 := by
  rw [List.append_assoc, List.append_assoc] at h
  have h0 := List.append_cancel_left h
  rw [numberToString_of_nonneg (by omega), numberToString_of_nonneg (by omega)] at h0
  have hstop : ∀ c : Str, (c = [] ∨ c.head? = some ',') →
      ∀ x, c.head? = some x → isDecimalDigit x = false := by
    intro c hc x hx
    rcases hc with hc | hc
    · subst hc; simp at hx
    · rw [hc] at hx
      have : x = ',' := (Option.some.inj hx).symm
      subst this
      decide
  obtain ⟨hA, hB⟩ := append_inj_of_stop isDecimalDigit (natToString_all_digit _)
    (natToString_all_digit _) (hstop c1 hc1) (hstop c2 hc2) h0
  have := natToString_injective hA
  exact ⟨by omega, hB⟩


theorem handler_accepted_full {env : Env} {req : Req} {s : Str} (h : Accepted env req)
    (hres : resolution req = .str s) :
    handler env req =
      (⟨200, CORS_HEADERS,
          Body.signed (env.sha1Hex (signedInput env req s)) (timestamp env.now)
            ("q_".toList ++ numberToString (qualNum (quality req)) ++ resizeClause s)
            env.CLOUDINARY_API_KEY env.CLOUDINARY_CLOUD_NAME⟩,
        [Call.getUser (bearer req), Call.sha1 (signedInput env req s)]) := by
  rw [handler_accepted h, hres, eager_str]
  rfl

theorem signedInput_eq_iff {env1 env2 : Env} {req1 req2 : Req} {s1 s2 : Str}
    (hsecret : env1.CLOUDINARY_API_SECRET = env2.CLOUDINARY_API_SECRET) :
    signedInput env1 req1 s1 = signedInput env2 req2 s2 ↔
      (qualNum (quality req1) = qualNum (quality req2) ∧ resizeClause s1 = resizeClause s2 ∧
        timestamp env1.now = timestamp env2.now) := by
  unfold signedInput
  constructor
  · intro h
    rw [hsecret] at h
    obtain ⟨he, ht⟩ := signed_inj h
    obtain ⟨hn, hc⟩ := eager_parts_inj (qualNum_bounds _).1 (qualNum_bounds _).1
      (resizeClause_head s1) (resizeClause_head s2) he
    exact ⟨hn, hc, ht⟩
  · rintro ⟨hn, hc, ht⟩
    rw [hn, hc, ht, hsecret]

theorem demo_sha1_injective : Function.Injective demoEnv.sha1Hex := by
  intro a b h
  have h2 : "sha1(".toList ++ a ++ ")".toList = "sha1(".toList ++ b ++ ")".toList := h
  exact List.append_cancel_left (List.append_cancel_right h2)

/-- C4, counterexample: the inputs `{quality: 0, resolution: "original"}` and
`{quality: 65, resolution: "original"}` at the same timestamp differ in quality, yet the
same string is hashed and the same signature is returned. -/
theorem C4_distinct_quality_same_signature :
    JSVal.num 0 ≠ JSVal.num 65 ∧
    hashed (handler demoEnv (demoReq (.num 0) (.str "original".toList))).2
      = ["eager=q_65&eager_async=false&timestamp=1700000000SECRET".toList] ∧
    hashed (handler demoEnv (demoReq (.num 65) (.str "original".toList))).2
      = ["eager=q_65&eager_async=false&timestamp=1700000000SECRET".toList] ∧
    (handler demoEnv (demoReq (.num 0) (.str "original".toList))).1.body.signature?
      = (handler demoEnv (demoReq (.num 65) (.str "original".toList))).1.body.signature? := by
  decide

/-- C4, amended: for a fixed secret and an injective digest, two accepted requests with string
resolutions hash different strings, and get different signatures, exactly when they differ
in the effective quality (after the default 65 and the clamp to `[1,100]`), in the resize
clause that is emitted, or in the timestamp. -/
theorem C4_signature_separates_effective_inputs (env1 env2 : Env) (req1 req2 : Req)
    (s1 s2 : Str)
    (hsecret : env1.CLOUDINARY_API_SECRET = env2.CLOUDINARY_API_SECRET)
    (hsha : env1.sha1Hex = env2.sha1Hex) (hinj : Function.Injective env1.sha1Hex)
    (h1 : Accepted env1 req1) (h2 : Accepted env2 req2)
    (hr1 : resolution req1 = .str s1) (hr2 : resolution req2 = .str s2) :
    (hashed (handler env1 req1).2 ≠ hashed (handler env2 req2).2 ↔
      (qualNum (quality req1) ≠ qualNum (quality req2) ∨ resizeClause s1 ≠ resizeClause s2 ∨
        timestamp env1.now ≠ timestamp env2.now)) ∧
    ((handler env1 req1).1.body.signature? ≠ (handler env2 req2).1.body.signature? ↔
      (qualNum (quality req1) ≠ qualNum (quality req2) ∨ resizeClause s1 ≠ resizeClause s2 ∨
        timestamp env1.now ≠ timestamp env2.now)) := by
  have hA1 : hashed (handler env1 req1).2 = [signedInput env1 req1 s1] := by
    rw [handler_accepted_full h1 hr1]; rfl
  have hA2 : hashed (handler env2 req2).2 = [signedInput env2 req2 s2] := by
    rw [handler_accepted_full h2 hr2]; rfl
  have hS1 : (handler env1 req1).1.body.signature?
      = some (env1.sha1Hex (signedInput env1 req1 s1)) := by
    rw [handler_accepted_full h1 hr1]; rfl
  have hS2 : (handler env2 req2).1.body.signature?
      = some (env1.sha1Hex (signedInput env2 req2 s2)) := by
    rw [handler_accepted_full h2 hr2, hsha]; rfl
  have hiff := @signedInput_eq_iff env1 env2 req1 req2 s1 s2 hsecret
  have key : signedInput env1 req1 s1 ≠ signedInput env2 req2 s2 ↔
      (qualNum (quality req1) ≠ qualNum (quality req2) ∨ resizeClause s1 ≠ resizeClause s2 ∨
        timestamp env1.now ≠ timestamp env2.now) := by
    rw [Ne, hiff, not_and_or, not_and_or]
  rw [hA1, hA2, hS1, hS2]
  refine ⟨Iff.trans ?_ key, Iff.trans ?_ key⟩
  · generalize signedInput env1 req1 s1 = x1
    generalize signedInput env2 req2 s2 = x2
    simp
  · generalize signedInput env1 req1 s1 = x1
    generalize signedInput env2 req2 s2 = x2
    rw [ne_eq, Option.some.injEq]
    exact not_congr hinj.eq_iff

/-- C4, witness: qualities 80 and 65 with the same resolution and timestamp. -/
theorem C4_signature_separates_effective_inputs_witness :
    (hashed (handler demoEnv (demoReq (.num 80) (.str "1280x720".toList))).2
        ≠ hashed (handler demoEnv (demoReq (.num 65) (.str "1280x720".toList))).2 ↔
      (qualNum (quality (demoReq (.num 80) (.str "1280x720".toList)))
          ≠ qualNum (quality (demoReq (.num 65) (.str "1280x720".toList)))
        ∨ resizeClause "1280x720".toList ≠ resizeClause "1280x720".toList
        ∨ timestamp demoEnv.now ≠ timestamp demoEnv.now)) ∧
    ((handler demoEnv (demoReq (.num 80) (.str "1280x720".toList))).1.body.signature?
        ≠ (handler demoEnv (demoReq (.num 65) (.str "1280x720".toList))).1.body.signature? ↔
      (qualNum (quality (demoReq (.num 80) (.str "1280x720".toList)))
          ≠ qualNum (quality (demoReq (.num 65) (.str "1280x720".toList)))
        ∨ resizeClause "1280x720".toList ≠ resizeClause "1280x720".toList
        ∨ timestamp demoEnv.now ≠ timestamp demoEnv.now)) :=
  C4_signature_separates_effective_inputs demoEnv demoEnv
    (demoReq (.num 80) (.str "1280x720".toList)) (demoReq (.num 65) (.str "1280x720".toList))
    "1280x720".toList "1280x720".toList rfl rfl demo_sha1_injective (by decide) (by decide)
    rfl rfl


/-- C5: two accepted requests, under whatever bearer tokens, users and other request fields,
that have the same quality and resolution and are signed at the same timestamp with the same
secret and digest get the same status, signature, timestamp and transformation string; for
a string resolution the status is 200 and the signature is the digest of a string built from
the quality, the resolution, the timestamp and the secret alone. -/
theorem C5_signature_deterministic (env1 env2 : Env) (req1 req2 : Req)
    (hsecret : env1.CLOUDINARY_API_SECRET = env2.CLOUDINARY_API_SECRET)
    (hsha : env1.sha1Hex = env2.sha1Hex)
    (hnow : timestamp env1.now = timestamp env2.now)
    (h1 : Accepted env1 req1) (h2 : Accepted env2 req2)
    (hq : quality req1 = quality req2) (hr : resolution req1 = resolution req2) :
    (handler env1 req1).1.status = (handler env2 req2).1.status ∧
    (handler env1 req1).1.body.signature? = (handler env2 req2).1.body.signature? ∧
    (handler env1 req1).1.body.timestamp? = (handler env2 req2).1.body.timestamp? ∧
    (handler env1 req1).1.body.eager? = (handler env2 req2).1.body.eager? ∧
    (∀ s, resolution req1 = .str s →
      (handler env1 req1).1.status = 200 ∧
      (handler env1 req1).1.body.signature? =
        some (env1.sha1Hex (signString (paramsToSign
          ("q_".toList ++ numberToString (qualNum (quality req1)) ++ resizeClause s)
          (timestamp env1.now)) ++ env1.CLOUDINARY_API_SECRET))) := by
  refine ⟨?_, ?_, ?_, ?_, ?_⟩
  · rw [handler_accepted h1, handler_accepted h2, hq, hr]
    cases eager (quality req2) (resolution req2) <;> rfl
  · rw [handler_accepted h1, handler_accepted h2, hq, hr, hsecret, hsha, hnow]
    cases eager (quality req2) (resolution req2) <;> rfl
  · rw [handler_accepted h1, handler_accepted h2, hq, hr, hnow]
    cases eager (quality req2) (resolution req2) <;> rfl
  · rw [handler_accepted h1, handler_accepted h2, hq, hr]
    cases eager (quality req2) (resolution req2) <;> rfl
  · intro s hs
    rw [handler_accepted_full h1 hs]
    exact ⟨rfl, rfl⟩

/-- C5, witness: the same body signed for two users under two tokens in the same second. -/
theorem C5_signature_deterministic_witness :
    (handler demoEnv (demoReq (.num 80) (.str "1280x720".toList))).1.body.signature?
      = some "sha1(eager=q_80,w_1280,h_720,c_scale&eager_async=false&timestamp=1700000000SECRET)".toList ∧
    (handler demoEnv (demoReq (.num 80) (.str "1280x720".toList))).1.body.signature?
      = (handler demoEnv2 ⟨"POST", some "Bearer   other".toList,
          some ⟨.num 80, .str "1280x720".toList⟩⟩).1.body.signature? :=
  ⟨by decide,
    (C5_signature_deterministic demoEnv demoEnv2 (demoReq (.num 80) (.str "1280x720".toList))
      ⟨"POST", some "Bearer   other".toList, some ⟨.num 80, .str "1280x720".toList⟩⟩
      rfl rfl (by decide) (by decide) (by decide) rfl rfl).2.1⟩

/-- C6: the signed parameters are `eager`, `eager_async` (the string `false`) and
`timestamp`; their names, sorted, are in strictly ascending lexicographic order; the canonical
string is `eager=<e>&eager_async=false&timestamp=<t>`; and for an accepted request whose
transformation string is `e` the one string handed to SHA-1 is that canonical string followed
by the secret, the returned signature being its hex digest. -/
theorem C6_signed_string_shape (env : Env) (req : Req) (e : Str)
    (hacc : Accepted env req) (he : eager (quality req) (resolution req) = .ok e) :
    paramsToSign e (timestamp env.now)
      = [("eager".toList, e), ("eager_async".toList, "false".toList),
          ("timestamp".toList, natToString (timestamp env.now))] ∧
    sortKeys ((paramsToSign e (timestamp env.now)).map Prod.fst)
      = ["eager".toList, "eager_async".toList, "timestamp".toList] ∧
    List.Pairwise (fun a b : Str => a < b)
      (sortKeys ((paramsToSign e (timestamp env.now)).map Prod.fst)) ∧
    signString (paramsToSign e (timestamp env.now))
      = "eager=".toList ++ e ++ "&eager_async=false&timestamp=".toList
          ++ natToString (timestamp env.now) ∧
    hashed (handler env req).2
      = ["eager=".toList ++ e ++ "&eager_async=false&timestamp=".toList
          ++ natToString (timestamp env.now) ++ env.CLOUDINARY_API_SECRET] ∧
    (handler env req).1.body.signature?
      = some (env.sha1Hex ("eager=".toList ++ e ++ "&eager_async=false&timestamp=".toList
          ++ natToString (timestamp env.now) ++ env.CLOUDINARY_API_SECRET)) := by
  refine ⟨rfl, sortKeys_paramsToSign _ _, ?_, signString_paramsToSign _ _, ?_, ?_⟩
  · rw [sortKeys_paramsToSign]
    decide
  · rw [handler_accepted hacc, he, ← signString_paramsToSign]
    rfl
  · rw [handler_accepted hacc, he, ← signString_paramsToSign]
    rfl

/-- C6, witness: quality 80 and resolution `"1280x720"`. -/
theorem C6_signed_string_shape_witness :
    hashed (handler demoEnv (demoReq (.num 80) (.str "1280x720".toList))).2
      = ["eager=".toList ++ "q_80,w_1280,h_720,c_scale".toList
          ++ "&eager_async=false&timestamp=".toList
          ++ natToString (timestamp demoEnv.now) ++ demoEnv.CLOUDINARY_API_SECRET] :=
  (C6_signed_string_shape demoEnv (demoReq (.num 80) (.str "1280x720".toList))
    "q_80,w_1280,h_720,c_scale".toList (by decide) rfl).2.2.2.2.1

end SignUpload
namespace History

theorem history_cors_fold :
    (CORS_HEADERS.foldl (fun r kv => r.setHeader kv.1 kv.2) Res.fresh) = ⟨CORS_HEADERS⟩ := by
  decide

/-- What `handler` does with a request, other than a preflight, whose credential is
verified: it dispatches on the method. -/
theorem handler_authed {env : Env} {rows : List Record} {req : Req} {userId : Str}
    (hm : req.method ≠ "OPTIONS") (h : Authed env req userId) :
    handler env rows req =
      if req.method = "GET" then
        ⟨(handleGet env rows req ⟨CORS_HEADERS⟩ userId).1,
          Call.getUser (bearer req) :: (handleGet env rows req ⟨CORS_HEADERS⟩ userId).2, rows⟩
      else if req.method = "POST" then
        ⟨(handlePost env rows req ⟨CORS_HEADERS⟩ userId).1,
          Call.getUser (bearer req) :: (handlePost env rows req ⟨CORS_HEADERS⟩ userId).2.1,
          (handlePost env rows req ⟨CORS_HEADERS⟩ userId).2.2⟩
      else if req.method = "DELETE" then
        ⟨(handleDelete env rows req ⟨CORS_HEADERS⟩ userId).1,
          Call.getUser (bearer req) :: (handleDelete env rows req ⟨CORS_HEADERS⟩ userId).2.1,
          (handleDelete env rows req ⟨CORS_HEADERS⟩ userId).2.2⟩
      else
        ⟨⟨405, CORS_HEADERS, Body.error "Method not allowed".toList⟩,
          [Call.getUser (bearer req)], rows⟩ := by
  obtain ⟨hstart, huser⟩ := h
  unfold handler
  rw [if_neg hm, history_cors_fold]
  cases hauth : req.authorization with
  | none => rw [hauth] at hstart; exact absurd hstart (by decide)
  | some authHeader =>
    rw [hauth] at hstart
    simp only [Option.getD_some] at hstart
    have hne := startsWith_ne_nil (p := bearerPrefix) (by decide) hstart
    have hb : bearer req = token authHeader := by simp [bearer, hauth]
    rw [hb] at huser ⊢
    simp only [hne, hstart, huser, Res.send]
    rfl

/-- What `handler` does with a request, other than a preflight, that carries no bearer
credential. -/
theorem history_handler_no_bearer {env : Env} {rows : List Record} {req : Req}
    (hm : req.method ≠ "OPTIONS")
    (hbad : ∀ h, req.authorization = some h → startsWith bearerPrefix h = false) :
    handler env rows req =
      ⟨⟨401, CORS_HEADERS, Body.error "Authorization header diperlukan".toList⟩, [], rows⟩ := by
  unfold handler
  rw [if_neg hm, history_cors_fold]
  cases hauth : req.authorization with
  | none => rfl
  | some authHeader =>
    simp only [hbad authHeader hauth, Res.send]
    simp

end History

namespace SignUpload

theorem handler_no_bearer {env : Env} {req : Req} (hm : req.method = "POST")
    (hbad : ∀ h, req.authorization = some h → startsWith bearerPrefix h = false) :
    handler env req =
      (⟨401, CORS_HEADERS, Body.error "Missing or invalid Authorization header".toList⟩, []) := by
  have h1 : ¬ (req.method = "OPTIONS") := by rw [hm]; decide
  unfold handler
  rw [if_neg h1, cors_fold]
  cases hauth : req.authorization with
  | none => simp [hm, Res.send]
  | some authHeader => simp [hm, hbad authHeader hauth, Res.send]

theorem handler_other_method {env : Env} {req : Req} (h1 : req.method ≠ "OPTIONS")
    (h2 : req.method ≠ "POST") :
    handler env req = (⟨405, CORS_HEADERS, Body.error "Method not allowed".toList⟩, []) := by
  unfold handler
  rw [if_neg h1, cors_fold]
  simp [h2, Res.send]

theorem handler_options {env : Env} {req : Req} (h : req.method = "OPTIONS") :
    handler env req = (⟨200, CORS_HEADERS, Body.empty⟩, []) := by
  unfold handler
  rw [if_pos h]
  rfl

/-- Every response of the sign-upload endpoint carries its cross-origin headers. -/
theorem handler_headers (env : Env) (req : Req) :
    (handler env req).1.headers = CORS_HEADERS := by
  by_cases h1 : req.method = "OPTIONS"
  · rw [handler_options h1]
  · by_cases h2 : req.method = "POST"
    · unfold handler
      rw [if_neg h1, cors_fold]
      simp only [h2, ne_eq, not_true_eq_false, if_false]
      cases req.authorization with
      | none => rfl
      | some authHeader =>
        simp only
        split
        · rfl
        · split
          · rfl
          · rfl
          · split <;> rfl
    · rw [handler_other_method h1 h2]

end SignUpload

namespace History

theorem history_handler_options {env : Env} {rows : List Record} {req : Req}
    (h : req.method = "OPTIONS") :
    handler env rows req = ⟨⟨200, CORS_HEADERS, Body.empty⟩, [], rows⟩ := by
  unfold handler
  rw [if_pos h]
  rfl

theorem handleGet_headers (env : Env) (rows : List Record) (req : Req) (res : Res)
    (userId : Str) : (handleGet env rows req res userId).1.headers = res.headers := by
  unfold handleGet
  simp only
  split <;> rfl

theorem handlePost_headers (env : Env) (rows : List Record) (req : Req) (res : Res)
    (userId : Str) : (handlePost env rows req res userId).1.headers = res.headers := by
  unfold handlePost
  simp only
  split
  · rfl
  · split <;> rfl

theorem handleDelete_headers (env : Env) (rows : List Record) (req : Req) (res : Res)
    (userId : Str) : (handleDelete env rows req res userId).1.headers = res.headers := by
  unfold handleDelete
  split
  · rfl
  · split
    · rfl
    · split
      · rfl
      · split
        · rfl
        · split <;> rfl

/-- Every response of the history endpoint carries its cross-origin headers. -/
theorem history_handler_headers (env : Env) (rows : List Record) (req : Req) :
    (handler env rows req).sent.headers = CORS_HEADERS := by
  by_cases h1 : req.method = "OPTIONS"
  · rw [history_handler_options h1]
  · unfold handler
    rw [if_neg h1, history_cors_fold]
    cases req.authorization with
    | none => rfl
    | some authHeader =>
      simp only
      split
      · rfl
      · split
        · rfl
        · rfl
        · split
          · exact handleGet_headers _ _ _ _ _
          · split
            · exact handlePost_headers _ _ _ _ _
            · split
              · exact handleDelete_headers _ _ _ _ _
              · rfl

end History

/-- C7, counterexample: a `GET` to sign-upload without an `Authorization` header is not a
preflight, yet it is answered 405, not 401. -/
theorem C7_sign_upload_get_without_credential :
    (⟨"GET", none, none⟩ : SignUpload.Req).method ≠ "OPTIONS" ∧
    (⟨"GET", none, none⟩ : SignUpload.Req).authorization = none ∧
    (SignUpload.handler SignUpload.demoEnv ⟨"GET", none, none⟩).1.status = 405 := by
  decide

/-- C7, amended: when the `Authorization` header is absent or does not start with `Bearer `,
the history endpoint answers every request other than a preflight, whatever its method,
with 401; the sign-upload endpoint answers a `POST` with 401 and every other method (other
than a preflight) with 405; in all these cases no call is made to the identity provider,
the store or the digest, and the table is unchanged. -/
theorem C7_missing_bearer_rejected (envH : History.Env) (rows : List History.Record)
    (reqH : History.Req) (envS : SignUpload.Env) (reqS : SignUpload.Req)
    (hmH : reqH.method ≠ "OPTIONS") (hmS : reqS.method ≠ "OPTIONS")
    (hbadH : ∀ h, reqH.authorization = some h → startsWith bearerPrefix h = false)
    (hbadS : ∀ h, reqS.authorization = some h → startsWith bearerPrefix h = false) :
    ((History.handler envH rows reqH).sent.status = 401 ∧
      (History.handler envH rows reqH).calls = [] ∧
      (History.handler envH rows reqH).rows = rows) ∧
    ((SignUpload.handler envS reqS).1.status = (if reqS.method = "POST" then 401 else 405) ∧
      (SignUpload.handler envS reqS).2 = []) := by
  constructor
  · rw [History.history_handler_no_bearer hmH hbadH]
    exact ⟨rfl, rfl, rfl⟩
  · by_cases hp : reqS.method = "POST"
    · rw [SignUpload.handler_no_bearer hp hbadS, if_pos hp]
      exact ⟨rfl, rfl⟩
    · rw [SignUpload.handler_other_method hmS hp, if_neg hp]
      exact ⟨rfl, rfl⟩

/-- C7, witness: a `DELETE` on history with a `Basic` credential and a `POST` on sign-upload
without a header. -/
theorem C7_missing_bearer_rejected_witness :
    ((History.handler History.demoEnv History.demoRows
        ⟨"DELETE", some "Basic tok".toList, { History.noQuery with id := some "a".toList },
          none⟩).sent.status = 401 ∧
      (History.handler History.demoEnv History.demoRows
        ⟨"DELETE", some "Basic tok".toList, { History.noQuery with id := some "a".toList },
          none⟩).calls = [] ∧
      (History.handler History.demoEnv History.demoRows
        ⟨"DELETE", some "Basic tok".toList, { History.noQuery with id := some "a".toList },
          none⟩).rows = History.demoRows) ∧
    ((SignUpload.handler SignUpload.demoEnv ⟨"POST", none, none⟩).1.status
        = (if (⟨"POST", none, none⟩ : SignUpload.Req).method = "POST" then 401 else 405) ∧
      (SignUpload.handler SignUpload.demoEnv ⟨"POST", none, none⟩).2 = []) :=
  C7_missing_bearer_rejected History.demoEnv History.demoRows
    ⟨"DELETE", some "Basic tok".toList, { History.noQuery with id := some "a".toList }, none⟩
    SignUpload.demoEnv ⟨"POST", none, none⟩ (by decide) (by decide)
    (by intro h e; cases e; decide) (by intro h e; cases e)

/-- C8: on both endpoints a preflight (`OPTIONS`) request is answered with status 200, the
endpoint's cross-origin headers and an empty payload, without any call being made and
whatever the `Authorization` header, the identity provider and the rest of the request are;
and every response of either endpoint, preflight or not, success or failure, carries the
endpoint's cross-origin headers, among them `Access-Control-Allow-Origin: *`. -/
theorem C8_cors_headers_always :
    (∀ (env : History.Env) (rows : List History.Record) (req : History.Req),
      req.method = "OPTIONS" →
        History.handler env rows req = ⟨⟨200, History.CORS_HEADERS, .empty⟩, [], rows⟩) ∧
    (∀ (env : SignUpload.Env) (req : SignUpload.Req), req.method = "OPTIONS" →
        SignUpload.handler env req = (⟨200, SignUpload.CORS_HEADERS, .empty⟩, [])) ∧
    (∀ (env : History.Env) (rows : List History.Record) (req : History.Req),
      (History.handler env rows req).sent.headers = History.CORS_HEADERS) ∧
    (∀ (env : SignUpload.Env) (req : SignUpload.Req),
      (SignUpload.handler env req).1.headers = SignUpload.CORS_HEADERS) ∧
    ("Access-Control-Allow-Origin", "*") ∈ History.CORS_HEADERS ∧
    ("Access-Control-Allow-Origin", "*") ∈ SignUpload.CORS_HEADERS :=
  ⟨fun _ _ _ h => History.history_handler_options h, fun _ _ h => SignUpload.handler_options h,
    History.history_handler_headers, SignUpload.handler_headers, by decide, by decide⟩

/-- C8, witness: a preflight on history carrying an invalid credential. -/
theorem C8_cors_headers_always_witness :
    History.handler History.demoEnv History.demoRows
        ⟨"OPTIONS", some "garbage".toList, History.noQuery, none⟩
      = ⟨⟨200, History.CORS_HEADERS, .empty⟩, [], History.demoRows⟩ :=
  C8_cors_headers_always.1 History.demoEnv History.demoRows
    ⟨"OPTIONS", some "garbage".toList, History.noQuery, none⟩ rfl

namespace History

theorem matching_eq (env : Env) (rows : List Record) (q : Select) :
    matching env rows q =
      (rows.filter (fun r => decide (r.user_id = q.user_id))).filter (fun r =>
        match q.pattern with
        | none => true
        | some pat => env.ilike pat r.filename) := by
  unfold matching
  rw [List.filter_filter]
  congr 1
  funext r
  exact Bool.and_comm _ _

theorem mem_matching {env : Env} {rows : List Record} {q : Select} {r : Record}
    (h : r ∈ matching env rows q) : r.user_id = q.user_id ∧ r ∈ rows := by
  unfold matching at h
  rw [List.mem_filter] at h
  obtain ⟨hr, hp⟩ := h
  simp only [Bool.and_eq_true, decide_eq_true_eq] at hp
  exact ⟨hp.1, hr⟩

theorem order_perm (column : Column) (ascending : Bool) (rows : List Record) :
    (order column ascending rows).Perm rows := by
  unfold order
  split <;> exact List.perm_insertionSort _ _

theorem sortBySaving_perm (rows : List Record) : (sortBySaving rows).Perm rows :=
  List.perm_insertionSort _ _

theorem buildSelect_user (query : Query) (userId : Str) :
    (buildSelect query userId).user_id = userId := by
  unfold buildSelect
  simp only


theorem buildSelect_range (query : Query) (userId : Str) :
    (buildSelect query userId).rangeFrom = off query.offset ∧
    (buildSelect query userId).rangeTo
      = toNumber (toNumber (off query.offset + lim query.limit) - 1) := by
  unfold buildSelect
  simp only
  exact ⟨trivial, trivial⟩

theorem lim_bounds (limit : Option Str) : 1 ≤ lim limit ∧ lim limit ≤ 100 := by
  unfold lim
  omega

theorem off_nonneg (offset : Option Str) : 0 ≤ off offset := by
  unfold off
  omega

/-- The end of the range is exact as long as offset + page size stays within `2 ^ 53`. -/
theorem buildSelect_range_exact (query : Query) (userId : Str)
    (h : off query.offset + lim query.limit ≤ 2 ^ 53) :
    (buildSelect query userId).rangeTo = off query.offset + lim query.limit - 1 := by
  have h0 := off_nonneg query.offset
  have h1 := lim_bounds query.limit
  rw [(buildSelect_range query userId).2]
  rw [@toNumber_of_le (off query.offset + lim query.limit) (by omega)]
  rw [@toNumber_of_le (off query.offset + lim query.limit - 1) (by omega)]

/-- The list response, when the store answers the query. -/
theorem handleGet_ok {env : Env} (rows : List Record) (req : Req) (res : Res) (userId : Str)
    (hok : env.selectError = none) :
    ∃ data, handleGet env rows req res userId =
        (res.send 200 (Body.list data
            (matching env rows (buildSelect req.query userId)).length),
          [Call.select (buildSelect req.query userId)]) ∧
      data.Perm (((order (buildSelect req.query userId).column
          (buildSelect req.query userId).ascending
          (matching env rows (buildSelect req.query userId))).drop
            (buildSelect req.query userId).rangeFrom.toNat).take
              ((buildSelect req.query userId).rangeTo + 1
                - (buildSelect req.query userId).rangeFrom).toNat) := by
  unfold handleGet runSelect
  simp only [hok]
  split
  · exact ⟨_, rfl, sortBySaving_perm _⟩
  · exact ⟨_, rfl, List.Perm.refl _⟩

/-- The list response depends on the table only through the rows of the principal. -/
theorem handleGet_congr (env : Env) {rows rows2 : List Record} (req : Req) (res : Res)
    (userId : Str)
    (hsame : rows2.filter (fun r => decide (r.user_id = userId))
      = rows.filter (fun r => decide (r.user_id = userId))) :
    handleGet env rows2 req res userId = handleGet env rows req res userId := by
  have hmatch : matching env rows2 (buildSelect req.query userId)
      = matching env rows (buildSelect req.query userId) := by
    rw [matching_eq, matching_eq, buildSelect_user, hsame]
  unfold handleGet runSelect
  simp only [hmatch]


/-- C9: for every table, every verified principal `p` and every query (limit, offset,
search, sort), when the store answers, List responds 200 with a page in which every record is
a row of the table owned by `p`, and with a total that is the number of some rows of the table
all owned by `p` (so at most the number of rows of `p`); and the response is the same on any
other table that holds the same rows of `p`, that is, after rows of other principals are
added or removed. -/
theorem C9_list_scoped_to_principal (env : Env) (rows rows2 : List Record) (req : Req)
    (p : Str) (hm : req.method = "GET") (hauth : Authed env req p)
    (hok : env.selectError = none)
    (hsame : rows2.filter (fun r => decide (r.user_id = p))
      = rows.filter (fun r => decide (r.user_id = p))) :
    ∃ data total,
      (handler env rows req).sent.status = 200 ∧
      (handler env rows req).sent.body = Body.list data total ∧
      (∀ r ∈ data, r.user_id = p ∧ r ∈ rows) ∧
      (∃ counted : List Record, counted.Sublist rows ∧ (∀ r ∈ counted, r.user_id = p) ∧
        total = counted.length) ∧
      total ≤ (rows.filter (fun r => decide (r.user_id = p))).length ∧
      (handler env rows2 req).sent = (handler env rows req).sent := by
  have hopt : req.method ≠ "OPTIONS" := by rw [hm]; decide
  obtain ⟨data, hget, hperm⟩ := @handleGet_ok env rows req ⟨CORS_HEADERS⟩ p hok
  have h1 : handler env rows req =
      ⟨(handleGet env rows req ⟨CORS_HEADERS⟩ p).1,
        Call.getUser (bearer req) :: (handleGet env rows req ⟨CORS_HEADERS⟩ p).2, rows⟩ := by
    rw [handler_authed hopt hauth, if_pos hm]
  have h2 : handler env rows2 req =
      ⟨(handleGet env rows2 req ⟨CORS_HEADERS⟩ p).1,
        Call.getUser (bearer req) :: (handleGet env rows2 req ⟨CORS_HEADERS⟩ p).2, rows2⟩ := by
    rw [handler_authed hopt hauth, if_pos hm]
  refine ⟨data, (matching env rows (buildSelect req.query p)).length, ?_, ?_, ?_, ?_, ?_, ?_⟩
  · rw [h1, hget]; rfl
  · rw [h1, hget]; rfl
  · intro r hr
    have h3 := List.mem_of_mem_drop (List.mem_of_mem_take (hperm.subset hr))
    have h4 := mem_matching ((order_perm _ _ _).subset h3)
    rw [buildSelect_user] at h4
    exact h4
  · refine ⟨matching env rows (buildSelect req.query p), List.filter_sublist _, ?_, rfl⟩
    intro r hr
    have h4 := mem_matching hr
    rw [buildSelect_user] at h4
    exact h4.1
  · rw [matching_eq, buildSelect_user]
    exact List.length_filter_le _ _
  · rw [h1, h2, handleGet_congr env req ⟨CORS_HEADERS⟩ p hsame]

/-- C9, witness: the principal `u1` lists the example table; the row of `u2` is then removed
and a row of `u3` is added. -/
theorem C9_list_scoped_to_principal_witness :
    ∃ data total,
      (handler demoEnv demoRows
        ⟨"GET", some "Bearer tok".toList, noQuery, none⟩).sent.status = 200 ∧
      (handler demoEnv demoRows
        ⟨"GET", some "Bearer tok".toList, noQuery, none⟩).sent.body = Body.list data total ∧
      (∀ r ∈ data, r.user_id = "u1".toList ∧ r ∈ demoRows) ∧
      (∃ counted : List Record, counted.Sublist demoRows ∧
        (∀ r ∈ counted, r.user_id = "u1".toList) ∧ total = counted.length) ∧
      total ≤ (demoRows.filter (fun r => decide (r.user_id = "u1".toList))).length ∧
      (handler demoEnv [demoRow "a" "u1" 100 50 1, demoRow "c" "u1" 200 20 3,
          demoRow "z" "u3" 7 7 9, demoRow "d" "u1" 0 0 4]
        ⟨"GET", some "Bearer tok".toList, noQuery, none⟩).sent
        = (handler demoEnv demoRows ⟨"GET", some "Bearer tok".toList, noQuery, none⟩).sent :=
  C9_list_scoped_to_principal demoEnv demoRows
    [demoRow "a" "u1" 100 50 1, demoRow "c" "u1" 200 20 3, demoRow "z" "u3" 7 7 9,
      demoRow "d" "u1" 0 0 4]
    ⟨"GET", some "Bearer tok".toList, noQuery, none⟩ "u1".toList rfl (by decide) rfl
    (by decide)

/-- C10, counterexample: the limit `"0"` parses as the integer 0, for which
`min(100, max(1, 0))` is 1, yet the effective page size is 12, the store is asked for the
range 0..11 and the page returned holds three records. -/
theorem C10_limit_zero_page_size_twelve :
    parseIntStr "0".toList = some 0 ∧
    min 100 (max 1 (0 : Int)) = 1 ∧
    lim (some "0".toList) = 12 ∧
    (selects (handler demoEnv demoRows
        ⟨"GET", some "Bearer tok".toList, { noQuery with limit := some "0".toList },
          none⟩).calls).map (fun q => (q.rangeFrom, q.rangeTo)) = [(0, 11)] ∧
    ((handler demoEnv demoRows
        ⟨"GET", some "Bearer tok".toList, { noQuery with limit := some "0".toList },
          none⟩).sent.body.data?).map List.length = some 3 := by
  decide

set_option maxRecDepth 100000 in
/-- Beyond `2 ^ 53` the range is rounded: the offset `"9007199254740993"` is read as the
Number 9007199254740992, and with the page size 12 the store is asked for the range
9007199254740992..9007199254741004, which has thirteen positions. -/
theorem range_beyond_two_pow_53 :
    parseIntStr "9007199254740993".toList = some 9007199254740993 ∧
    off (some "9007199254740993".toList) = 9007199254740992 ∧
    (selects (handler demoEnv demoRows
        ⟨"GET", some "Bearer tok".toList,
          { noQuery with offset := some "9007199254740993".toList }, none⟩).calls).map
      (fun q => (q.rangeFrom, q.rangeTo, q.rangeTo + 1 - q.rangeFrom))
      = [(9007199254740992, 9007199254741004, 13)] := by
  refine ⟨by rfl, by rfl, by rfl⟩

theorem lim_none : lim none = 12 := by decide

theorem off_none : off none = 0 := by decide

/-- The page size for a limit that parses as the integer `n`. -/
theorem lim_some {s : Str} {n : Int} (hp : parseIntStr s = some n) :
    lim (some s) = if n = 0 then 12 else min 100 (max 1 n) := by
  unfold lim parseIntStrNumber
  simp only [Option.getD_some, hp, Option.map_some']
  by_cases hn : n = 0
  · subst hn
    rfl
  · have ht : toNumber n ≠ 0 := fun h0 => hn ((toNumber_eq_zero_iff n).1 h0)
    rw [if_neg hn]
    simp only [orDefault, ht, if_false]
    exact clamp_toNumber n

/-- The offset for an input that parses as the integer `m`. -/
theorem off_some {s : Str} {m : Int} (hp : parseIntStr s = some m) :
    off (some s) = max 0 (toNumber m) := by
  unfold off parseIntStrNumber
  simp only [Option.getD_some, hp, Option.map_some']
  by_cases ht : toNumber m = 0
  · simp [orDefault, ht]
  · simp [orDefault, ht]

/-- Up to `2 ^ 53` the offset is the parsed integer, or 0 when that is negative. -/
theorem off_some_le {s : Str} {m : Int} (hp : parseIntStr s = some m) (hm : m ≤ 2 ^ 53) :
    off (some s) = max 0 m := by
  rw [off_some hp]
  by_cases h : m.natAbs ≤ 2 ^ 53
  · rw [toNumber_of_le h]
  · have hneg : m < 0 := by omega
    have := (@toNumber_big m (by omega)).2 hneg
    omega

/-- The query that a verified List sends to the store. -/
theorem selects_get {env : Env} {rows : List Record} {req : Req} {p : Str}
    (hm : req.method = "GET") (hauth : Authed env req p) :
    selects (handler env rows req).calls = [buildSelect req.query p] := by
  have hopt : req.method ≠ "OPTIONS" := by rw [hm]; decide
  rw [handler_authed hopt hauth, if_pos hm]
  unfold handleGet
  simp only
  split <;> rfl

/-- The page of a verified List holds at most as many records as the range has
positions. -/
theorem page_length_le {env : Env} {rows : List Record} {req : Req} {p : Str}
    (hm : req.method = "GET") (hauth : Authed env req p) (data : List Record) (total : Nat)
    (hbody : (handler env rows req).sent.body = Body.list data total) :
    data.length ≤ ((buildSelect req.query p).rangeTo + 1
      - (buildSelect req.query p).rangeFrom).toNat := by
  have hopt : req.method ≠ "OPTIONS" := by rw [hm]; decide
  rw [handler_authed hopt hauth, if_pos hm] at hbody
  simp only at hbody
  cases hsel : env.selectError with
  | some m =>
    unfold handleGet runSelect at hbody
    simp [hsel, Res.send] at hbody
  | none =>
    obtain ⟨d, hget, hperm⟩ := @handleGet_ok env rows req ⟨CORS_HEADERS⟩ p hsel
    rw [hget] at hbody
    simp only [Res.send, Body.list.injEq] at hbody
    rw [← hbody.1, hperm.length_eq]
    exact List.length_take_le _ _

/-- C10, amended: in List, for a limit that parses as a nonzero integer `n` the effective page
size is `min(100, max(1, n))`, and it is 12 when the limit is absent, is unparsable or
parses as 0; for an offset that parses as an integer `m` of at most `2 ^ 53` the effective
offset is `max(0, m)`, beyond `2 ^ 53` (and up to `Number.MAX_VALUE`) it is the Number
nearest to `m`, and it is 0 when the offset is absent or unparsable.  The one query sent to
the store asks for the range from the offset to the Number `offset + page size - 1`, each
operator rounding to binary64; as long as offset + page size is at most `2 ^ 53` this is
the index range from offset to offset + page size - 1 exactly, and a page that is returned
holds at most page-size records. -/
theorem C10_page_size_and_offset (env : Env) (rows : List Record) (req : Req) (p : Str)
    (hm : req.method = "GET") (hauth : Authed env req p) :
    (∀ s n, req.query.limit = some s → parseIntStr s = some n → n ≠ 0 →
      lim req.query.limit = min 100 (max 1 n)) ∧
    (∀ s, req.query.limit = some s → parseIntStr s = some 0 → lim req.query.limit = 12) ∧
    (∀ s, req.query.limit = some s → parseIntStr s = none → lim req.query.limit = 12) ∧
    (req.query.limit = none → lim req.query.limit = 12) ∧
    (∀ s m, req.query.offset = some s → parseIntStr s = some m → m ≤ 2 ^ 53 →
      off req.query.offset = max 0 m) ∧
    (∀ s m, req.query.offset = some s → parseIntStr s = some m → 2 ^ 53 < m →
      m ≤ MAX_VALUE → off req.query.offset = toNumber m) ∧
    (∀ s, req.query.offset = some s → parseIntStr s = none → off req.query.offset = 0) ∧
    (req.query.offset = none → off req.query.offset = 0) ∧
    ((∀ s m, req.query.offset = some s → parseIntStr s = some m → m ≤ MAX_VALUE) →
      ∃ q, selects (handler env rows req).calls = [q] ∧
        q.rangeFrom = off req.query.offset ∧
        q.rangeTo = toNumber (toNumber (off req.query.offset + lim req.query.limit) - 1) ∧
        ∀ data total, (handler env rows req).sent.body = Body.list data total →
          data.length ≤ (q.rangeTo + 1 - q.rangeFrom).toNat) ∧
    (off req.query.offset + lim req.query.limit ≤ 2 ^ 53 →
      (∃ q, selects (handler env rows req).calls = [q] ∧
        q.rangeFrom = off req.query.offset ∧
        q.rangeTo = off req.query.offset + lim req.query.limit - 1) ∧
      (∀ data total, (handler env rows req).sent.body = Body.list data total →
        (data.length : Int) ≤ lim req.query.limit)) := by
  refine ⟨?_, ?_, ?_, ?_, ?_, ?_, ?_, ?_, ?_, ?_⟩
  · intro s n hs hp hn
    rw [hs, lim_some hp, if_neg hn]
  · intro s hs hp
    rw [hs, lim_some hp, if_pos rfl]
  · intro s hs hp
    simp [lim, parseIntStrNumber, hs, hp, orDefault]
  · intro hs
    rw [hs]; exact lim_none
  · intro s m hs hp hle
    rw [hs, off_some_le hp hle]
  · intro s m hs hp hgt _
    rw [hs, off_some hp]
    have := (@toNumber_big m (by omega)).1 (by omega)
    omega
  · intro s hs hp
    simp [off, parseIntStrNumber, hs, hp, orDefault]
  · intro hs
    rw [hs]; exact off_none
  · intro _
    refine ⟨buildSelect req.query p, selects_get hm hauth, (buildSelect_range _ _).1,
      (buildSelect_range _ _).2, ?_⟩
    intro data total hbody
    exact page_length_le hm hauth data total hbody
  · intro hle
    refine ⟨⟨buildSelect req.query p, selects_get hm hauth, (buildSelect_range _ _).1,
      buildSelect_range_exact _ _ hle⟩, ?_⟩
    intro data total hbody
    have h1 := page_length_le hm hauth data total hbody
    rw [buildSelect_range_exact _ _ hle, (buildSelect_range _ _).1] at h1
    have hl := (lim_bounds req.query.limit).1
    omega

/-- C10, witness: limit `"-5"` and offset `"1"`. -/
theorem C10_page_size_and_offset_witness :
    off (some "1".toList) + lim (some "-5".toList) ≤ 2 ^ 53 ∧
    ∃ q, selects (handler demoEnv demoRows
        ⟨"GET", some "Bearer tok".toList,
          { noQuery with limit := some "-5".toList, offset := some "1".toList }, none⟩).calls
        = [q] ∧
      q.rangeFrom = off (some "1".toList) ∧
      q.rangeTo = off (some "1".toList) + lim (some "-5".toList) - 1 :=
  ⟨by decide,
    ((C10_page_size_and_offset demoEnv demoRows
      ⟨"GET", some "Bearer tok".toList,
        { noQuery with limit := some "-5".toList, offset := some "1".toList }, none⟩
      "u1".toList rfl (by decide)).2.2.2.2.2.2.2.2.2 (by decide)).1⟩


theorem sortBySaving_sorted (l : List Record) :
    (sortBySaving l).Sorted (fun a b => Double.le (savNumber b) (savNumber a)) := by
  haveI : IsTotal Record (fun a b => Double.le (savNumber b) (savNumber a)) :=
    ⟨fun a b => double_le_total (savNumber b) (savNumber a)⟩
  haveI : IsTrans Record (fun a b => Double.le (savNumber b) (savNumber a)) :=
    ⟨fun a b c hab hbc => double_le_trans hbc hab⟩
  exact List.sorted_insertionSort _ l

/-- What `handler` does with a verified `GET`. -/
theorem handler_get {env : Env} {rows : List Record} {req : Req} {p : Str}
    (hm : req.method = "GET") (hauth : Authed env req p) :
    handler env rows req =
      ⟨(handleGet env rows req ⟨CORS_HEADERS⟩ p).1,
        Call.getUser (bearer req) :: (handleGet env rows req ⟨CORS_HEADERS⟩ p).2, rows⟩ := by
  have hopt : req.method ≠ "OPTIONS" := by rw [hm]; decide
  rw [handler_authed hopt hauth, if_pos hm]

set_option maxRecDepth 100000 in
/-- C11, counterexample: the table holds `A` (150000001 to 75000001 bytes, the newer row)
and `B` (150000003 to 75000002 bytes).  The exact savings of `A` are below those of `B`,
but in binary64 both are the same Number, so the comparator returns 0 and the stable sort
keeps the page order: the data returned is `[A, B]`, in which the savings increase. -/
theorem C11_equal_numbers_unequal_ratios :
    (handler demoEnv
        [demoRow "A" "u1" 150000001 75000001 2, demoRow "B" "u1" 150000003 75000002 1]
        ⟨"GET", some "Bearer tok".toList,
          { noQuery with sort := some "biggest-saving".toList }, none⟩).sent.body
      = Body.list
          [demoRow "A" "u1" 150000001 75000001 2, demoRow "B" "u1" 150000003 75000002 1] 2 ∧
    sav (demoRow "A" "u1" 150000001 75000001 2)
      < sav (demoRow "B" "u1" 150000003 75000002 1) ∧
    savNumber (demoRow "A" "u1" 150000001 75000001 2)
      = savNumber (demoRow "B" "u1" 150000003 75000002 1) ∧
    savNumber (demoRow "A" "u1" 150000001 75000001 2) = ⟨9007199194692998, -54⟩ := by
  refine ⟨by rfl, ?_, by rfl, by rfl⟩
  simp [sav, demoRow]
  norm_num

/-- C11, amended: for a verified List request with `sort=biggest-saving` that the store
answers with a page (of records whose sizes are finite Numbers), the response is 200 and its
data is a permutation of that page in which the savings, taken as the Numbers that the
comparator computes, are non-increasing from first to last; the savings Number of a record
is the binary64 value of `1 - compressed_size / original_size` when `original_size > 0` and
0 when `original_size = 0`; and two records of which the first has savings at least those of
the second as Numbers, in particular two records with the same savings Number, keep the
order they have in the page. -/
theorem C11_biggest_saving_page_sorted (env : Env) (rows : List Record) (req : Req) (p : Str)
    (page : List Record) (count : Nat)
    (hm : req.method = "GET") (hauth : Authed env req p)
    (hsort : req.query.sort = some "biggest-saving".toList)
    (hpage : runSelect env rows (buildSelect req.query p) = .ok (page, count))
    (_hfin : ∀ r ∈ page, r.original_size.natAbs ≤ MAX_VALUE ∧
      r.compressed_size.natAbs ≤ MAX_VALUE) :
    ∃ data,
      (handler env rows req).sent.status = 200 ∧
      (handler env rows req).sent.body = Body.list data count ∧
      data.Perm page ∧
      data.Sorted (fun a b => Double.le (savNumber b) (savNumber a)) ∧
      (∀ a b : Record, Double.le (savNumber b) (savNumber a) → [a, b].Sublist page →
        [a, b].Sublist data) ∧
      (∀ r : Record, 0 < r.original_size →
        savNumber r = Double.sub (Double.ofInt 1)
          (Double.div (Double.ofInt r.compressed_size) (Double.ofInt r.original_size))) ∧
      (∀ r : Record, r.original_size = 0 → savNumber r = Double.ofInt 0) := by
  have hget : handleGet env rows req ⟨CORS_HEADERS⟩ p =
      ((⟨CORS_HEADERS⟩ : Res).send 200 (Body.list (sortBySaving page) count),
        [Call.select (buildSelect req.query p)]) := by
    unfold handleGet
    simp only [hpage, hsort, Option.getD_some, if_true]
  refine ⟨sortBySaving page, ?_, ?_, sortBySaving_perm page, sortBySaving_sorted page, ?_,
    ?_, ?_⟩
  · rw [handler_get hm hauth, hget]; rfl
  · rw [handler_get hm hauth, hget]; rfl
  · intro a b hab hsub
    exact List.pair_sublist_insertionSort hab hsub
  · intro r hr
    simp [savNumber, hr]
  · intro r hr
    simp [savNumber, hr]

/-- C11, witness: the principal `u1` lists the example table by biggest saving. -/
theorem C11_biggest_saving_page_sorted_witness :
    ∃ data,
      (handler demoEnv demoRows ⟨"GET", some "Bearer tok".toList,
        { noQuery with sort := some "biggest-saving".toList }, none⟩).sent.status = 200 ∧
      (handler demoEnv demoRows ⟨"GET", some "Bearer tok".toList,
        { noQuery with sort := some "biggest-saving".toList }, none⟩).sent.body
        = Body.list data 3 ∧
      data.Perm [demoRow "d" "u1" 0 0 4, demoRow "c" "u1" 200 20 3, demoRow "a" "u1" 100 50 1] ∧
      data.Sorted (fun a b => Double.le (savNumber b) (savNumber a)) := by
  obtain ⟨data, h1, h2, h3, h4, -⟩ := C11_biggest_saving_page_sorted demoEnv demoRows
    ⟨"GET", some "Bearer tok".toList, { noQuery with sort := some "biggest-saving".toList },
      none⟩ "u1".toList
    [demoRow "d" "u1" 0 0 4, demoRow "c" "u1" 200 20 3, demoRow "a" "u1" 100 50 1] 3
    rfl (by decide) rfl rfl
    (by
      intro r hr
      have h53 := two_pow_53_le_MAX_VALUE
      simp only [List.mem_cons, List.mem_singleton, List.not_mem_nil, or_false] at hr
      rcases hr with rfl | rfl | rfl <;>
        exact ⟨le_trans (by decide) h53, le_trans (by decide) h53⟩)
  exact ⟨data, h1, h2, h3, h4⟩


/-- What `handler` does with a verified `POST`. -/
theorem handler_post {env : Env} {rows : List Record} {req : Req} {p : Str}
    (hm : req.method = "POST") (hauth : Authed env req p) :
    handler env rows req =
      ⟨(handlePost env rows req ⟨CORS_HEADERS⟩ p).1,
        Call.getUser (bearer req) :: (handlePost env rows req ⟨CORS_HEADERS⟩ p).2.1,
        (handlePost env rows req ⟨CORS_HEADERS⟩ p).2.2⟩ := by
  have hopt : req.method ≠ "OPTIONS" := by rw [hm]; decide
  have hget : req.method ≠ "GET" := by rw [hm]; decide
  rw [handler_authed hopt hauth, if_neg hget, if_pos hm]

/-- What `handler` does with a verified `DELETE`. -/
theorem handler_delete {env : Env} {rows : List Record} {req : Req} {p : Str}
    (hm : req.method = "DELETE") (hauth : Authed env req p) :
    handler env rows req =
      ⟨(handleDelete env rows req ⟨CORS_HEADERS⟩ p).1,
        Call.getUser (bearer req) :: (handleDelete env rows req ⟨CORS_HEADERS⟩ p).2.1,
        (handleDelete env rows req ⟨CORS_HEADERS⟩ p).2.2⟩ := by
  have hopt : req.method ≠ "OPTIONS" := by rw [hm]; decide
  have hget : req.method ≠ "GET" := by rw [hm]; decide
  have hpost : req.method ≠ "POST" := by rw [hm]; decide
  rw [handler_authed hopt hauth, if_neg hget, if_neg hpost, if_pos hm]

/-- The response of `handlePost` when a required field is falsy. -/
theorem handlePost_rejected {env : Env} {rows : List Record} {req : Req} {res : Res} {p : Str}
    (h : truthy (fields req).filename = false ∨ truthy (fields req).cloudinary_url = false) :
    handlePost env rows req res p =
      (res.send 400 (Body.error "filename dan cloudinary_url wajib diisi".toList), [], rows) := by
  unfold handlePost
  have hc : (!truthy (fields req).filename || !truthy (fields req).cloudinary_url) = true := by
    rcases h with h | h <;> simp [h]
  simp only [fields, noBody] at hc
  simp only [hc, if_true]

/-- The response of `handlePost` when both required fields are truthy. -/
theorem handlePost_accepted {env : Env} {rows : List Record} {req : Req} {res : Res} {p : Str}
    (h1 : truthy (fields req).filename = true) (h2 : truthy (fields req).cloudinary_url = true) :
    handlePost env rows req res p =
      match env.insertError with
      | some message =>
        (res.send 500 (Body.error ("Gagal simpan ke database: ".toList ++ message)),
          [Call.insert (record env (fields req) p)], rows)
      | none =>
        (res.send 201 (Body.created ⟨record env (fields req) p, env.newId⟩),
          [Call.insert (record env (fields req) p)],
          rows ++ [⟨record env (fields req) p, env.newId⟩]) := by
  unfold handlePost
  have hc : (!truthy (fields req).filename || !truthy (fields req).cloudinary_url) = false := by
    simp [h1, h2]
  simp only [fields, noBody] at hc ⊢
  simp only [hc]
  rfl


/-- C12, counterexample: the body `{filename: 0, cloudinary_url: "https://x"}` has a
`filename` that is neither missing nor an empty string, yet Create answers 400 and makes no
insert. -/
theorem C12_numeric_zero_filename_rejected :
    (JSVal.num 0 ≠ JSVal.undefined ∧ JSVal.num 0 ≠ JSVal.str []) ∧
    (handler demoEnv demoRows (demoPost
      { noBody with filename := .num 0, cloudinary_url := .str "https://x".toList })).sent.status
        = 400 ∧
    inserts (handler demoEnv demoRows (demoPost
      { noBody with filename := .num 0, cloudinary_url := .str "https://x".toList })).calls
        = [] := by
  decide

/-- C12, amended: a verified Create answers 400 and makes no store call exactly when
`filename` or `cloudinary_url` is falsy in the body (missing, `null`, the empty string,
`false` or `0`; a missing body included), the table being unchanged; otherwise it makes
exactly one insert, of the record built from the body, and answers 201 with the persisted
record when the store accepts it and 500, with the table unchanged, when the store reports
an error.  For a field that is absent or a string, falsy means missing or empty. -/
theorem C12_create_validation (env : Env) (rows : List Record) (req : Req) (p : Str)
    (hm : req.method = "POST") (hauth : Authed env req p) :
    ((handler env rows req).sent.status = 400 ↔
      (truthy (fields req).filename = false ∨ truthy (fields req).cloudinary_url = false)) ∧
    ((truthy (fields req).filename = false ∨ truthy (fields req).cloudinary_url = false) →
      (handler env rows req).calls = [Call.getUser (bearer req)] ∧
      (handler env rows req).rows = rows) ∧
    ((truthy (fields req).filename = true ∧ truthy (fields req).cloudinary_url = true) →
      inserts (handler env rows req).calls = [record env (fields req) p] ∧
      deletes (handler env rows req).calls = [] ∧
      (env.insertError = none →
        (handler env rows req).sent.status = 201 ∧
        (handler env rows req).sent.body
          = Body.created ⟨record env (fields req) p, env.newId⟩ ∧
        (handler env rows req).rows = rows ++ [⟨record env (fields req) p, env.newId⟩]) ∧
      (∀ message, env.insertError = some message →
        (handler env rows req).sent.status = 500 ∧
        (handler env rows req).rows = rows)) ∧
    (∀ v : JSVal, (v = .undefined ∨ ∃ s, v = .str s) →
      (truthy v = false ↔ (v = .undefined ∨ v = .str []))) := by
  have hacc : (truthy (fields req).filename = true ∧ truthy (fields req).cloudinary_url = true) →
      inserts (handler env rows req).calls = [record env (fields req) p] ∧
      deletes (handler env rows req).calls = [] ∧
      (env.insertError = none →
        (handler env rows req).sent.status = 201 ∧
        (handler env rows req).sent.body
          = Body.created ⟨record env (fields req) p, env.newId⟩ ∧
        (handler env rows req).rows = rows ++ [⟨record env (fields req) p, env.newId⟩]) ∧
      (∀ message, env.insertError = some message →
        (handler env rows req).sent.status = 500 ∧
        (handler env rows req).rows = rows) := by
    rintro ⟨h1, h2⟩
    rw [handler_post hm hauth, handlePost_accepted h1 h2]
    cases hi : env.insertError with
    | none =>
      refine ⟨rfl, rfl, fun _ => ⟨rfl, rfl, rfl⟩, ?_⟩
      intro message hmsg
      exact absurd hmsg (by simp)
    | some m =>
      refine ⟨rfl, rfl, ?_, fun _ _ => ⟨rfl, rfl⟩⟩
      intro hnone
      exact absurd hnone (by simp)
  have hrej : (truthy (fields req).filename = false ∨
      truthy (fields req).cloudinary_url = false) →
      handler env rows req =
        ⟨⟨400, CORS_HEADERS, Body.error "filename dan cloudinary_url wajib diisi".toList⟩,
          [Call.getUser (bearer req)], rows⟩ := by
    intro h
    rw [handler_post hm hauth, handlePost_rejected h]
    rfl
  refine ⟨⟨?_, ?_⟩, ?_, hacc, ?_⟩
  · intro h400
    by_contra hne
    have h1 : truthy (fields req).filename = true := by
      cases ht : truthy (fields req).filename with
      | true => rfl
      | false => exact absurd (Or.inl ht) hne
    have h2 : truthy (fields req).cloudinary_url = true := by
      cases ht : truthy (fields req).cloudinary_url with
      | true => rfl
      | false => exact absurd (Or.inr ht) hne
    obtain ⟨-, -, h201, h500⟩ := hacc ⟨h1, h2⟩
    cases hi : env.insertError with
    | none =>
      rw [(h201 hi).1] at h400
      exact absurd h400 (by decide)
    | some m =>
      rw [(h500 m hi).1] at h400
      exact absurd h400 (by decide)
  · intro h
    rw [hrej h]
  · intro h
    rw [hrej h]
    exact ⟨rfl, rfl⟩
  · intro v hv
    rcases hv with rfl | ⟨s, rfl⟩
    · simp [truthy]
    · cases s with
      | nil => simp [truthy]
      | cons a as => simp [truthy]

/-- C12, witness: a request without a body is answered 400. -/
theorem C12_create_validation_witness :
    (handler demoEnv demoRows
        ⟨"POST", some "Bearer tok".toList, noQuery, none⟩).sent.status = 400 ↔
      (truthy (fields ⟨"POST", some "Bearer tok".toList, noQuery, none⟩).filename = false ∨
        truthy (fields ⟨"POST", some "Bearer tok".toList, noQuery, none⟩).cloudinary_url
          = false) :=
  (C12_create_validation demoEnv demoRows ⟨"POST", some "Bearer tok".toList, noQuery, none⟩
    "u1".toList rfl (by decide)).1


theorem parseInt_undefined : parseInt .undefined = none := by decide

/-- The one insert of a verified Create whose required fields are truthy. -/
theorem inserts_of_accepted {env : Env} {rows : List Record} {req : Req} {p : Str}
    (hm : req.method = "POST") (hauth : Authed env req p)
    (h1 : truthy (fields req).filename = true) (h2 : truthy (fields req).cloudinary_url = true) :
    inserts (handler env rows req).calls = [record env (fields req) p] := by
  rw [handler_post hm hauth, handlePost_accepted h1 h2]
  cases env.insertError <;> rfl

/-- The response of a verified Create whose required fields are truthy, when the store
accepts the insert. -/
theorem created_of_accepted {env : Env} {rows : List Record} {req : Req} {p : Str}
    (hm : req.method = "POST") (hauth : Authed env req p)
    (h1 : truthy (fields req).filename = true) (h2 : truthy (fields req).cloudinary_url = true)
    (hok : env.insertError = none) :
    (handler env rows req).sent.status = 201 ∧
    (handler env rows req).sent.body = Body.created ⟨record env (fields req) p, env.newId⟩ ∧
    (handler env rows req).rows = rows ++ [⟨record env (fields req) p, env.newId⟩] := by
  rw [handler_post hm hauth, handlePost_accepted h1 h2, hok]
  exact ⟨rfl, rfl, rfl⟩

/-- A string of at most `n` UTF-16 code units is its own `substring(0, n)`. -/
theorem substring_of_le : ∀ (s : Str) (n : Nat), (utf16 s).length ≤ n → substring s n = s := by
  intro s
  induction s with
  | nil => intro n _; rfl
  | cons c cs ih =>
    intro n h
    have hlen : (utf16Units c).length = utf16Size c := by
      unfold utf16Units utf16Size
      split <;> rfl
    have h2 : utf16Size c + (utf16 cs).length ≤ n := by
      have : (utf16 (c :: cs)).length = utf16Size c + (utf16 cs).length := by
        show (utf16Units c ++ utf16 cs).length = _
        rw [List.length_append, hlen]
      omega
    unfold substring
    rw [if_pos (by omega), ih _ (by omega)]

/-- Where the cut falls: of the letter `a` followed by 200 emoji (401 units) the first 255
units are the letter and 127 whole emoji; with two letters in front, the 255th unit is the
first half of an emoji. -/
theorem cutsPair_examples :
    cutsPair ('a' :: List.replicate 200 (Char.ofNat 0x1F600)) 255 = false ∧
    cutsPair ('a' :: 'b' :: List.replicate 200 (Char.ofNat 0x1F600)) 255 = true := by
  decide

set_option maxRecDepth 100000 in
/-- C13, counterexample: the filename is the letter `a` followed by 200 emoji (U+1F600), 201
characters, which is fewer than 255; the record written holds the letter and 127 emoji only,
128 characters: `substring(0, 255)` counts UTF-16 code units, of which each emoji has two, and
the filename written has 255 of them. -/
theorem C13_filename_cut_counts_code_units :
    (('a' :: List.replicate 200 (Char.ofNat 0x1F600)) : Str).length = 201 ∧
    (inserts (handler demoEnv demoRows (demoPost
        { noBody with filename := .str ('a' :: List.replicate 200 (Char.ofNat 0x1F600)),
                      cloudinary_url := .str "https://x".toList })).calls).map
      (fun r => r.filename) = ['a' :: List.replicate 127 (Char.ofNat 0x1F600)] ∧
    (('a' :: List.replicate 127 (Char.ofNat 0x1F600)) : Str).length = 128 ∧
    (utf16 ('a' :: List.replicate 127 (Char.ofNat 0x1F600))).length = 255 := by
  decide

/-- C13, amended: for a verified Create whose body holds a truthy `filename` and a truthy
`cloudinary_url` (non-empty strings in particular) and none of the other fields, the one
record handed to the store has `original_size = 0`, `compressed_size = 0`, `quality = 65`,
`resolution = "original"`, `public_id = null`, the given `cloudinary_url` and the filename
cut to its first 255 UTF-16 code units, of which a character outside the Basic Multilingual
Plane has two: a filename of at most 255 units is kept whole (and the record carries the
verified principal and the clock value); when the store accepts it, the answer is 201 with
that record.  This is stated for the filenames whose 255th unit is not the first half of a
surrogate pair (`cutsPair`): otherwise the cut ends with an unpaired surrogate, which the
strings of this model cannot hold. -/
theorem C13_create_defaults (env : Env) (rows : List Record) (req : Req) (p : Str)
    (filename cloudinary_url : JSVal)
    (hm : req.method = "POST") (hauth : Authed env req p)
    (hf : truthy filename = true) (hu : truthy cloudinary_url = true)
    (hbody : req.body
      = some { noBody with filename := filename, cloudinary_url := cloudinary_url })
    (hcut : cutsPair (toStr filename) 255 = false) :
    inserts (handler env rows req).calls =
      [{ user_id := p, filename := substring (toStr filename) 255, original_size := 0,
         compressed_size := 0, cloudinary_url := toStr cloudinary_url,
         resolution := "original".toList, quality := 65, public_id := none,
         created_at := env.now }] ∧
    (env.insertError = none →
      (handler env rows req).sent.status = 201 ∧
      (handler env rows req).sent.body = Body.created
        { user_id := p, filename := substring (toStr filename) 255, original_size := 0,
          compressed_size := 0, cloudinary_url := toStr cloudinary_url,
          resolution := "original".toList, quality := 65, public_id := none,
          created_at := env.now, id := env.newId }) ∧
    utf16 (substring (toStr filename) 255) = (utf16 (toStr filename)).take 255 ∧
    ((utf16 (toStr filename)).length ≤ 255 → substring (toStr filename) 255 = toStr filename) ∧
    (∀ s : Str, toStr (.str s) = s) := by
  have hfields : fields req
      = { noBody with filename := filename, cloudinary_url := cloudinary_url } := by
    simp [fields, hbody]
  have h1 : truthy (fields req).filename = true := by rw [hfields]; exact hf
  have h2 : truthy (fields req).cloudinary_url = true := by rw [hfields]; exact hu
  have hrec : record env (fields req) p =
      { user_id := p, filename := substring (toStr filename) 255, original_size := 0,
        compressed_size := 0, cloudinary_url := toStr cloudinary_url,
        resolution := "original".toList, quality := 65, public_id := none,
        created_at := env.now } := by
    rw [hfields]
    simp [record, noBody, parseIntNumber, parseInt_undefined, orDefault, truthy, toStr]
  refine ⟨?_, ?_, utf16_substring _ _ hcut, substring_of_le _ _, fun _ => rfl⟩
  · rw [inserts_of_accepted hm hauth h1 h2, hrec]
  · intro hok
    obtain ⟨hs, hb, -⟩ := @created_of_accepted env rows req p hm hauth h1 h2 hok
    rw [hb, hrec]
    exact ⟨hs, rfl⟩

/-- C13, witness: the body `{filename: "a.mp4", cloudinary_url: "https://x"}`. -/
theorem C13_create_defaults_witness :
    cutsPair (toStr (.str "a.mp4".toList)) 255 = false ∧
    inserts (handler demoEnv demoRows (demoPost
        { noBody with filename := .str "a.mp4".toList,
                      cloudinary_url := .str "https://x".toList })).calls =
      [{ user_id := "u1".toList, filename := substring (toStr (.str "a.mp4".toList)) 255,
         original_size := 0, compressed_size := 0,
         cloudinary_url := toStr (.str "https://x".toList),
         resolution := "original".toList, quality := 65, public_id := none,
         created_at := demoEnv.now }] ∧
    substring (toStr (.str "a.mp4".toList)) 255 = "a.mp4".toList :=
  ⟨by decide,
    (C13_create_defaults demoEnv demoRows (demoPost
      { noBody with filename := .str "a.mp4".toList,
                    cloudinary_url := .str "https://x".toList })
    "u1".toList (.str "a.mp4".toList) (.str "https://x".toList) rfl (by decide) rfl rfl
    rfl (by decide)).1, by decide⟩

/-- C14, counterexample: with `original_size: "-5"` and `compressed_size: -3` the record
written has the sizes -5 and -3, which are negative. -/
theorem C14_negative_sizes_written :
    (inserts (handler demoEnv demoRows (demoPost
        { noBody with filename := .str "a.mp4".toList,
                      cloudinary_url := .str "https://x".toList,
                      original_size := .str "-5".toList,
                      compressed_size := .num (-3) })).calls).map
      (fun r => (r.original_size, r.compressed_size)) = [(-5, -3)] := by
  decide

/-- C14, amended: for a verified Create that is accepted, with sizes whose parsed values are
finite Numbers (at most `Number.MAX_VALUE` in magnitude) and, when given as numbers, are
integers of at most `2 ^ 53` in magnitude, the sizes of the one record handed to the store
are integers: the Number of the value that `parseInt` reads from the input when there is
one, which is that value itself up to `2 ^ 53` and the nearest binary64 integer beyond (the
input itself for an integer; so a negative size for a negative input), and 0 when the input
is unparsable or absent; each is non-negative exactly when the parsed value, if any, is
non-negative. -/
theorem C14_sizes_as_parsed (env : Env) (rows : List Record) (req : Req) (p : Str)
    (hm : req.method = "POST") (hauth : Authed env req p)
    (h1 : truthy (fields req).filename = true) (h2 : truthy (fields req).cloudinary_url = true)
    (_ho : ∀ n, parseInt (fields req).original_size = some n → n.natAbs ≤ MAX_VALUE)
    (hon : ∀ k, (fields req).original_size = .num k → k.natAbs ≤ 2 ^ 53)
    (_hc : ∀ n, parseInt (fields req).compressed_size = some n → n.natAbs ≤ MAX_VALUE)
    (hcn : ∀ k, (fields req).compressed_size = .num k → k.natAbs ≤ 2 ^ 53) :
    ∃ r : NewRecord, inserts (handler env rows req).calls = [r] ∧
      (parseInt (fields req).original_size = none → r.original_size = 0) ∧
      (∀ n, parseInt (fields req).original_size = some n → r.original_size = toNumber n) ∧
      (∀ n, parseInt (fields req).original_size = some n → n.natAbs ≤ 2 ^ 53 →
        r.original_size = n) ∧
      (∀ k, (fields req).original_size = .num k → r.original_size = k) ∧
      (0 ≤ r.original_size ↔ ∀ n, parseInt (fields req).original_size = some n → 0 ≤ n) ∧
      (parseInt (fields req).compressed_size = none → r.compressed_size = 0) ∧
      (∀ n, parseInt (fields req).compressed_size = some n → r.compressed_size = toNumber n) ∧
      (∀ n, parseInt (fields req).compressed_size = some n → n.natAbs ≤ 2 ^ 53 →
        r.compressed_size = n) ∧
      (∀ k, (fields req).compressed_size = .num k → r.compressed_size = k) ∧
      (0 ≤ r.compressed_size ↔ ∀ n, parseInt (fields req).compressed_size = some n → 0 ≤ n) := by
  have key0 : ∀ x : Option Int,
      (x = none → orDefault (x.map toNumber) 0 = 0) ∧
      (∀ n, x = some n → orDefault (x.map toNumber) 0 = toNumber n) ∧
      (∀ n, x = some n → n.natAbs ≤ 2 ^ 53 → orDefault (x.map toNumber) 0 = n) ∧
      (0 ≤ orDefault (x.map toNumber) 0 ↔ ∀ n, x = some n → 0 ≤ n) := by
    intro x
    cases x with
    | none => simp [orDefault]
    | some k =>
      have hk : orDefault (Option.map toNumber (some k)) 0 = toNumber k := by
        by_cases ht : toNumber k = 0
        · simp [orDefault, ht]
        · simp [orDefault, ht]
      rw [hk]
      refine ⟨fun h => Option.noConfusion h, ?_, ?_, ?_⟩
      · intro n hn
        cases hn
        rfl
      · intro n hn hle
        cases hn
        exact toNumber_of_le hle
      · rw [toNumber_nonneg_iff]
        constructor
        · intro h0 n hn
          cases hn
          exact h0
        · intro h
          exact h k rfl
  have key : ∀ v : JSVal,
      (parseInt v = none → orDefault (parseIntNumber v) 0 = 0) ∧
      (∀ n, parseInt v = some n → orDefault (parseIntNumber v) 0 = toNumber n) ∧
      (∀ n, parseInt v = some n → n.natAbs ≤ 2 ^ 53 → orDefault (parseIntNumber v) 0 = n) ∧
      (0 ≤ orDefault (parseIntNumber v) 0 ↔ ∀ n, parseInt v = some n → 0 ≤ n) :=
    fun v => key0 (parseInt v)
  have hnum : ∀ (v : JSVal) (k : Int), (∀ j, v = .num j → j.natAbs ≤ 2 ^ 53) → v = .num k →
      orDefault (parseIntNumber v) 0 = k := by
    intro v k hdom hv
    have hp : parseInt v = some k := by rw [hv]; exact parseInt_num k
    exact (key v).2.2.1 k hp (hdom k hv)
  refine ⟨record env (fields req) p, inserts_of_accepted hm hauth h1 h2, ?_⟩
  exact ⟨(key _).1, (key _).2.1, (key _).2.2.1, fun k hk => hnum _ k hon hk, (key _).2.2.2,
    (key _).1, (key _).2.1, (key _).2.2.1, fun k hk => hnum _ k hcn hk, (key _).2.2.2⟩

/-- C14, witness: the sizes 1000 and 400. -/
theorem C14_sizes_as_parsed_witness :
    ∃ r : NewRecord, inserts (handler demoEnv demoRows (demoPost
        { noBody with filename := .str "a.mp4".toList,
                      cloudinary_url := .str "https://x".toList,
                      original_size := .num 1000, compressed_size := .num 400 })).calls = [r] ∧
      r.original_size = 1000 ∧ r.compressed_size = 400 := by
  have hfin : ∀ (j n : Int), j.natAbs ≤ 2 ^ 53 → parseInt (.num j) = some n →
      n.natAbs ≤ MAX_VALUE := by
    intro j n hj hn
    rw [parseInt_num] at hn
    cases hn
    exact le_trans hj two_pow_53_le_MAX_VALUE
  obtain ⟨r, hr, -, -, -, ho, -, -, -, -, hc, -⟩ := C14_sizes_as_parsed demoEnv demoRows
    (demoPost
      { noBody with filename := .str "a.mp4".toList,
                    cloudinary_url := .str "https://x".toList,
                    original_size := .num 1000, compressed_size := .num 400 })
    "u1".toList rfl (by decide) rfl rfl
    (fun n hn => hfin 1000 n (by decide) hn)
    (fun k hk => by cases hk; decide)
    (fun n hn => hfin 400 n (by decide) hn)
    (fun k hk => by cases hk; decide)
  exact ⟨r, hr, ho 1000 rfl, hc 400 rfl⟩

/-- C15, the failing input evaluated: for the body
`{filename: "a.mp4", cloudinary_url: "https://x", quality: 500}` the record written has
quality 500, outside `[1,100]`; the sign-upload endpoint clamps the same input to 100. -/
theorem C15_quality_written_unclamped :
    (inserts (handler demoEnv demoRows (demoPost
        { noBody with filename := .str "a.mp4".toList,
                      cloudinary_url := .str "https://x".toList,
                      quality := .num 500 })).calls).map (fun r => r.quality) = [500] ∧
    SignUpload.qualNum (.num 500) = 100 := by
  decide


theorem ofObject_congr {obj1 obj2 : List (Str × JSVal)}
    (h : ∀ k ∈ postKeys, getField obj1 k = getField obj2 k) :
    PostBody.ofObject obj1 = PostBody.ofObject obj2 := by
  unfold PostBody.ofObject
  rw [h "filename" (by decide), h "original_size" (by decide), h "compressed_size" (by decide),
    h "cloudinary_url" (by decide), h "resolution" (by decide), h "quality" (by decide),
    h "public_id" (by decide)]

/-- C16: for a verified Create that is accepted, the one record handed to the store carries
the identifier of the verified principal as `user_id` and the server clock value as
`created_at`, whatever the body holds, and so does the persisted record returned with 201;
and two bodies that agree on the seven fields `filename`, `original_size`, `compressed_size`,
`cloudinary_url`, `resolution`, `quality` and `public_id` (they may differ in any other key,
such as `user_id`, `id` or `created_at`) lead to the same response, calls and table. -/
theorem C16_owner_and_time_stamped_by_server (env : Env) (rows : List Record) (req : Req)
    (p : Str) (hm : req.method = "POST") (hauth : Authed env req p)
    (h1 : truthy (fields req).filename = true) (h2 : truthy (fields req).cloudinary_url = true) :
    (∃ r : NewRecord, inserts (handler env rows req).calls = [r] ∧
      r.user_id = p ∧ r.created_at = env.now) ∧
    (env.insertError = none →
      ∃ data : Record, (handler env rows req).sent.status = 201 ∧
        (handler env rows req).sent.body = Body.created data ∧
        data.user_id = p ∧ data.created_at = env.now ∧
        (handler env rows req).rows = rows ++ [data]) ∧
    (∀ obj1 obj2 : List (Str × JSVal),
      (∀ k ∈ postKeys, getField obj1 k = getField obj2 k) →
      handler env rows { req with body := some (PostBody.ofObject obj1) }
        = handler env rows { req with body := some (PostBody.ofObject obj2) }) := by
  refine ⟨⟨record env (fields req) p, inserts_of_accepted hm hauth h1 h2, rfl, rfl⟩, ?_, ?_⟩
  · intro hok
    obtain ⟨hs, hb, hr⟩ := @created_of_accepted env rows req p hm hauth h1 h2 hok
    exact ⟨⟨record env (fields req) p, env.newId⟩, hs, hb, rfl, rfl, hr⟩
  · intro obj1 obj2 h
    rw [ofObject_congr h]

/-- C16, witness: a body that also carries `user_id`, `id` and `created_at` is treated like
the body without them. -/
theorem C16_owner_and_time_stamped_by_server_witness :
    (∃ r : NewRecord, inserts (handler demoEnv demoRows (demoPost (PostBody.ofObject
        [("filename".toList, .str "a.mp4".toList),
         ("cloudinary_url".toList, .str "https://x".toList),
         ("user_id".toList, .str "u2".toList), ("id".toList, .str "a".toList),
         ("created_at".toList, .num 1)]))).calls = [r] ∧
      r.user_id = "u1".toList ∧ r.created_at = demoEnv.now) ∧
    handler demoEnv demoRows (demoPost (PostBody.ofObject
        [("filename".toList, .str "a.mp4".toList),
         ("cloudinary_url".toList, .str "https://x".toList),
         ("user_id".toList, .str "u2".toList), ("id".toList, .str "a".toList),
         ("created_at".toList, .num 1)]))
      = handler demoEnv demoRows (demoPost (PostBody.ofObject
        [("filename".toList, .str "a.mp4".toList),
         ("cloudinary_url".toList, .str "https://x".toList)])) :=
  ⟨(C16_owner_and_time_stamped_by_server demoEnv demoRows (demoPost (PostBody.ofObject
        [("filename".toList, .str "a.mp4".toList),
         ("cloudinary_url".toList, .str "https://x".toList),
         ("user_id".toList, .str "u2".toList), ("id".toList, .str "a".toList),
         ("created_at".toList, .num 1)])) "u1".toList rfl (by decide) rfl rfl).1,
   (C16_owner_and_time_stamped_by_server demoEnv demoRows (demoPost (PostBody.ofObject
        [("filename".toList, .str "a.mp4".toList),
         ("cloudinary_url".toList, .str "https://x".toList),
         ("user_id".toList, .str "u2".toList), ("id".toList, .str "a".toList),
         ("created_at".toList, .num 1)])) "u1".toList rfl (by decide) rfl rfl).2.2
      [("filename".toList, .str "a.mp4".toList),
         ("cloudinary_url".toList, .str "https://x".toList),
         ("user_id".toList, .str "u2".toList), ("id".toList, .str "a".toList),
         ("created_at".toList, .num 1)]
      [("filename".toList, .str "a.mp4".toList),
         ("cloudinary_url".toList, .str "https://x".toList)] (by decide)⟩


theorem filter_id_of_nodup {rows : List Record} {r : Record}
    (hn : (rows.map (fun x => x.id)).Nodup) (hr : r ∈ rows) :
    rows.filter (fun x => decide (x.id = r.id)) = [r] := by
  induction rows with
  | nil => simp at hr
  | cons x xs ih =>
    rw [List.map_cons, List.nodup_cons] at hn
    obtain ⟨hx, hxs⟩ := hn
    rcases List.mem_cons.1 hr with rfl | hmem
    · have hnone : xs.filter (fun x => decide (x.id = r.id)) = [] := by
        rw [List.filter_eq_nil_iff]
        intro a ha hd
        apply hx
        rw [← of_decide_eq_true hd]
        exact List.mem_map_of_mem _ ha
      simp [List.filter_cons, hnone]
    · have hne : x.id ≠ r.id := by
        intro e
        apply hx
        rw [e]
        exact List.mem_map_of_mem _ hmem
      simp [List.filter_cons, hne, ih hxs hmem]

theorem fetchSingle_none_of_absent {env : Env} {rows : List Record} {i : Str}
    (h : ∀ x ∈ rows, x.id ≠ i) : fetchSingle env rows i = none := by
  have hf : rows.filter (fun r => decide (r.id = i)) = [] := by
    rw [List.filter_eq_nil_iff]
    intro a ha hd
    exact h a ha (of_decide_eq_true hd)
  unfold fetchSingle
  rw [hf]
  cases env.fetchError <;> rfl

theorem fetchSingle_of_unique {env : Env} {rows : List Record} {r : Record}
    (hok : env.fetchError = none) (hn : (rows.map (fun x => x.id)).Nodup) (hr : r ∈ rows) :
    fetchSingle env rows r.id = some r := by
  unfold fetchSingle
  rw [hok, filter_id_of_nodup hn hr]

theorem fetchSingle_some {env : Env} {rows : List Record} {i : Str} {e : Record}
    (h : fetchSingle env rows i = some e) : e ∈ rows ∧ e.id = i := by
  unfold fetchSingle at h
  split at h
  · rename_i existing hf _
    injection h with h
    subst h
    have hm : existing ∈ rows.filter (fun r => decide (r.id = i)) := by
      rw [‹rows.filter (fun r => decide (r.id = i)) = [existing]›]; simp
    rw [List.mem_filter] at hm
    exact ⟨hm.1, of_decide_eq_true hm.2⟩
  · exact absurd h (by simp)

/-- The four outcomes of `handleDelete` for a non-empty `id`. -/
theorem handleDelete_id {env : Env} {rows : List Record} {req : Req} {res : Res} {p i : Str}
    (hid : req.query.id = some i) (hne : i ≠ []) :
    handleDelete env rows req res p =
      match fetchSingle env rows i with
      | none =>
        (res.send 404 (Body.error "Record tidak ditemukan".toList), [Call.fetch i], rows)
      | some existing =>
        if existing.user_id ≠ p then
          (res.send 403 (Body.error "Lo gak berhak hapus record orang lain".toList),
            [Call.fetch i], rows)
        else
          match env.deleteError with
          | some message =>
            (res.send 500 (Body.error ("Gagal hapus: ".toList ++ message)),
              [Call.fetch i, Call.delete i], rows)
          | none =>
            (res.send 200 (Body.deleted i), [Call.fetch i, Call.delete i],
              rows.filter (fun r => decide (r.id ≠ i))) := by
  have he : i.isEmpty = false := by
    cases i with
    | nil => exact absurd rfl hne
    | cons a as => rfl
  unfold handleDelete
  simp only [hid, he]
  rfl

theorem handleDelete_no_id {env : Env} {rows : List Record} {req : Req} {res : Res} {p : Str}
    (hid : req.query.id = none ∨ req.query.id = some []) :
    handleDelete env rows req res p =
      (res.send 400 (Body.error "Parameter id diperlukan".toList), [], rows) := by
  unfold handleDelete
  rcases hid with h | h <;> simp [h]


/-- A delete is only ever invoked for a row that the caller owns. -/
theorem handleDelete_deletes_owned {env : Env} {rows : List Record} {req : Req} {res : Res}
    {p i : Str} (h : i ∈ deletes (handleDelete env rows req res p).2.1) :
    ∃ r ∈ rows, r.id = i ∧ r.user_id = p := by
  cases hid : req.query.id with
  | none =>
    rw [handleDelete_no_id (Or.inl hid)] at h
    simp [deletes] at h
  | some j =>
    by_cases hj : j = []
    · rw [handleDelete_no_id (Or.inr (by rw [hid, hj]))] at h
      simp [deletes] at h
    · rw [handleDelete_id hid hj] at h
      cases hf : fetchSingle env rows j with
      | none =>
        rw [hf] at h
        simp [deletes] at h
      | some existing =>
        rw [hf] at h
        obtain ⟨hmem, hidj⟩ := fetchSingle_some hf
        by_cases hown : existing.user_id = p
        · simp only [ne_eq, hown, not_true_eq_false, if_false] at h
          have hi : i = j := by
            cases hd : env.deleteError with
            | none => rw [hd] at h; simpa [deletes] using h
            | some m => rw [hd] at h; simpa [deletes] using h
          exact ⟨existing, hmem, by rw [hi, hidj], hown⟩
        · simp only [ne_eq, hown, not_false_eq_true, if_true] at h
          simp [deletes] at h

/-- C17: for a verified Delete by the principal `p`: if the table holds a record with the
requested id that is owned by another principal (ids being unique and the lookup answered by
the store), the answer is 403, the table is unchanged and no delete is invoked; if the table
holds no record with that id, the answer is 404 with the table unchanged and no delete; if
the id is missing, the answer is 400 with no store call; and in every case a delete is
invoked only for the id of a record of the table whose `user_id` is `p`, and the table
changes only when a delete is invoked. -/
theorem C17_delete_authorization (env : Env) (rows : List Record) (req : Req) (p : Str)
    (hm : req.method = "DELETE") (hauth : Authed env req p) :
    (∀ r : Record, r ∈ rows → req.query.id = some r.id → r.id ≠ [] → r.user_id ≠ p →
      (rows.map (fun x => x.id)).Nodup → env.fetchError = none →
      (handler env rows req).sent.status = 403 ∧
      (handler env rows req).rows = rows ∧
      deletes (handler env rows req).calls = []) ∧
    (∀ i : Str, req.query.id = some i → i ≠ [] → (∀ x ∈ rows, x.id ≠ i) →
      (handler env rows req).sent.status = 404 ∧
      (handler env rows req).rows = rows ∧
      deletes (handler env rows req).calls = []) ∧
    ((req.query.id = none ∨ req.query.id = some []) →
      (handler env rows req).sent.status = 400 ∧
      (handler env rows req).rows = rows ∧
      (handler env rows req).calls = [Call.getUser (bearer req)]) ∧
    (∀ i : Str, i ∈ deletes (handler env rows req).calls →
      ∃ r ∈ rows, r.id = i ∧ r.user_id = p) ∧
    (deletes (handler env rows req).calls = [] → (handler env rows req).rows = rows) := by
  rw [handler_delete hm hauth]
  refine ⟨?_, ?_, ?_, ?_, ?_⟩
  · intro r hr hid hne hown hn hok
    rw [handleDelete_id hid hne, fetchSingle_of_unique hok hn hr]
    simp only [if_pos hown]
    refine ⟨?_, ?_, ?_⟩ <;> first | rfl | trivial
  · intro i hid hne habs
    rw [handleDelete_id hid hne, fetchSingle_none_of_absent habs]
    exact ⟨rfl, rfl, rfl⟩
  · intro hid
    rw [handleDelete_no_id hid]
    exact ⟨rfl, rfl, rfl⟩
  · intro i hi
    have hi2 : i ∈ deletes (handleDelete env rows req ⟨CORS_HEADERS⟩ p).2.1 := by
      simpa [deletes] using hi
    exact handleDelete_deletes_owned hi2
  · intro hnone
    have hnone2 : deletes (handleDelete env rows req ⟨CORS_HEADERS⟩ p).2.1 = [] := by
      simpa [deletes] using hnone
    show (handleDelete env rows req ⟨CORS_HEADERS⟩ p).2.2 = rows
    cases hid : req.query.id with
    | none => rw [handleDelete_no_id (Or.inl hid)]
    | some j =>
      by_cases hj : j = []
      · rw [handleDelete_no_id (Or.inr (by rw [hid, hj]))]
      · rw [handleDelete_id hid hj] at hnone2 ⊢
        cases hf : fetchSingle env rows j with
        | none => rfl
        | some existing =>
          rw [hf] at hnone2
          simp only
          by_cases hown : existing.user_id = p
          · simp only [ne_eq, hown, not_true_eq_false, if_false] at hnone2 ⊢
            cases hd : env.deleteError with
            | none => rw [hd] at hnone2; simp [deletes] at hnone2
            | some m => rfl
          · simp only [ne_eq, hown, not_false_eq_true, if_true]

/-- C17, witness: `u1` asks to delete the record `b`, which `u2` owns. -/
theorem C17_delete_authorization_witness :
    (handler demoEnv demoRows (demoDelete "b")).sent.status = 403 ∧
    (handler demoEnv demoRows (demoDelete "b")).rows = demoRows ∧
    deletes (handler demoEnv demoRows (demoDelete "b")).calls = [] :=
  (C17_delete_authorization demoEnv demoRows (demoDelete "b") "u1".toList rfl
    (by decide)).1 (demoRow "b" "u2" 100 10 2) (by decide) rfl (by decide) (by decide)
    (by decide) rfl


theorem nodup_of_nodup_ids {rows : List Record} (hn : (rows.map (fun x => x.id)).Nodup) :
    rows.Nodup := List.Nodup.of_map _ hn

theorem filter_ne_id_eq_erase {rows : List Record} {r : Record}
    (hn : (rows.map (fun x => x.id)).Nodup) (hr : r ∈ rows) :
    rows.filter (fun x => decide (x.id ≠ r.id)) = rows.erase r := by
  rw [(nodup_of_nodup_ids hn).erase_eq_filter r]
  apply List.filter_congr
  intro x hx
  have hiff : x.id = r.id ↔ x = r := by
    constructor
    · intro e
      exact List.inj_on_of_nodup_map hn hx hr e
    · intro e; rw [e]
  by_cases hxr : x = r
  · simp [hxr]
  · have : x.id ≠ r.id := fun e => hxr (hiff.1 e)
    simp [hxr, this]

/-- C18: in a table with unique ids, for a record `r` (with a non-empty id) owned by the
verified principal and a store that answers without error, the first Delete of its id
answers 200 with `{success: true, deletedId: id}` and leaves the table with exactly `r`
removed (the other records unchanged and in their order); a second Delete of the same id on
the resulting table answers 404 and leaves that table unchanged. -/
theorem C18_delete_then_not_found (env : Env) (rows : List Record) (req : Req) (p : Str)
    (r : Record) (hm : req.method = "DELETE") (hauth : Authed env req p)
    (hn : (rows.map (fun x => x.id)).Nodup) (hr : r ∈ rows) (hown : r.user_id = p)
    (hne : r.id ≠ []) (hid : req.query.id = some r.id)
    (hfetch : env.fetchError = none) (hdel : env.deleteError = none) :
    (handler env rows req).sent.status = 200 ∧
    (handler env rows req).sent.body = Body.deleted r.id ∧
    (handler env rows req).rows = rows.erase r ∧
    r ∉ (handler env rows req).rows ∧
    (∀ x ∈ rows, x ≠ r → x ∈ (handler env rows req).rows) ∧
    (handler env rows req).rows.Sublist rows ∧
    (handler env (handler env rows req).rows req).sent.status = 404 ∧
    (handler env (handler env rows req).rows req).rows = (handler env rows req).rows := by
  have h1 : handler env rows req =
      ⟨⟨200, CORS_HEADERS, Body.deleted r.id⟩,
        [Call.getUser (bearer req), Call.fetch r.id, Call.delete r.id], rows.erase r⟩ := by
    rw [handler_delete hm hauth, handleDelete_id hid hne, fetchSingle_of_unique hfetch hn hr]
    have hown2 : ¬ (r.user_id ≠ p) := fun h => h hown
    simp only [if_neg hown2, hdel, filter_ne_id_eq_erase hn hr]
    rfl
  have hnd := nodup_of_nodup_ids hn
  have hnotin : r ∉ rows.erase r := fun h => (List.Nodup.mem_erase_iff hnd).1 h |>.1 rfl
  have habs : ∀ x ∈ rows.erase r, x.id ≠ r.id := by
    intro x hx e
    have hxr := List.mem_of_mem_erase hx
    have : x = r := List.inj_on_of_nodup_map hn hxr hr e
    exact hnotin (this ▸ hx)
  have h2 : handler env (rows.erase r) req =
      ⟨⟨404, CORS_HEADERS, Body.error "Record tidak ditemukan".toList⟩,
        [Call.getUser (bearer req), Call.fetch r.id], rows.erase r⟩ := by
    rw [handler_delete hm hauth, handleDelete_id hid hne, fetchSingle_none_of_absent habs]
    rfl
  rw [h1]
  simp only [h2]
  refine ⟨?_, ?_, ?_, hnotin, ?_, List.erase_sublist _ _, ?_, ?_⟩
  any_goals first | rfl | trivial
  intro x hx hxr
  exact (List.mem_erase_of_ne hxr).2 hx

/-- C18, witness: `u1` deletes the record `a` of the example table twice. -/
theorem C18_delete_then_not_found_witness :
    (handler demoEnv demoRows (demoDelete "a")).sent.status = 200 ∧
    (handler demoEnv demoRows (demoDelete "a")).sent.body = Body.deleted "a".toList ∧
    (handler demoEnv demoRows (demoDelete "a")).rows
      = [demoRow "b" "u2" 100 10 2, demoRow "c" "u1" 200 20 3, demoRow "d" "u1" 0 0 4] ∧
    (handler demoEnv (handler demoEnv demoRows (demoDelete "a")).rows
      (demoDelete "a")).sent.status = 404 :=
  ⟨(C18_delete_then_not_found demoEnv demoRows (demoDelete "a") "u1".toList
      (demoRow "a" "u1" 100 50 1) rfl (by decide) (by decide) (by decide) rfl (by decide) rfl
      rfl rfl).1,
    (C18_delete_then_not_found demoEnv demoRows (demoDelete "a") "u1".toList
      (demoRow "a" "u1" 100 50 1) rfl (by decide) (by decide) (by decide) rfl (by decide) rfl
      rfl rfl).2.1,
    by decide,
    (C18_delete_then_not_found demoEnv demoRows (demoDelete "a") "u1".toList
      (demoRow "a" "u1" 100 50 1) rfl (by decide) (by decide) (by decide) rfl (by decide) rfl
      rfl rfl).2.2.2.2.2.2.1⟩

end History

namespace HistoryView

open History (Record)

theorem renderNextPage_allItems (st : State) :
    (renderNextPage st).allItems = st.allItems ∧
    (renderNextPage st).pendingDeleteId = st.pendingDeleteId ∧
    (renderNextPage st).filteredItems = st.filteredItems := by
  unfold renderNextPage
  simp only
  split <;> exact ⟨rfl, rfl, rfl⟩

theorem applyFilterAndRender_allItems (lower : Str → Str) (st : State) :
    (applyFilterAndRender lower st).allItems = st.allItems ∧
    (applyFilterAndRender lower st).pendingDeleteId = st.pendingDeleteId ∧
    (applyFilterAndRender lower st).filteredItems
      = filterAndSort lower st.searchValue st.sortValue st.allItems := by
  unfold applyFilterAndRender
  obtain ⟨h1, h2, h3⟩ := renderNextPage_allItems (clearGrid
    { st with filteredItems := filterAndSort lower st.searchValue st.sortValue st.allItems })
  rw [h1, h2, h3]
  exact ⟨rfl, rfl, rfl⟩

/-- Rendering a page from the cursor 0 into an empty grid shows the first `PAGE_SIZE`
items. -/
theorem renderNextPage_from_zero (st : State) (h0 : st.displayedCount = 0)
    (hg : st.grid = []) :
    (renderNextPage st).grid = st.filteredItems.take PAGE_SIZE ∧
    (renderNextPage st).displayedCount = min PAGE_SIZE st.filteredItems.length := by
  unfold renderNextPage
  simp only
  split
  · rename_i hlen
    have hnil : st.filteredItems = [] := List.length_eq_zero.1 hlen
    simp [hg, h0, hnil]
  · simp [hg, h0]

/-- After `applyFilterAndRender` on a state whose cursor is 0, the grid shows the first
`PAGE_SIZE` items of the new list and the cursor is their number. -/
theorem applyFilterAndRender_from_zero (lower : Str → Str) (st : State)
    (h0 : st.displayedCount = 0) :
    (applyFilterAndRender lower st).grid
      = (filterAndSort lower st.searchValue st.sortValue st.allItems).take PAGE_SIZE ∧
    (applyFilterAndRender lower st).displayedCount
      = min PAGE_SIZE (filterAndSort lower st.searchValue st.sortValue st.allItems).length := by
  unfold applyFilterAndRender
  exact renderNextPage_from_zero _ h0 rfl

/-- C20: whatever the state and the cursor before, after the listener of a search-text change
or of a sort-key change has run, `filteredItems` is the newly filtered and sorted list, the
cards shown are exactly its first `min(12, n)` items (`n` its length) and the cursor is
`min(12, n)`; the resulting state does not depend on the cursor or on the cards shown
before. -/
theorem C20_filter_change_resets_cursor (lower : Str → Str) (st : State) :
    ((onSortChange lower st).filteredItems
        = filterAndSort lower st.searchValue st.sortValue st.allItems ∧
      (onSortChange lower st).grid = (onSortChange lower st).filteredItems.take 12 ∧
      (onSortChange lower st).grid.length = min 12 (onSortChange lower st).filteredItems.length ∧
      (onSortChange lower st).displayedCount
        = min 12 (onSortChange lower st).filteredItems.length ∧
      (∀ (d : Nat) (cards : List Record),
        onSortChange lower { st with displayedCount := d, grid := cards }
          = onSortChange lower st)) ∧
    ((onSearchInput lower st).filteredItems
        = filterAndSort lower st.searchValue st.sortValue st.allItems ∧
      (onSearchInput lower st).grid = (onSearchInput lower st).filteredItems.take 12 ∧
      (onSearchInput lower st).grid.length
        = min 12 (onSearchInput lower st).filteredItems.length ∧
      (onSearchInput lower st).displayedCount
        = min 12 (onSearchInput lower st).filteredItems.length ∧
      (∀ (d : Nat) (cards : List Record),
        onSearchInput lower { st with displayedCount := d, grid := cards }
          = onSearchInput lower st)) := by
  have key : ∀ s : State,
      (applyFilterAndRender lower { s with displayedCount := 0 }).filteredItems
        = filterAndSort lower s.searchValue s.sortValue s.allItems ∧
      (applyFilterAndRender lower { s with displayedCount := 0 }).grid
        = (applyFilterAndRender lower { s with displayedCount := 0 }).filteredItems.take 12 ∧
      (applyFilterAndRender lower { s with displayedCount := 0 }).grid.length
        = min 12 (applyFilterAndRender lower { s with displayedCount := 0 }).filteredItems.length ∧
      (applyFilterAndRender lower { s with displayedCount := 0 }).displayedCount
        = min 12 (applyFilterAndRender lower { s with displayedCount := 0 }).filteredItems.length ∧
      (∀ (d : Nat) (cards : List Record),
        applyFilterAndRender lower
            { ({ s with displayedCount := d, grid := cards } : State) with displayedCount := 0 }
          = applyFilterAndRender lower { s with displayedCount := 0 }) := by
    intro s
    have hf := (applyFilterAndRender_allItems lower { s with displayedCount := 0 }).2.2
    have hz := applyFilterAndRender_from_zero lower { s with displayedCount := 0 } rfl
    simp only at hf hz
    refine ⟨hf, ?_, ?_, ?_, ?_⟩
    · rw [hz.1, hf]; rfl
    · rw [hz.1, List.length_take]; rw [hf]; rfl
    · rw [hz.2, hf]; rfl
    · intro d cards
      rfl
  exact ⟨key st, key st⟩


/-- C20, witness: three items, the cursor standing at 7 before the sort key changes. -/
theorem C20_filter_change_resets_cursor_witness :
    (onSortChange asciiLower (demoState History.demoRows 7 none)).grid
      = (onSortChange asciiLower (demoState History.demoRows 7 none)).filteredItems.take 12 ∧
    (onSortChange asciiLower (demoState History.demoRows 7 none)).displayedCount = 4 :=
  ⟨(C20_filter_change_resets_cursor asciiLower (demoState History.demoRows 7 none)).1.2.1,
    by decide⟩

/-- What the confirm listener does to the cache when the request has settled: nothing when
the request failed; after a confirmed delete it removes the items whose id is the value that
`pendingDeleteId` holds at that moment, none when the variable is `null`. -/
theorem onDeleteSettled_allItems (lower : Str → Str) (st : State) :
    (onDeleteSettled lower false st).allItems = st.allItems ∧
    (onDeleteSettled lower true st).allItems
      = st.allItems.filter (fun i => decide (some i.id ≠ st.pendingDeleteId)) ∧
    (st.pendingDeleteId = none → (onDeleteSettled lower true st).allItems = st.allItems) ∧
    (∀ resolved, (onDeleteSettled lower resolved st).pendingDeleteId = none) := by
  have htrue : (onDeleteSettled lower true st).allItems
      = st.allItems.filter (fun i => decide (some i.id ≠ st.pendingDeleteId)) :=
    (applyFilterAndRender_allItems lower _).1
  refine ⟨rfl, htrue, ?_, ?_⟩
  · intro hnone
    rw [htrue, hnone]
    simp
  · intro resolved
    cases resolved <;> rfl

/-- The confirm listener when no other listener runs while its request is in flight: with a
pending id the request is sent for that id; when it fails the cache is as before, and when
the server confirms, the cache loses exactly the records of that id, the others keeping
their order; the pending id is cleared in both outcomes; without a pending id the listener
returns at once. -/
theorem delete_uninterrupted (lower : Str → Str) (st : State) (id : Str)
    (hp : st.pendingDeleteId = some id) (hne : id ≠ []) :
    onDeleteConfirm st = (st, some id) ∧
    onDeleteSettled lower false (onDeleteConfirm st).1
      = { st with deleteOverlayShown := false, pendingDeleteId := none } ∧
    (onDeleteSettled lower true (onDeleteConfirm st).1).allItems
      = st.allItems.filter (fun i => decide (i.id ≠ id)) ∧
    (onDeleteSettled lower true (onDeleteConfirm st).1).allItems.Sublist st.allItems ∧
    (onDeleteSettled lower true (onDeleteConfirm st).1).pendingDeleteId = none ∧
    (∀ st0 : State, st0.pendingDeleteId = none → onDeleteConfirm st0 = (st0, none)) := by
  have he : id.isEmpty = false := by
    cases id with
    | nil => exact absurd rfl hne
    | cons a as => rfl
  have h1 : onDeleteConfirm st = (st, some id) := by
    unfold onDeleteConfirm
    simp only [hp, he]
    rfl
  have hall : (onDeleteSettled lower true (onDeleteConfirm st).1).allItems
      = st.allItems.filter (fun i => decide (i.id ≠ id)) := by
    rw [h1, (onDeleteSettled_allItems lower st).2.1, hp]
    congr 1
    funext i
    simp
  refine ⟨h1, ?_, hall, ?_, ?_, ?_⟩
  · rw [h1]; rfl
  · rw [hall]
    exact List.filter_sublist _
  · exact (onDeleteSettled_allItems lower _).2.2.2 true
  · intro st0 h0
    unfold onDeleteConfirm
    rw [h0]

/-- C19 (the code at the failing input): the cache holds the records `a`, `c` and `d`, and
`c` is pending.  The click on the confirm button sends the delete of `c`, which the server
confirms with 200, removing `c` from the table.  While the request is in flight the user
clicks the cancel button, which is not disabled and resets `pendingDeleteId`; when the
listener resumes, its filter compares with `null` and the cache still holds `c`.  If the
user has also opened the overlay for `a` in the meantime, the listener removes `a`, which
the server still holds, and keeps `c`. -/
theorem C19_cancel_during_delete_keeps_record :
    (onDeleteConfirm (demoState [History.demoRow "a" "u1" 100 50 1,
        History.demoRow "c" "u1" 200 20 3, History.demoRow "d" "u1" 0 0 4] 3
        (some "c".toList))).2 = some "c".toList ∧
    (History.handler History.demoEnv History.demoRows (History.demoDelete "c")).sent.status
      = 200 ∧
    (History.handler History.demoEnv History.demoRows (History.demoDelete "c")).rows
      = [History.demoRow "a" "u1" 100 50 1, History.demoRow "b" "u2" 100 10 2,
          History.demoRow "d" "u1" 0 0 4] ∧
    (onDeleteSettled asciiLower true (onDeleteCancel (demoState
        [History.demoRow "a" "u1" 100 50 1, History.demoRow "c" "u1" 200 20 3,
          History.demoRow "d" "u1" 0 0 4] 3 (some "c".toList)))).allItems
      = [History.demoRow "a" "u1" 100 50 1, History.demoRow "c" "u1" 200 20 3,
          History.demoRow "d" "u1" 0 0 4] ∧
    (onDeleteSettled asciiLower true (openDeleteModal "a".toList (onDeleteCancel (demoState
        [History.demoRow "a" "u1" 100 50 1, History.demoRow "c" "u1" 200 20 3,
          History.demoRow "d" "u1" 0 0 4] 3 (some "c".toList))))).allItems
      = [History.demoRow "c" "u1" 200 20 3, History.demoRow "d" "u1" 0 0 4] := by
  decide


end HistoryView

namespace History

/-- The list of a `GET` response has at most 100 records, as long as offset + page size is
at most `2 ^ 53`. -/
theorem handleGet_page_le (env : Env) (rows : List Record) (req : Req) (res : Res)
    (userId : Str) (h : off req.query.offset + lim req.query.limit ≤ 2 ^ 53) :
    (((handleGet env rows req res userId).1.body.data?).getD []).length ≤ 100 := by
  cases hsel : env.selectError with
  | some message =>
    unfold handleGet runSelect
    simp only [hsel]
    exact Nat.zero_le _
  | none =>
    obtain ⟨data, hget, hperm⟩ := @handleGet_ok env rows req res userId hsel
    rw [hget]
    show data.length ≤ 100
    rw [hperm.length_eq, List.length_take, buildSelect_range_exact _ _ h,
      (buildSelect_range _ _).1]
    have := lim_bounds req.query.limit
    omega

/-- The list in the response to a `GET`, when there is one, has at most 100 records, as
long as offset + page size is at most `2 ^ 53`. -/
theorem handler_get_page_le (env : Env) (rows : List Record) (req : Req)
    (hm : req.method = "GET") (h : off req.query.offset + lim req.query.limit ≤ 2 ^ 53) :
    (((handler env rows req).sent.body.data?).getD []).length ≤ 100 := by
  have hopt : req.method ≠ "OPTIONS" := by rw [hm]; decide
  unfold handler
  rw [if_neg hopt]
  simp only
  split
  · exact Nat.zero_le _
  · split
    · exact Nat.zero_le _
    · split
      · exact Nat.zero_le _
      · exact Nat.zero_le _
      · exact handleGet_page_le _ _ _ _ _ h

end History

namespace HistoryView

open History (Record)

/-- The payload that `apiFetch` returns is the payload of the response. -/
theorem apiFetch_ok {env : History.Env} {rows : List Record} {accessToken : Option Str}
    {method : String} {query : History.Query} {body : Option History.PostBody}
    {data : History.Body} (h : apiFetch env rows accessToken method query body = .ok data) :
    (History.handler env rows
      { method := method, authorization := authorizationHeader accessToken, query := query,
        body := body }).sent.body = data := by
  unfold apiFetch at h
  simp only at h
  by_cases h2 : 200 ≤ (History.handler env rows
      { method := method, authorization := authorizationHeader accessToken, query := query,
        body := body }).sent.status ∧
      (History.handler env rows
      { method := method, authorization := authorizationHeader accessToken, query := query,
        body := body }).sent.status ≤ 299
  · rw [if_pos h2] at h
    injection h
  · rw [if_neg h2] at h
    split at h <;> exact absurd h (by simp)

/-- Whatever the table, the server and the token, the cache holds at most 100 records after
a load through `apiGetHistory` that succeeds. -/
theorem loadHistory_cache_le (lower : Str → Str) (env : History.Env) (rows : List Record)
    (accessToken : Option Str) (st : State) (body : History.Body)
    (hok : apiGetHistory env rows accessToken
      { limit := some 999, offset := some 0, search := none, sort := none } = .ok body) :
    (loadHistory lower (apiGetHistory env rows accessToken) st).allItems.length ≤ 100 := by
  have e : (loadHistory lower (apiGetHistory env rows accessToken) st).allItems
      = body.data?.getD [] := by
    unfold loadHistory
    simp only [hok]
    exact (applyFilterAndRender_allItems lower _).1
  rw [e]
  have hb := apiFetch_ok hok
  rw [← hb]
  refine History.handler_get_page_le _ _ _ rfl ?_
  have h0 : History.off (some (numberToString (orDefault (some 0) 0))) = 0 := by decide
  have h1 := History.lim_bounds (some (numberToString (orDefault (some 999) 12)))
  show History.off (some (numberToString (orDefault (some 0) 0)))
    + History.lim (some (numberToString (orDefault (some 999) 12))) ≤ 2 ^ 53
  rw [h0]
  omega


/-- The list query that the server builds for the request of `loadHistory`: the rows of the
principal, newest first, the positions 0 to 99. -/
theorem buildSelect_load (p : Str) :
    History.buildSelect
      { limit := some (numberToString (orDefault (some 999) 12))
        offset := some (numberToString (orDefault (some 0) 0))
        search := some []
        sort := some "newest".toList
        id := none } p
      = { user_id := p, pattern := none, column := .created_at, ascending := false,
          rangeFrom := 0, rangeTo := 99 } := by
  rfl

/-- The answer to the request of `loadHistory` for a verified principal, when the store
answers: the 100 newest rows of the principal, and the number of rows of the principal. -/
theorem apiGetHistory_load (env : History.Env) (rows : List Record) (tok p : Str)
    (htok : tok ≠ []) (hauth : env.getUser (token ("Bearer ".toList ++ tok)) = .user p)
    (hok : env.selectError = none) :
    apiGetHistory env rows (some tok)
        { limit := some 999, offset := some 0, search := none, sort := none }
      = .ok (History.Body.list
          ((History.order .created_at false
            (rows.filter (fun r => decide (r.user_id = p)))).take 100)
          (rows.filter (fun r => decide (r.user_id = p))).length) := by
  have hh : authorizationHeader (some tok) = some ("Bearer ".toList ++ tok) := by
    cases tok with
    | nil => exact absurd rfl htok
    | cons c cs => rfl
  have hA : History.Authed env
      { method := "GET", authorization := some ("Bearer ".toList ++ tok),
        query :=
          { limit := some (numberToString (orDefault (some 999) 12))
            offset := some (numberToString (orDefault (some 0) 0))
            search := some []
            sort := some "newest".toList
            id := none },
        body := none } p := by
    refine ⟨?_, hauth⟩
    show startsWith bearerPrefix (bearerPrefix ++ tok) = true
    unfold startsWith
    simp
  have hm : History.matching env rows
      { user_id := p, pattern := none, column := .created_at, ascending := false,
        rangeFrom := 0, rangeTo := 99 }
      = rows.filter (fun r => decide (r.user_id = p)) := by
    unfold History.matching
    simp
  have hg := @History.handler_get env rows _ p rfl hA
  have e : apiGetHistory env rows (some tok)
        { limit := some 999, offset := some 0, search := none, sort := none }
      = apiFetch env rows (some tok) "GET"
          { limit := some (numberToString (orDefault (some 999) 12))
            offset := some (numberToString (orDefault (some 0) 0))
            search := some []
            sort := some "newest".toList
            id := none } none := rfl
  rw [e]
  unfold apiFetch
  simp only [hh]
  rw [hg]
  unfold History.handleGet History.runSelect
  simp only [hok, buildSelect_load, hm]
  rfl


set_option maxRecDepth 100000 in
/-- C21 (the code at the failing input): the principal `u1` owns the 101 rows of the table
and the server verifies the token; `loadHistory` asks for 999 records, the server answers
200 with the total 101 and a page of 100 records, and the cache holds those 100 records, the
ones created at the instants 100 down to 1: the oldest row of `u1` is not in the cache. -/
theorem C21_cache_misses_the_oldest_of_101 :
    ((demoTable 101).filter (fun r => decide (r.user_id = "u1".toList))).length = 101 ∧
    (∃ data, apiGetHistory History.demoEnv (demoTable 101) (some "tok".toList)
        { limit := some 999, offset := some 0, search := none, sort := none }
          = .ok (History.Body.list data 101) ∧
      (loadHistory asciiLower
        (apiGetHistory History.demoEnv (demoTable 101) (some "tok".toList))
        (demoState [] 0 none)).allItems = data) ∧
    (loadHistory asciiLower
      (apiGetHistory History.demoEnv (demoTable 101) (some "tok".toList))
      (demoState [] 0 none)).allItems.length = 100 ∧
    (loadHistory asciiLower
      (apiGetHistory History.demoEnv (demoTable 101) (some "tok".toList))
      (demoState [] 0 none)).allItems.map (fun r => r.created_at)
        = (List.range' 1 100).reverse ∧
    ∃ r ∈ demoTable 101, r.user_id = "u1".toList ∧ r.created_at = 0 ∧
      r ∉ (loadHistory asciiLower
        (apiGetHistory History.demoEnv (demoTable 101) (some "tok".toList))
        (demoState [] 0 none)).allItems := by
  have hmap : (loadHistory asciiLower
      (apiGetHistory History.demoEnv (demoTable 101) (some "tok".toList))
      (demoState [] 0 none)).allItems.map (fun r => r.created_at)
        = (List.range' 1 100).reverse := by rfl
  refine ⟨by rfl, ⟨_, by rfl, by rfl⟩, by rfl, hmap, ?_⟩
  refine ⟨{ History.demoRow "r" "u1" 1000 400 0 with id := 'r' :: natToString 0 }, ?_, rfl,
    rfl, ?_⟩
  · unfold demoTable
    rw [List.mem_map]
    exact ⟨0, by simp, rfl⟩
  · intro hmem
    have h0 : (0 : Nat) ∈ (loadHistory asciiLower
        (apiGetHistory History.demoEnv (demoTable 101) (some "tok".toList))
        (demoState [] 0 none)).allItems.map (fun r => r.created_at) :=
      List.mem_map.2 ⟨_, hmem, rfl⟩
    rw [hmap] at h0
    simp at h0


/-- Under the key `biggest-saving` the comparator is the difference of the two percentages. -/
theorem compareItems_biggest_saving (a b : Record) :
    compareItems "biggest-saving".toList a b
      = calcSavingsPct b.original_size b.compressed_size
        - calcSavingsPct a.original_size a.compressed_size := by
  unfold compareItems
  rw [if_neg (by decide), if_pos rfl]

/-- The list stored in `filteredItems` under the key `biggest-saving`. -/
theorem filterAndSort_biggest_saving (lower : Str → Str) (searchValue : Str)
    (allItems : List Record) :
    filterAndSort lower searchValue "biggest-saving".toList allItems
      = (allItems.filter (fun item =>
            (lower searchValue).isEmpty || includes (lower item.filename) (lower searchValue))
          ).insertionSort (fun a b =>
            calcSavingsPct b.original_size b.compressed_size
              ≤ calcSavingsPct a.original_size a.compressed_size) := by
  unfold filterAndSort jsSort
  have hne : ("biggest-saving".toList).isEmpty = false := by decide
  simp only [hne, Bool.false_eq_true, if_false]
  congr 1
  funext a b
  rw [compareItems_biggest_saving]
  exact propext sub_nonpos

set_option maxRecDepth 100000 in
/-- C22, counterexample: the cache holds `a` (1000 to 504 bytes), `b` (1000 to 496), `c`
(1000 to 900) and `d` (1000 to 0) in this order, and under `biggest-saving` the list stays
in this order, because the comparator takes the percentages 50, 50, 10 and 0 of
`calcSavingsPct`; yet the exact saving of `a` (0.496) is below that of `b` (0.504), and the
exact saving of `c` (0.1) is below that of `d` (1), whose percentage is 0 because its
compressed size is 0. -/
theorem C22_order_follows_rounded_percentage :
    (onSortChange asciiLower
      { demoState [History.demoRow "a" "u1" 1000 504 1, History.demoRow "b" "u1" 1000 496 2,
          History.demoRow "c" "u1" 1000 900 3, History.demoRow "d" "u1" 1000 0 4] 0 none with
        sortValue := "biggest-saving".toList }).filteredItems
      = [History.demoRow "a" "u1" 1000 504 1, History.demoRow "b" "u1" 1000 496 2,
          History.demoRow "c" "u1" 1000 900 3, History.demoRow "d" "u1" 1000 0 4] ∧
    History.sav (History.demoRow "a" "u1" 1000 504 1)
      < History.sav (History.demoRow "b" "u1" 1000 496 2) ∧
    History.sav (History.demoRow "c" "u1" 1000 900 3)
      < History.sav (History.demoRow "d" "u1" 1000 0 4) ∧
    calcSavingsPct 1000 504 = 50 ∧ calcSavingsPct 1000 496 = 50 ∧
    calcSavingsPct 1000 900 = 10 ∧ calcSavingsPct 1000 0 = 0 := by
  refine ⟨by rfl, ?_, ?_, by rfl, by rfl, by rfl, by rfl⟩
  · simp [History.sav, History.demoRow]; norm_num
  · simp [History.sav, History.demoRow]

/-- C22 (amended): in the history view with the sort key `biggest-saving`, for every cache
and every search text, the list that a change of the sort key stores in `filteredItems` is a
permutation of the cached records that pass the search filter; it is non-increasing in the
integer `calcSavingsPct(original_size, compressed_size)`, the rounded percentage that is 0
when either size is 0; and two records of which the first has a percentage at least that of
the second, in particular two records with equal percentages, keep their relative order. -/
theorem C22_sorted_by_percentage_stable (lower : Str → Str) (st : State)
    (hs : st.sortValue = "biggest-saving".toList) :
    (onSortChange lower st).filteredItems.Perm
      (st.allItems.filter (fun item =>
        (lower st.searchValue).isEmpty
          || includes (lower item.filename) (lower st.searchValue))) ∧
    (onSortChange lower st).filteredItems.Pairwise (fun a b =>
      calcSavingsPct b.original_size b.compressed_size
        ≤ calcSavingsPct a.original_size a.compressed_size) ∧
    ∀ a b : Record,
      calcSavingsPct b.original_size b.compressed_size
        ≤ calcSavingsPct a.original_size a.compressed_size →
      [a, b].Sublist (st.allItems.filter (fun item =>
        (lower st.searchValue).isEmpty
          || includes (lower item.filename) (lower st.searchValue))) →
      [a, b].Sublist (onSortChange lower st).filteredItems := by
  have hf : (onSortChange lower st).filteredItems
      = filterAndSort lower st.searchValue "biggest-saving".toList st.allItems := by
    unfold onSortChange
    rw [(applyFilterAndRender_allItems lower _).2.2]
    simp only [hs]
  rw [hf, filterAndSort_biggest_saving]
  haveI : IsTotal Record (fun a b => calcSavingsPct b.original_size b.compressed_size
      ≤ calcSavingsPct a.original_size a.compressed_size) := ⟨fun a b => le_total _ _⟩
  haveI : IsTrans Record (fun a b => calcSavingsPct b.original_size b.compressed_size
      ≤ calcSavingsPct a.original_size a.compressed_size) :=
    ⟨fun a b c hab hbc => le_trans hbc hab⟩
  refine ⟨List.perm_insertionSort _ _, List.sorted_insertionSort _ _, ?_⟩
  intro a b hab hsub
  exact List.pair_sublist_insertionSort hab hsub

/-- C22, witness: the three items of `u1` and the item of `u2` under the key
`biggest-saving`. -/
theorem C22_sorted_by_percentage_stable_witness :
    ({ demoState History.demoRows 0 none with
        sortValue := "biggest-saving".toList } : State).sortValue
      = "biggest-saving".toList ∧
    (onSortChange asciiLower { demoState History.demoRows 0 none with
        sortValue := "biggest-saving".toList }).filteredItems.Pairwise (fun a b =>
      calcSavingsPct b.original_size b.compressed_size
        ≤ calcSavingsPct a.original_size a.compressed_size) :=
  ⟨rfl, (C22_sorted_by_percentage_stable asciiLower { demoState History.demoRows 0 none with
        sortValue := "biggest-saving".toList } rfl).2.1⟩


set_option maxRecDepth 100000 in
/-- C23 (the code at the failing input): `calcSavingsPct(40, 17)` is 57, while the saving is
exactly 57.5 percent, which rounds half up to 58: the quotient `17 / 40` is not a binary64
number, and the product computed from its rounding, `8092405580431359 / 2 ^ 47`, lies just
below 57.5.  For `(1000, 400)` both the code and the exact formula give 60. -/
theorem C23_half_percent_rounded_down :
    calcSavingsPct 40 17 = 57 ∧ exactSavingsPct 40 17 = 58 ∧
    Double.mul (Double.sub (Double.ofInt 1) (Double.div (Double.ofInt 17) (Double.ofInt 40)))
      (Double.ofInt 100) = ⟨8092405580431359, -47⟩ ∧
    calcSavingsPct 1000 400 = 60 ∧ exactSavingsPct 1000 400 = 60 := by
  have h1 : Int.floor ((100 : ℚ) * (1 - ((17 : Int) : ℚ) / ((40 : Int) : ℚ)) + 1 / 2) = 58 := by
    rw [Int.floor_eq_iff]; norm_num
  have h2 : Int.floor ((100 : ℚ) * (1 - ((400 : Int) : ℚ) / ((1000 : Int) : ℚ)) + 1 / 2)
      = 60 := by
    rw [Int.floor_eq_iff]; norm_num
  refine ⟨by rfl, ?_, by rfl, by rfl, ?_⟩
  · unfold exactSavingsPct
    rw [h1]; rfl
  · unfold exactSavingsPct
    rw [h2]; rfl


/-- The slice `l.slice(d, d + 12)` holds the items at the positions `d` to
`min(d + 12, l.length) - 1`. -/
theorem slice_page {α : Type} (l : List α) (d : Nat) :
    (l.drop d).take PAGE_SIZE = (l.take (min (d + PAGE_SIZE) l.length)).drop d := by
  rw [List.drop_take]
  rw [List.take_eq_take, List.length_drop]
  unfold PAGE_SIZE
  omega

/-- One `renderNextPage` step from a cursor within the list. -/
theorem renderNextPage_step (st : State) (h : st.displayedCount ≤ st.filteredItems.length) :
    (renderNextPage st).grid
      = st.grid ++ (st.filteredItems.take
          (min (st.displayedCount + PAGE_SIZE) st.filteredItems.length)).drop
            st.displayedCount ∧
    (renderNextPage st).displayedCount
      = min (st.displayedCount + PAGE_SIZE) st.filteredItems.length := by
  unfold renderNextPage
  simp only
  split
  · rename_i hlen
    have hnil : st.filteredItems = [] := List.length_eq_zero.1 hlen
    rw [hlen] at h
    simp [hnil]
    omega
  · rw [slice_page]
    refine ⟨rfl, ?_⟩
    simp only [List.length_drop, List.length_take]
    unfold PAGE_SIZE
    omega

/-- What `renderNextPage` does to the load-more control. -/
theorem renderNextPage_loadMore (st : State) :
    (renderNextPage st).loadMoreShown
      = if st.filteredItems.length = 0 then st.loadMoreShown
        else decide ((renderNextPage st).displayedCount < st.filteredItems.length) := by
  unfold renderNextPage
  simp only
  split <;> rfl

/-- A run of positions ending at `d`, extended by the positions `d` to `e - 1`. -/
theorem run_extend {α : Type} (l : List α) (k d e : Nat) (hkd : k ≤ d) (hde : d ≤ e)
    (hel : e ≤ l.length) :
    (l.take d).drop k ++ (l.take e).drop d = (l.take e).drop k := by
  have h1 : l.take d = (l.take e).take d := by rw [List.take_take, min_eq_left hde]
  rw [h1]
  conv_rhs => rw [← List.take_append_drop d (l.take e)]
  rw [List.drop_append_of_le_length]
  simp only [List.length_take]
  omega

/-- The three properties of the cursor after a `renderNextPage` step. -/
theorem renderNextPage_inv (st : State) (h : st.displayedCount ≤ st.filteredItems.length) :
    (renderNextPage st).displayedCount ≤ (renderNextPage st).filteredItems.length ∧
    (gridIsRun st → gridIsRun (renderNextPage st)) ∧
    (st.loadMoreShown = decide (st.displayedCount < st.filteredItems.length) →
      (renderNextPage st).loadMoreShown
        = decide ((renderNextPage st).displayedCount
            < (renderNextPage st).filteredItems.length)) := by
  obtain ⟨hg, hd⟩ := renderNextPage_step st h
  have hf := (renderNextPage_allItems st).2.2
  have hl := renderNextPage_loadMore st
  refine ⟨?_, ?_, ?_⟩
  · rw [hd, hf]; omega
  · intro hr
    unfold gridIsRun at hr ⊢
    have hlen := congrArg List.length hr
    simp only [List.length_drop, List.length_take] at hlen
    rw [hf, hg, hd]
    have hk : min (st.displayedCount + PAGE_SIZE) st.filteredItems.length
        - (st.grid ++ (st.filteredItems.take
          (min (st.displayedCount + PAGE_SIZE) st.filteredItems.length)).drop
            st.displayedCount).length = st.displayedCount - st.grid.length := by
      simp only [List.length_append, List.length_drop, List.length_take]
      omega
    rw [hk]
    conv_lhs => rw [hr]
    exact run_extend _ _ _ _ (Nat.sub_le _ _) (by omega) (by omega)
  · intro hs
    rw [hl, hf]
    split
    · rename_i hlen
      rw [hs, hd, hlen]
      rw [hlen] at h
      have h0 : st.displayedCount = 0 := by omega
      rw [h0]
      rfl
    · rfl

/-- The three properties of the cursor after `applyFilterAndRender` has run from the
cursor 0. -/
theorem applyFilterAndRender_inv (lower : Str → Str) (st : State)
    (h0 : st.displayedCount = 0) :
    (applyFilterAndRender lower st).displayedCount
      ≤ (applyFilterAndRender lower st).filteredItems.length ∧
    gridIsRun (applyFilterAndRender lower st) ∧
    (applyFilterAndRender lower st).loadMoreShown
      = decide ((applyFilterAndRender lower st).displayedCount
          < (applyFilterAndRender lower st).filteredItems.length) := by
  have key := renderNextPage_inv (clearGrid
    { st with filteredItems := filterAndSort lower st.searchValue st.sortValue st.allItems })
    (by show st.displayedCount ≤ _; omega)
  have hl := renderNextPage_loadMore (clearGrid
    { st with filteredItems := filterAndSort lower st.searchValue st.sortValue st.allItems })
  have hf := (renderNextPage_allItems (clearGrid
    { st with filteredItems := filterAndSort lower st.searchValue st.sortValue st.allItems })).2.2
  refine ⟨key.1, key.2.1 ?_, ?_⟩
  · show ([] : List Record)
      = ((filterAndSort lower st.searchValue st.sortValue st.allItems).take
          st.displayedCount).drop (st.displayedCount - ([] : List Record).length)
    rw [h0]
    rfl
  · unfold applyFilterAndRender
    rw [hl, hf]
    split
    · rename_i hlen
      rw [hlen]
      rfl
    · rfl

/-- Each operation leaves the list, the cursor, the grid and the load-more control as they
were, or as `renderNextPage` leaves them, or as `applyFilterAndRender` leaves them when run
from the cursor 0; a load that fails empties the grid and hides the control. -/
theorem operations_cases (lower : Str → Str)
    (getHistory : GetParams → Except Str History.Body) (resolved : Bool) (id : Str)
    (st st' : State) (hm : st' ∈ operations lower getHistory resolved id st) :
    (∃ s, (s = st ∨ s = renderNextPage st ∨
          ∃ t : State, t.displayedCount = 0 ∧ s = applyFilterAndRender lower t) ∧
        st'.filteredItems = s.filteredItems ∧ st'.displayedCount = s.displayedCount ∧
        st'.grid = s.grid ∧ st'.loadMoreShown = s.loadMoreShown) ∨
    ((∃ message, getHistory
          { limit := some 999, offset := some 0, search := none, sort := none }
            = .error message) ∧
      st' = loadHistory lower getHistory st ∧
      st'.filteredItems = st.filteredItems ∧ st'.displayedCount = st.displayedCount ∧
      st'.grid = [] ∧ st'.loadMoreShown = false) := by
  unfold operations at hm
  simp only [List.mem_cons, List.mem_singleton, List.not_mem_nil, or_false] at hm
  rcases hm with rfl | rfl | rfl | rfl | rfl | rfl | rfl | rfl
  · exact Or.inl ⟨_, Or.inr (Or.inl rfl), rfl, rfl, rfl, rfl⟩
  · exact Or.inl ⟨_, Or.inr (Or.inr ⟨{ st with displayedCount := 0 }, rfl, rfl⟩),
      rfl, rfl, rfl, rfl⟩
  · exact Or.inl ⟨_, Or.inr (Or.inr ⟨{ st with displayedCount := 0 }, rfl, rfl⟩),
      rfl, rfl, rfl, rfl⟩
  · have e : (onDeleteConfirm st).1 = st := by
      unfold onDeleteConfirm
      split
      · rfl
      · split <;> rfl
    rw [e]
    exact Or.inl ⟨st, Or.inl rfl, rfl, rfl, rfl, rfl⟩
  · cases resolved with
    | true =>
      exact Or.inl ⟨_, Or.inr (Or.inr ⟨{ st with
        allItems := st.allItems.filter (fun i => decide (some i.id ≠ st.pendingDeleteId))
        displayedCount := 0 }, rfl, rfl⟩), rfl, rfl, rfl, rfl⟩
    | false => exact Or.inl ⟨st, Or.inl rfl, rfl, rfl, rfl, rfl⟩
  · cases hg : getHistory
        { limit := some 999, offset := some 0, search := none, sort := none } with
    | ok body =>
      have e : loadHistory lower getHistory st = applyFilterAndRender lower
          { clearGrid { st with loadingShown := true } with
            allItems := body.data?.getD [], displayedCount := 0 } := by
        unfold loadHistory
        simp only [hg]
      rw [e]
      exact Or.inl ⟨_, Or.inr (Or.inr ⟨_, rfl, rfl⟩), rfl, rfl, rfl, rfl⟩
    | error message =>
      have e : loadHistory lower getHistory st =
          { clearGrid { st with loadingShown := true } with
            loadingShown := false, emptyShown := true } := by
        unfold loadHistory
        simp only [hg]
      refine Or.inr ⟨⟨message, rfl⟩, rfl, ?_⟩
      rw [e]
      exact ⟨rfl, rfl, rfl, rfl⟩
  · exact Or.inl ⟨st, Or.inl rfl, rfl, rfl, rfl, rfl⟩
  · exact Or.inl ⟨st, Or.inl rfl, rfl, rfl, rfl, rfl⟩

/-- Whether the grid is a run ending at the cursor depends on the list, the cursor and the
grid only. -/
theorem gridIsRun_congr {s t : State} (hf : t.filteredItems = s.filteredItems)
    (hd : t.displayedCount = s.displayedCount) (hg : t.grid = s.grid) :
    gridIsRun t ↔ gridIsRun s := by
  unfold gridIsRun
  rw [hf, hd, hg]

/-- C24 (amended): for every state of the history view whose cursor `d` is at most the
length `n` of the filtered list, one `renderNextPage` step appends to the grid exactly the
items at the positions `d` to `min(d + 12, n) - 1` of the filtered list, in order, and sets
the cursor to `min(d + 12, n)`, the list staying as it is; the cursor does not decrease
under load-more; every operation (load-more, change of the search text, change of the sort
key, confirmed or failed delete, load that succeeds or fails, opening and cancelling the
delete overlay) leads to a state whose cursor is at most the length of its filtered list,
and to one whose grid holds the items at consecutive positions ending at the cursor (no
position twice) if the grid did so before.  A `renderNextPage` step on a non-empty list
leaves the load-more control shown exactly when the new cursor is below `n`; a step on an
empty list does not touch the control; and if the control was shown exactly when
`d < n`, the same holds after every operation other than a load that fails, which hides
the control and keeps the list and the cursor. -/
theorem C24_pagination_cursor (lower : Str → Str)
    (getHistory : GetParams → Except Str History.Body) (resolved : Bool) (id : Str)
    (st : State) (h : st.displayedCount ≤ st.filteredItems.length) :
    (renderNextPage st).grid
      = st.grid ++ (st.filteredItems.take
          (min (st.displayedCount + 12) st.filteredItems.length)).drop st.displayedCount ∧
    (renderNextPage st).displayedCount
      = min (st.displayedCount + 12) st.filteredItems.length ∧
    (renderNextPage st).filteredItems = st.filteredItems ∧
    st.displayedCount ≤ (onLoadMore st).displayedCount ∧
    (∀ st' ∈ operations lower getHistory resolved id st,
      st'.displayedCount ≤ st'.filteredItems.length) ∧
    (gridIsRun st → ∀ st' ∈ operations lower getHistory resolved id st, gridIsRun st') ∧
    (st.filteredItems ≠ [] →
      (renderNextPage st).loadMoreShown
        = decide ((renderNextPage st).displayedCount < st.filteredItems.length)) ∧
    (st.filteredItems = [] → (renderNextPage st).loadMoreShown = st.loadMoreShown) ∧
    (st.loadMoreShown = decide (st.displayedCount < st.filteredItems.length) →
      ∀ st' ∈ operations lower getHistory resolved id st,
        st'.loadMoreShown = decide (st'.displayedCount < st'.filteredItems.length) ∨
        ((∃ message, getHistory
            { limit := some 999, offset := some 0, search := none, sort := none }
              = .error message) ∧
          st' = loadHistory lower getHistory st ∧ st'.loadMoreShown = false ∧
          st'.filteredItems = st.filteredItems ∧
          st'.displayedCount = st.displayedCount)) := by
  obtain ⟨hg, hd⟩ := renderNextPage_step st h
  have hf := (renderNextPage_allItems st).2.2
  have hl := renderNextPage_loadMore st
  have hinv := renderNextPage_inv st h
  refine ⟨hg, hd, hf, ?_, ?_, ?_, ?_, ?_, ?_⟩
  · show st.displayedCount ≤ (renderNextPage st).displayedCount
    rw [hd]; omega
  · intro st' hm
    rcases operations_cases lower getHistory resolved id st st' hm with
      ⟨s, hs, e1, e2, _, _⟩ | ⟨_, _, e1, e2, _, _⟩
    · rw [e1, e2]
      rcases hs with rfl | rfl | ⟨t, ht, rfl⟩
      · exact h
      · exact hinv.1
      · exact (applyFilterAndRender_inv lower t ht).1
    · rw [e1, e2]; exact h
  · intro hr st' hm
    rcases operations_cases lower getHistory resolved id st st' hm with
      ⟨s, hs, e1, e2, e3, _⟩ | ⟨_, _, e1, e2, e3, _⟩
    · rw [gridIsRun_congr e1 e2 e3]
      rcases hs with rfl | rfl | ⟨t, ht, rfl⟩
      · exact hr
      · exact hinv.2.1 hr
      · exact (applyFilterAndRender_inv lower t ht).2.1
    · unfold gridIsRun
      rw [e1, e2, e3]
      simp only [List.length_nil, Nat.sub_zero]
      symm
      rw [List.drop_eq_nil_iff]
      simp only [List.length_take]
      omega
  · intro hne
    rw [hl, if_neg (fun h0 => hne (List.length_eq_zero.1 h0))]
  · intro hnil
    rw [hl, if_pos (by rw [hnil]; rfl)]
  · intro hs st' hm
    rcases operations_cases lower getHistory resolved id st st' hm with
      ⟨s, hs', e1, e2, _, e4⟩ | ⟨hmsg, hst, e1, e2, _, e4⟩
    · left
      rw [e1, e2, e4]
      rcases hs' with rfl | rfl | ⟨t, ht, rfl⟩
      · exact hs
      · exact hinv.2.2 hs
      · exact (applyFilterAndRender_inv lower t ht).2.2
    · exact Or.inr ⟨hmsg, hst, e4, e1, e2⟩

/-- C24, witness: four items of which two are shown; the step appends the items at the
positions 2 and 3 and the cursor becomes 4. -/
theorem C24_pagination_cursor_witness :
    (demoState History.demoRows 2 none).displayedCount
      ≤ (demoState History.demoRows 2 none).filteredItems.length ∧
    (renderNextPage (demoState History.demoRows 2 none)).grid
      = (demoState History.demoRows 2 none).grid
        ++ ((demoState History.demoRows 2 none).filteredItems.take
          (min ((demoState History.demoRows 2 none).displayedCount + 12)
            (demoState History.demoRows 2 none).filteredItems.length)).drop
              (demoState History.demoRows 2 none).displayedCount ∧
    (renderNextPage (demoState History.demoRows 2 none)).displayedCount = 4 ∧
    (renderNextPage (demoState History.demoRows 2 none)).loadMoreShown = false :=
  ⟨by decide,
    (C24_pagination_cursor asciiLower (fun _ => .error []) true []
      (demoState History.demoRows 2 none) (by decide)).1,
    by decide, by decide⟩

/-- C24, counterexample: (1) a state with an empty filtered list, the cursor 0 and the
load-more control shown: `renderNextPage` returns before it reaches the control, which stays
shown although the cursor equals the length of the list; (2) fifteen items of which twelve
are shown, the control shown: a load that fails hides the control and keeps the list and
the cursor, so that the control is hidden although the cursor 12 is below the length 15. -/
theorem C24_load_more_control_apart_from_cursor :
    (renderNextPage { demoState [] 0 none with loadMoreShown := true }).loadMoreShown = true ∧
    (renderNextPage { demoState [] 0 none with loadMoreShown := true }).displayedCount = 0 ∧
    (renderNextPage { demoState [] 0 none with loadMoreShown := true }).filteredItems.length
      = 0 ∧
    (demoState (demoTable 15) 12 none).loadMoreShown = true ∧
    (loadHistory asciiLower (fun _ => .error "Failed to fetch".toList)
      (demoState (demoTable 15) 12 none)).loadMoreShown = false ∧
    (loadHistory asciiLower (fun _ => .error "Failed to fetch".toList)
      (demoState (demoTable 15) 12 none)).displayedCount = 12 ∧
    (loadHistory asciiLower (fun _ => .error "Failed to fetch".toList)
      (demoState (demoTable 15) 12 none)).filteredItems.length = 15 := by
  refine ⟨by rfl, by rfl, by rfl, by rfl, by rfl, by rfl, by rfl⟩

end HistoryView

end VidCrunch
